import Mathlib

/-!
# aird: thermal and power control core (`src/monitor.cpp`)

A shallow embedding of `monitor_impl` and of the sysfs objects it drives.

Conventions of the embedding:

* A `double` is the rational number it stands for; comparisons, `std::min` and
  `std::max` are exact on doubles. Where the source truncates a computed double
  to an integer or compares it with a configured percentage, the arithmetic is
  rounded as the hardware does it (`round_double`: IEEE 754 binary64, round to
  nearest, ties to even): the difference and the quotient of the fan index in
  `check_fan`, the products `1e-6*value` of `power::energy_now` and
  `power::energy_full`, and the product and the quotient of the percentage in
  `cpu_max_speed`. The other sums, products and quotients (`1e-3*value` of a
  temperature input, `(hot + cold)/2.0`, the power estimate) are taken without
  rounding. Infinities, NaN and the sign of a zero are not values of the model:
  a rounded result above `DBL_MAX` in magnitude stands for an infinity, and a
  quotient with the divisor zero is treated apart in `cpu_max_speed` and
  `current_power`; the fan index is used with `fan_temp_delta > 0` only.
* `unsigned` is 32 bits wide: arithmetic on it is reduced modulo `2 ^ 32`
  wherever the source computes in `unsigned`.
* `size_t` is 64 bits wide. The tick counter `m_history_count` advances by one
  per tick and is kept as a natural number; a `size_t` difference that would go
  below zero wraps by `2 ^ 64`.
* A sysfs attribute file is an `Option`: `none` when the file cannot be opened
  (then `object::get` and `object::set` throw `std::runtime_error`), `some v`
  when it can and holds `v`. A write replaces the content. The content of a
  file that can be opened is taken to parse as the type it is read at.
* A member function that can throw or has no defined result returns an
  `outcome`; the state carried by `thrown` is the state at the throw, which is
  what the `catch` in `on_periodic_check` is left with.
* `int` is 32 bits wide, two's complement: an `int` sum that leaves the range
  wraps, and the conversion of a `double` outside the range gives `INT_MIN`.
* The library function `std::pow` is a parameter `pow` of the functions that
  call it.
* A backlight is one device behind its files: the level written to
  `brightness` is what `actual_brightness` shows from then on.
* The member functions are modelled with the level of the logger above
  `DEBUG`, where an `LDEBUG` line evaluates nothing. The one `LDEBUG` line whose
  message reads a vector, in `check_cpu`, is modelled by `check_cpu_logged`,
  which takes the level as a parameter. The text of the messages and the two
  deadline timers are left out.
-/

namespace aird

/-- Number of values of a C++ `unsigned`. -/
def UNSIGNED_RANGE : Nat := 2 ^ 32

/-- Number of values of a C++ `size_t`. -/
def SIZE_RANGE : Nat := 2 ^ 64

/-- The struct `monitor::settings::power_mode` of `monitor.h`. -/
structure power_mode where
  idle_timeout : Nat := 120
  display_backlight_idle_level : Nat := 100
  keyboard_backlight_idle_level : Nat := 0
  fan_hot_delay : Nat := 40
  fan_cold_delay : Nat := 20
  fan_speed_min : Nat := 2000
  fan_speed_max : Nat := 6500
  fan_speed_delta : Nat := 500
  fan_temp_min : ℚ := 40
  fan_temp_delta : ℚ := 5
  cpu_hot_delay : Nat := 10
  cpu_cold_delay : Nat := 20
  cpu_temp_hot : ℚ := 90
  cpu_temp_cold : ℚ := 70
  cpu_throttle_delay : Nat := 10
  cpu_unthrottle_delay : Nat := 10
  cpu_max_speed : Nat := 2000000
  deriving DecidableEq

/-- The struct `monitor::settings::brightness` of `monitor.h`; the defaults are
those of the display backlight. -/
structure brightness where
  exponent : ℚ := 4
  delta : ℚ := 1 / 5
  delta_slow : ℚ := 1 / 20
  deriving DecidableEq

/-- The numeric members of `monitor::settings` (`monitor.h`) that the control
code reads; the defaults are those of `settings::add_options`. -/
structure settings where
  display_backlight : brightness := {}
  keyboard_backlight : brightness := { exponent := 2, delta := 1, delta_slow := 1 / 4 }
  check_interval : Nat := 1
  power_interval : Nat := 30
  power_measurements : Nat := 3
  on_ac : power_mode := {}
  on_battery : power_mode :=
    { idle_timeout := 30, display_backlight_idle_level := 50, cpu_max_speed := 1600000 }
  powersave_min_energy_percent : ℚ := 10
  powersave_cpu_max_speed : Nat := 1000000
  min_safe_display_backlight : Nat := 50
  deriving DecidableEq

/-- The files of class `fan` that `applesmc::set_fan_speed` touches:
`fanN_manual` and `fanN_output` (read as `double`, written as `unsigned`). -/
structure fan where
  manual : Option Bool := some false
  output : Option ℚ := some 2000
  deriving DecidableEq

/-- The files of class `cpu` that the governor touches. `configurable()` is
`exists()` of `scaling_available_frequencies`. -/
structure cpu where
  scaling_available_frequencies : Option (List Nat) := none
  scaling_max_freq : Option Nat := none
  deriving DecidableEq

/-- The files of class `power` that the control code reads: `online`,
`charge_full` and `charge_now`. -/
structure power where
  online : Option Bool := none
  charge_full : Option ℚ := none
  charge_now : Option ℚ := none
  deriving DecidableEq

/-- The files of class `led`: `actual_brightness`, `brightness` and
`max_brightness`, each read as `unsigned`. -/
structure led where
  actual_brightness : Option Nat := none
  brightness : Option Nat := none
  max_brightness : Option Nat := none
  deriving DecidableEq

/-- The data members of `monitor_impl` that the periodic check and the event
callbacks read or write. `m_coretemp` holds the `tempN_input` files of the
coretemp device (millidegrees), `m_fan` the fans of `m_applesmc`,
`m_kbd_backlight` its keyboard backlight, `m_cpuinfo` the vector
`cpuinfo::m_cpu`, `m_backlight` the display backlight. -/
structure monitor_impl where
  m_coretemp : List (Option ℚ) := []
  m_fan : List fan := []
  m_kbd_backlight : led := {}
  m_cpuinfo : List cpu := []
  m_backlight : led := {}
  m_ac : power := {}
  m_battery : power := {}
  m_original_display_backlight : Nat := 0
  m_original_keyboard_backlight : Nat := 0
  m_idle_level : Nat := 0
  m_saved_display_backlight : Nat := 0
  m_saved_keyboard_backlight : Nat := 0
  m_on_ac : Bool := true
  m_temp_history : List ℚ := []
  m_energy_history : List ℚ := []
  m_history_size : Nat := 0
  m_history_count : Nat := 0
  m_fan_temp : ℚ := -300
  m_fan_hot : ℚ := 0
  m_fan_cold : ℚ := 0
  m_cpu_temp : ℚ := -300
  m_cpu_hot : ℚ := 0
  m_cpu_cold : ℚ := 0
  m_cpu_throttle_time : Nat := 0
  m_cpu_unthrottle_time : Nat := 0
  m_set : settings := {}
  deriving DecidableEq

/-- How a call of a member function ends: it returns (`done`), a
`std::runtime_error` leaves it (`thrown`, with the state at the throw), or it
has no defined result (`undefined`: a division by zero, a vector read out of
range, a loop that does not end within the fuel). -/
inductive outcome where
  | done (m : monitor_impl)
  | thrown (m : monitor_impl)
  | undefined
  deriving DecidableEq

/-- `HISTORY_LENGTH`, five minutes in seconds. -/
def HISTORY_LENGTH : Nat := 300

/-- The constructor `monitor_impl::monitor_impl`: the history capacity is
`ceil(HISTORY_LENGTH / check_interval)`, both vectors are resized to it (filled
with `0.0`), the counter is zero and the estimates are unseeded (`-300.0`).
The two original backlight levels are read from the `brightness` files and
`m_on_ac` from the `online` file of the AC supply; `none` when the constructor
throws at one of these reads or divides by a zero `check_interval`. -/
def monitor_impl.init (set : settings) (coretemp : List (Option ℚ)) (fans : List fan)
    (cpus : List cpu) (ac battery : power) (backlight keyboard_backlight : led) :
    Option monitor_impl :=
  match backlight.brightness, keyboard_backlight.brightness, ac.online with
  | some original_display, some original_keyboard, some online =>
    if set.check_interval = 0 then none
    else
      let size := (HISTORY_LENGTH + set.check_interval - 1) / set.check_interval
      some
        { m_coretemp := coretemp
          m_fan := fans
          m_kbd_backlight := keyboard_backlight
          m_cpuinfo := cpus
          m_backlight := backlight
          m_ac := ac
          m_battery := battery
          m_original_display_backlight := original_display
          m_original_keyboard_backlight := original_keyboard
          m_idle_level := 0
          m_saved_display_backlight := 0
          m_saved_keyboard_backlight := 0
          m_on_ac := online
          m_temp_history := List.replicate size 0
          m_energy_history := List.replicate size 0
          m_history_size := size
          m_history_count := 0
          m_fan_temp := -300
          m_fan_hot := 0
          m_fan_cold := 0
          m_cpu_temp := -300
          m_cpu_hot := 0
          m_cpu_cold := 0
          m_cpu_throttle_time := 0
          m_cpu_unthrottle_time := 0
          m_set := set }
  | _, _, _ => none

/-- The largest finite `double`. -/
def DBL_MAX : ℚ := 2 ^ 1024 - 2 ^ 971

/-- The exponent of the spacing of the doubles around `x`: `e - 52` for
`2 ^ e ≤ |x| < 2 ^ (e + 1)`, and `-1074`, the spacing of the subnormal
doubles, for a smaller `|x|`. -/
def ulp_exponent (x : ℚ) : ℤ :=
  max (Int.log 2 |x| - 52) (-1074)

/-- The integer nearest to `x`, the even one of the two when `x` lies halfway. -/
def round_half_even (x : ℚ) : ℤ :=
  if x - ⌊x⌋ < 1 / 2 then ⌊x⌋
  else if 1 / 2 < x - ⌊x⌋ then ⌊x⌋ + 1
  else if ⌊x⌋ % 2 = 0 then ⌊x⌋
  else ⌊x⌋ + 1

/-- The `double` that an arithmetic operation on doubles returns when its exact
result is `x` (IEEE 754 binary64, round to nearest, ties to even): the multiple
of the spacing at `x` that is nearest to `x`. A value above `DBL_MAX` in
magnitude stands for an infinite result. -/
def round_double (x : ℚ) : ℚ :=
  round_half_even (x / 2 ^ ulp_exponent x) * 2 ^ ulp_exponent x

/-- The `double` literal `1e-6`: the double nearest to one millionth. -/
def DOUBLE_1E_6 : ℚ := 4722366482869645 / 2 ^ 72

/-- The product `1e-6*value` of `power::energy_now` and `power::energy_full`,
rounded to a double. -/
def scale_micro (value : ℚ) : ℚ :=
  round_double (DOUBLE_1E_6 * value)

/-- The loop of `coretemp::current_max_temp`, started at `cur`: every
`temp::input()` is `1e-3` times the file content; `none` when a read throws. -/
def current_max_temp_from (cur : ℚ) : List (Option ℚ) → Option ℚ
  | [] => some cur
  | none :: _ => none
  | some raw :: rest => current_max_temp_from (max cur (raw / 1000)) rest

/-- The function `coretemp::current_max_temp`: the largest input, starting from `-300.0`. -/
def current_max_temp (temps : List (Option ℚ)) : Option ℚ :=
  current_max_temp_from (-300) temps

/-- The function `power::energy_now`: `1e-6` times `charge_now`. -/
def power.energy_now (p : power) : Option ℚ :=
  p.charge_now.map scale_micro

/-- The function `power::energy_full`: `1e-6` times `charge_full`. -/
def power.energy_full (p : power) : Option ℚ :=
  p.charge_full.map scale_micro

/-- The function `monitor_impl::power_settings`. -/
def power_settings (m : monitor_impl) : power_mode :=
  if m.m_on_ac then m.m_set.on_ac else m.m_set.on_battery

/-- The function `monitor_impl::update_stats`. The AC flag is assigned first,
then the counter is advanced, then the temperature is read and stored, then the
energy; a throw leaves what was assigned before it. Both vectors have the
length `m_history_size` given by the constructor. -/
def update_stats (m : monitor_impl) : outcome :=
  match m.m_ac.online with
  | none => .thrown m
  | some online =>
    let m1 := { m with m_on_ac := online }
    if m1.m_history_size = 0 then .undefined
    else
      let m2 := { m1 with m_history_count := m1.m_history_count + 1 }
      let index := m2.m_history_count % m2.m_history_size
      match current_max_temp m2.m_coretemp with
      | none => .thrown m2
      | some t =>
        let m3 := { m2 with m_temp_history := m2.m_temp_history.set index t }
        match m3.m_battery.energy_now with
        | none => .thrown m3
        | some e => .done { m3 with m_energy_history := m3.m_energy_history.set index e }

/-- The four window extremes that the loop of `run_checks` accumulates. -/
structure window_bounds where
  fan_cold : ℚ := -300
  fan_hot : ℚ := 1000
  cpu_cold : ℚ := -300
  cpu_hot : ℚ := 1000
  deriving DecidableEq

/-- The `size_t` expression `(m_history_count - i) % m_history_size` of
`run_checks`, `i` being an `unsigned` widened to `size_t`. -/
def history_index (m : monitor_impl) (i : Nat) : Nat :=
  (if i ≤ m.m_history_count then m.m_history_count - i
   else m.m_history_count + SIZE_RANGE - i) % m.m_history_size

/-- The body of the `for` loop of `run_checks` for one sample `t` of age `dt`. -/
def run_checks_body (ps : power_mode) (dt : Nat) (t : ℚ) (b : window_bounds) : window_bounds :=
  { fan_hot := if dt ≤ ps.fan_hot_delay then min b.fan_hot t else b.fan_hot
    fan_cold := if dt ≤ ps.fan_cold_delay then max b.fan_cold t else b.fan_cold
    cpu_hot := if dt ≤ ps.cpu_hot_delay then min b.cpu_hot t else b.cpu_hot
    cpu_cold := if dt ≤ ps.cpu_cold_delay then max b.cpu_cold t else b.cpu_cold }

/-- The loop `for (unsigned i = 0, dt = 0; dt <= delay; ++i, dt += check_interval)`
of `run_checks`, entered with the current `i`, `dt` and extremes. Both counters
are `unsigned` and wrap at `2 ^ 32`. The first argument is the fuel: `none`
when the loop has not ended after that many iterations. -/
def run_checks_loop (m : monitor_impl) (ps : power_mode) (delay : Nat) :
    Nat → Nat → Nat → window_bounds → Option window_bounds
  | 0, _, _, _ => none
  | fuel + 1, i, dt, b =>
    if dt ≤ delay then
      let t := m.m_temp_history.getD (history_index m i) 0
      run_checks_loop m ps delay fuel ((i + 1) % UNSIGNED_RANGE)
        ((dt + m.m_set.check_interval) % UNSIGNED_RANGE) (run_checks_body ps dt t b)
    else some b

/-- Conversion of a `double` to `unsigned` as the x86-64 code does it
(`cvttsd2si` into a 64-bit register, of which the low 32 bits are kept): the
value is truncated toward zero; a value outside the range of a 64-bit integer
leaves the low 32 bits zero. Inside `[0, 2 ^ 32)` this is the conversion the
C++ standard defines; outside of it the standard leaves the result undefined. -/
def double_to_unsigned (x : ℚ) : Nat :=
  let t := if 0 ≤ x then ⌊x⌋ else ⌈x⌉
  if -2 ^ 63 ≤ t ∧ t < 2 ^ 63 then (t % (UNSIGNED_RANGE : ℤ)).toNat else 0

/-- The ratchet at the head of `check_fan`. -/
def fan_ratchet (m : monitor_impl) : monitor_impl :=
  if m.m_fan_hot > m.m_fan_temp then { m with m_fan_temp := m.m_fan_hot }
  else if m.m_fan_cold < m.m_fan_temp then { m with m_fan_temp := m.m_fan_cold }
  else m

/-- The `unsigned fan_ix` of `check_fan` for the estimate `fan_temp`:
`(fan_temp - fan_temp_min)/fan_temp_delta`, the difference and the quotient
each rounded to a double, converted to `unsigned`. An infinite difference
gives an infinite quotient, which the conversion turns into zero. -/
def fan_ix (ps : power_mode) (fan_temp : ℚ) : Nat :=
  let difference := round_double (fan_temp - ps.fan_temp_min)
  if DBL_MAX < |difference| then 0
  else double_to_unsigned (round_double (difference / ps.fan_temp_delta))

/-- The `unsigned fan_speed` of `check_fan` for the estimate `fan_temp`:
`std::min(fan_speed_min + fan_ix*fan_speed_delta, fan_speed_max)`, the sum and
the product computed in `unsigned`. -/
def fan_speed (ps : power_mode) (fan_temp : ℚ) : Nat :=
  min ((ps.fan_speed_min + fan_ix ps fan_temp * ps.fan_speed_delta) % UNSIGNED_RANGE)
    ps.fan_speed_max

/-- The function `applesmc::set_fan_speed` on the fans from the current one on.
The flag is `false` when a read or write threw; the fans handled before the
throw keep what was written to them. -/
def set_fan_speed (value : Nat) : List fan → Bool × List fan
  | [] => (true, [])
  | f :: rest =>
    match f.manual with
    | none => (false, f :: rest)
    | some manual =>
      let f1 := if !manual then { f with manual := some true } else f
      match f1.output with
      | none => (false, f1 :: rest)
      | some output =>
        let f2 := if output ≠ (value : ℚ) then { f1 with output := some (value : ℚ) } else f1
        let r := set_fan_speed value rest
        (r.1, f2 :: r.2)

/-- The call `m_applesmc.set_fan_speed(value)` on the monitor: the actuator
step of `check_fan`. -/
def applesmc_set_fan_speed (value : Nat) (m : monitor_impl) : outcome :=
  let r := set_fan_speed value m.m_fan
  if r.1 then .done { m with m_fan := r.2 } else .thrown { m with m_fan := r.2 }

/-- The function `monitor_impl::check_fan`: the ratchet, then the speed of the
ratcheted estimate is passed to the fans. -/
def check_fan (m : monitor_impl) : outcome :=
  let ps := power_settings m
  let m1 := fan_ratchet m
  applesmc_set_fan_speed (fan_speed ps m1.m_fan_temp) m1

/-- The `double` value of `100.0*now/full` in `cpu_max_speed` for a nonzero
`full`: the product is rounded, then the quotient. (`now` is `1e-6` times a
double, so the product is finite.) -/
def battery_percent (now full : ℚ) : ℚ :=
  round_double (round_double (100 * now) / full)

/-- The comparison `100.0*now/full < percent` of `cpu_max_speed`. With `full`
zero the quotient of doubles is infinite or not a number, and it is below
`percent` only as `-inf`, that is for a negative `now`. -/
def below_percent (now full percent : ℚ) : Bool :=
  if full = 0 then now < 0 else battery_percent now full < percent

/-- The function `monitor_impl::cpu_max_speed`: the powersave ceiling on
battery when the charge is below the configured percentage, the ceiling of the
active power mode otherwise; `none` when a battery file cannot be read. -/
def cpu_max_speed (m : monitor_impl) : Option Nat :=
  if !m.m_on_ac then
    match m.m_battery.energy_now, m.m_battery.energy_full with
    | some now, some full =>
      if below_percent now full m.m_set.powersave_min_energy_percent then
        some m.m_set.powersave_cpu_max_speed
      else some (power_settings m).cpu_max_speed
    | _, _ => none
  else some (power_settings m).cpu_max_speed

/-- The function `cpuinfo::configurable`. -/
def configurable (cpus : List cpu) : Bool :=
  match cpus with
  | [] => false
  | c :: _ => c.scaling_available_frequencies.isSome

/-- The loop of `cpuinfo::scaling_max_freq`, started at `freq`: the largest
`scaling_max_freq` of the cpus; `none` when a read throws. -/
def scaling_max_freq_from (freq : Nat) : List cpu → Option Nat
  | [] => some freq
  | c :: rest =>
    match c.scaling_max_freq with
    | none => none
    | some f => scaling_max_freq_from (max freq f) rest

/-- The function `cpuinfo::scaling_max_freq`. -/
def scaling_max_freq (cpus : List cpu) : Option Nat :=
  scaling_max_freq_from 0 cpus

/-- The function `cpuinfo::set_scaling_max_freq` on the cpus from the current
one on; the flag is `false` when a write threw, the cpus written before keep
the new value. -/
def set_scaling_max_freq (value : Nat) : List cpu → Bool × List cpu
  | [] => (true, [])
  | c :: rest =>
    match c.scaling_max_freq with
    | none => (false, c :: rest)
    | some _ =>
      let r := set_scaling_max_freq value rest
      (r.1, { c with scaling_max_freq := some value } :: r.2)

/-- The call `std::lower_bound(begin, end, value) - begin` on a sorted vector:
the index of the first element that is not less than `value`, the size when
there is none. -/
def lower_bound : List Nat → Nat → Nat
  | [], _ => 0
  | x :: rest, value => if x < value then lower_bound rest value + 1 else 0

/-- The ratchet at the head of `check_cpu`. -/
def cpu_ratchet (m : monitor_impl) : monitor_impl :=
  if m.m_cpu_hot > m.m_cpu_temp then { m with m_cpu_temp := m.m_cpu_hot }
  else if m.m_cpu_cold < m.m_cpu_temp then { m with m_cpu_temp := m.m_cpu_cold }
  else m

/-- The `throttle` flag of `check_cpu`, from the ratcheted state. -/
def throttle_flag (m : monitor_impl) : Bool :=
  m.m_cpu_throttle_time = 0 ∧ m.m_cpu_temp > (power_settings m).cpu_temp_hot

/-- The `unthrottle` flag of `check_cpu`, from the ratcheted state. -/
def unthrottle_flag (m : monitor_impl) : Bool :=
  m.m_cpu_unthrottle_time = 0 ∧ m.m_cpu_temp < (power_settings m).cpu_temp_cold

/-- A cooldown after the `else` branch of `check_cpu` that counts it down: one
`check_interval` less, zero when not more than one interval is left. A cooldown
that is zero stays zero. -/
def cooldown_step (check_interval time : Nat) : Nat :=
  if time = 0 then 0
  else if time > check_interval then time - check_interval
  else 0

/-- The cooldown updates of `check_cpu` (the two `else` branches), on the
ratcheted state. -/
def cpu_cooldowns (m : monitor_impl) : monitor_impl :=
  { m with
    m_cpu_throttle_time := cooldown_step m.m_set.check_interval m.m_cpu_throttle_time
    m_cpu_unthrottle_time := cooldown_step m.m_set.check_interval m.m_cpu_unthrottle_time }

/-- The `size_t max_ix` of `check_cpu`: the lower bound of the cap, replaced by
`available.size() - 1` (computed in `size_t`) when it is not a valid index. -/
def cap_index (available : List Nat) (cap : Nat) : Nat :=
  let max_ix := lower_bound available cap
  if max_ix ≥ available.length then
    if available.length = 0 then SIZE_RANGE - 1 else available.length - 1
  else max_ix

/-- The index `new_ix` that `check_cpu` selects from the two flags, the index
`ix` of the current ceiling and `max_ix`. -/
def select_index (throttle unthrottle : Bool) (ix max_ix : Nat) : Nat :=
  let new_ix := min ix max_ix
  if throttle then
    if new_ix = ix ∧ new_ix > 0 then new_ix - 1 else new_ix
  else if unthrottle then
    if new_ix < max_ix then new_ix + 1 else new_ix
  else new_ix

/-- The end of `check_cpu`, from `if (new_ix != ix)` on: the new ceiling
`available[new_ix]` is written to every cpu, then the cooldown of the decision
that was taken is started. -/
def write_ceiling (ps : power_mode) (throttle unthrottle : Bool) (available : List Nat)
    (ix new_ix : Nat) (m : monitor_impl) : outcome :=
  if new_ix ≠ ix then
    match available[new_ix]? with
    | none => .undefined
    | some freq =>
      let r := set_scaling_max_freq freq m.m_cpuinfo
      let m1 := { m with m_cpuinfo := r.2 }
      if r.1 then
        if throttle then .done { m1 with m_cpu_throttle_time := ps.cpu_throttle_delay }
        else if unthrottle then .done { m1 with m_cpu_unthrottle_time := ps.cpu_unthrottle_delay }
        else .done m1
      else .thrown m1
  else .done m

/-- The function `monitor_impl::check_cpu` with the level of the logger above
`DEBUG`: the ratchet, the two flags and the cooldowns, then the ladder is read
and sorted, the current ceiling and the cap are read, the index is selected
and the ceiling written. -/
def check_cpu (m : monitor_impl) : outcome :=
  let ps := power_settings m
  let m1 := cpu_ratchet m
  let throttle := throttle_flag m1
  let unthrottle := unthrottle_flag m1
  let m2 := cpu_cooldowns m1
  match m2.m_cpuinfo with
  | [] => .undefined
  | front :: _ =>
    match front.scaling_available_frequencies with
    | none => .thrown m2
    | some frequencies =>
      let available := frequencies.insertionSort (· ≤ ·)
      match scaling_max_freq m2.m_cpuinfo with
      | none => .thrown m2
      | some current =>
        let ix := lower_bound available current
        match cpu_max_speed m2 with
        | none => .thrown m2
        | some cap =>
          let max_ix := cap_index available cap
          let new_ix := select_index throttle unthrottle ix max_ix
          write_ceiling ps throttle unthrottle available ix new_ix m2

/-- The `delay` of `run_checks`: the longest of the four windows. -/
def max_delay (ps : power_mode) : Nat :=
  max (max ps.fan_hot_delay ps.fan_cold_delay) (max ps.cpu_hot_delay ps.cpu_cold_delay)

/-- The assignments of `run_checks` after its loop: the four extremes are
stored, and an estimate below `-280.0` (not seeded yet) becomes the mean of its
two bounds. -/
def store_bounds (m : monitor_impl) (b : window_bounds) : monitor_impl :=
  let m1 := { m with m_fan_hot := b.fan_hot, m_fan_cold := b.fan_cold }
  let m2 :=
    if m1.m_fan_temp < (-280 : ℚ) then
      { m1 with m_fan_temp := (m1.m_fan_hot + m1.m_fan_cold) / 2 }
    else m1
  let m3 := { m2 with m_cpu_hot := b.cpu_hot, m_cpu_cold := b.cpu_cold }
  if m3.m_cpu_temp < (-280 : ℚ) then
    { m3 with m_cpu_temp := (m3.m_cpu_hot + m3.m_cpu_cold) / 2 }
  else m3

/-- The function `monitor_impl::run_checks`. The first argument is the fuel of
the loop over the history. -/
def run_checks (fuel : Nat) (m : monitor_impl) : outcome :=
  let ps := power_settings m
  let delay := max_delay ps
  if m.m_set.check_interval = 0 then .undefined
  else if delay / m.m_set.check_interval < m.m_history_count then
    if m.m_history_size = 0 then .undefined
    else
      match run_checks_loop m ps delay fuel 0 0 {} with
      | none => .undefined
      | some b =>
        match check_fan (store_bounds m b) with
        | .done m5 => if configurable m5.m_cpuinfo then check_cpu m5 else .done m5
        | o => o
  else .done m

/-- The function `monitor_impl::on_periodic_check` for a timer that was not
cancelled: `update_stats` then `run_checks`, a `std::runtime_error` from either
is caught and the tick ends with the state at the throw. `none` when the tick
has no defined result. -/
def on_periodic_check (fuel : Nat) (m : monitor_impl) : Option monitor_impl :=
  match update_stats m with
  | .done m1 =>
    match run_checks fuel m1 with
    | .done m2 => some m2
    | .thrown m2 => some m2
    | .undefined => none
  | .thrown m1 => some m1
  | .undefined => none

/-- One call after another: the second runs on the state that the first
returns; a throw or an undefined result of the first ends the sequence. -/
def outcome.and_then (o : outcome) (f : monitor_impl → outcome) : outcome :=
  match o with
  | .done m => f m
  | other => other

/-! ## Idle state machine -/

/-- The function `led::set_brightness`: the `brightness` file is written, and
the device shows the written level in `actual_brightness` from then on. `none`
when the file cannot be opened. -/
def led.set_brightness (l : led) (value : Nat) : Option led :=
  match l.brightness with
  | none => none
  | some _ =>
    some { l with
           brightness := some value
           actual_brightness := l.actual_brightness.map (fun _ => value) }

/-- The two conditional writes of `enter_idle` share this shape: the target is
written only when it is below the level read before. -/
def lower_brightness (l : led) (target current : Nat) : Option led :=
  if target < current then l.set_brightness target else some l

/-- The function `monitor_impl::enter_idle`. The levels are `0` (active), `1`
(dimmed, entered by the idle timer) and `2` (lid closed). -/
def enter_idle (level : Nat) (m : monitor_impl) : outcome :=
  if level > m.m_idle_level then
    match m.m_backlight.actual_brightness with
    | none => .thrown m
    | some display_current =>
      match m.m_kbd_backlight.brightness with
      | none => .thrown m
      | some keyboard_current =>
        let m1 :=
          if m.m_idle_level = 0 then
            { m with
              m_saved_display_backlight := display_current
              m_saved_keyboard_backlight := keyboard_current }
          else m
        let display_target :=
          if level = 1 then (power_settings m1).display_backlight_idle_level else 0
        let keyboard_target :=
          if level = 1 then (power_settings m1).keyboard_backlight_idle_level else 0
        match lower_brightness m1.m_backlight display_target display_current with
        | none => .thrown m1
        | some backlight =>
          let m2 := { m1 with m_backlight := backlight }
          match lower_brightness m2.m_kbd_backlight keyboard_target keyboard_current with
          | none => .thrown m2
          | some keyboard_backlight =>
            .done { m2 with m_kbd_backlight := keyboard_backlight, m_idle_level := level }
  else .done m

/-- The function `monitor_impl::leave_idle`; the restart of the idle timer is
left out. -/
def leave_idle (m : monitor_impl) : outcome :=
  if m.m_idle_level > 0 then
    match m.m_backlight.set_brightness m.m_saved_display_backlight with
    | none => .thrown m
    | some backlight =>
      let m1 := { m with m_backlight := backlight }
      match m1.m_kbd_backlight.set_brightness m1.m_saved_keyboard_backlight with
      | none => .thrown m1
      | some keyboard_backlight =>
        .done { m1 with m_kbd_backlight := keyboard_backlight, m_idle_level := 0 }
  else .done m

/-! ## Brightness calculator -/

/-- The least value of a C++ `int`. -/
def INT_MIN : Int := -2 ^ 31

/-- The greatest value of a C++ `int`. -/
def INT_MAX : Int := 2 ^ 31 - 1

/-- An `int` result reduced to 32 bits, two's complement. -/
def int_wrap (x : Int) : Int :=
  (x - INT_MIN) % (UNSIGNED_RANGE : Int) + INT_MIN

/-- Conversion of an `unsigned` to `int`. -/
def unsigned_to_int (n : Nat) : Int :=
  int_wrap n

/-- Conversion of an `int` to `unsigned`. -/
def int_to_unsigned (x : Int) : Nat :=
  (x % (UNSIGNED_RANGE : Int)).toNat

/-- Conversion of a `double` to `int` as the x86-64 code does it
(`cvttsd2si`): the value is truncated toward zero; a value outside the range
of `int` gives `INT_MIN`. Inside the range this is the conversion the C++
standard defines; outside of it the standard leaves the result undefined. -/
def double_to_int (x : ℚ) : Int :=
  let t := if 0 ≤ x then ⌊x⌋ else ⌈x⌉
  if INT_MIN ≤ t ∧ t ≤ INT_MAX then t else INT_MIN

/-- The `double norm` of `calc_brightness` after the step and the floor at
`0.0`. The library function `std::pow` is the parameter `pow`. -/
def calc_brightness_norm (pow : ℚ → ℚ → ℚ) (set : brightness) (cur : Int) (up slow : Bool) : ℚ :=
  let norm := pow cur (1 / set.exponent)
  let delta := if slow then set.delta_slow else set.delta
  let norm := norm + (if up then delta else -delta)
  if norm < 0 then 0 else norm

/-- The `int tmp` of `calc_brightness` before the final clamp: the rounded
power of `norm`, moved one unit in the asked direction when it equals `cur`. -/
def calc_brightness_tmp (pow : ℚ → ℚ → ℚ) (set : brightness) (cur : Int) (up slow : Bool) : Int :=
  let tmp := double_to_int (pow (calc_brightness_norm pow set cur up slow) set.exponent + 1 / 2)
  if tmp = cur then (if up then int_wrap (cur + 1) else int_wrap (cur - 1)) else tmp

/-- The function `monitor_impl::calc_brightness`:
`std::min(max, std::max(0, tmp))`. -/
def calc_brightness (pow : ℚ → ℚ → ℚ) (set : brightness) (cur max : Int) (up slow : Bool) : Int :=
  min max (Max.max 0 (calc_brightness_tmp pow set cur up slow))

/-- The write that ends `set_display_brightness` and `set_keyboard_brightness`:
`unsigned brightness = calc_brightness(...)` is written when it differs from
`cur` (compared as `unsigned`). -/
def write_brightness (pow : ℚ → ℚ → ℚ) (set : brightness) (l : led) (cur_raw max_raw : Nat)
    (up slow : Bool) : Option led :=
  let max := unsigned_to_int max_raw
  let cur := unsigned_to_int cur_raw
  let brightness := int_to_unsigned (calc_brightness pow set cur max up slow)
  if brightness ≠ int_to_unsigned cur then l.set_brightness brightness else some l

/-- The function `monitor_impl::set_display_brightness`: `cur` is read from
`actual_brightness`. -/
def set_display_brightness (pow : ℚ → ℚ → ℚ) (up slow : Bool) (m : monitor_impl) : outcome :=
  match m.m_backlight.max_brightness with
  | none => .thrown m
  | some max_raw =>
    match m.m_backlight.actual_brightness with
    | none => .thrown m
    | some cur_raw =>
      match write_brightness pow m.m_set.display_backlight m.m_backlight cur_raw max_raw up slow with
      | none => .thrown m
      | some backlight => .done { m with m_backlight := backlight }

/-- The function `monitor_impl::set_keyboard_brightness`: `cur` is read from
`brightness`. -/
def set_keyboard_brightness (pow : ℚ → ℚ → ℚ) (up slow : Bool) (m : monitor_impl) : outcome :=
  match m.m_kbd_backlight.max_brightness with
  | none => .thrown m
  | some max_raw =>
    match m.m_kbd_backlight.brightness with
    | none => .thrown m
    | some cur_raw =>
      match write_brightness pow m.m_set.keyboard_backlight m.m_kbd_backlight cur_raw max_raw
          up slow with
      | none => .thrown m
      | some backlight => .done { m with m_kbd_backlight := backlight }

/-! ## Events -/

/-- The enumeration `event_code::type` of `event_handler.h`. -/
inductive event_code where
  | FAN_SPEED_UP
  | FAN_SPEED_DOWN
  | FAN_SPEED_UP_SLOW
  | FAN_SPEED_DOWN_SLOW
  | DISPLAY_BRIGHTNESS_UP
  | DISPLAY_BRIGHTNESS_DOWN
  | DISPLAY_BRIGHTNESS_UP_SLOW
  | DISPLAY_BRIGHTNESS_DOWN_SLOW
  | KEYBOARD_BRIGHTNESS_UP
  | KEYBOARD_BRIGHTNESS_DOWN
  | KEYBOARD_BRIGHTNESS_UP_SLOW
  | KEYBOARD_BRIGHTNESS_DOWN_SLOW
  | MOUSE_ACTIVITY
  | KEYBOARD_ACTIVITY
  | LID_CLOSED
  | LID_OPENED
  deriving DecidableEq

/-- The `if` chain at the head of `handle_event`: the idle transition that the
event causes. -/
def handle_event_idle (code : event_code) (m : monitor_impl) : outcome :=
  if code = .LID_CLOSED then enter_idle 2 m
  else if code = .LID_OPENED then leave_idle m
  else if m.m_idle_level < 2 then leave_idle m
  else .done m

/-- The `switch` of `handle_event`: the brightness step that the event asks for. -/
def handle_event_switch (pow : ℚ → ℚ → ℚ) (code : event_code) (m : monitor_impl) : outcome :=
  match code with
  | .DISPLAY_BRIGHTNESS_UP => set_display_brightness pow true false m
  | .DISPLAY_BRIGHTNESS_DOWN => set_display_brightness pow false false m
  | .DISPLAY_BRIGHTNESS_UP_SLOW => set_display_brightness pow true true m
  | .DISPLAY_BRIGHTNESS_DOWN_SLOW => set_display_brightness pow false true m
  | .KEYBOARD_BRIGHTNESS_UP => set_keyboard_brightness pow true false m
  | .KEYBOARD_BRIGHTNESS_DOWN => set_keyboard_brightness pow false false m
  | .KEYBOARD_BRIGHTNESS_UP_SLOW => set_keyboard_brightness pow true true m
  | .KEYBOARD_BRIGHTNESS_DOWN_SLOW => set_keyboard_brightness pow false true m
  | _ => .done m

/-- The function `monitor_impl::handle_event`. -/
def handle_event (pow : ℚ → ℚ → ℚ) (code : event_code) (m : monitor_impl) : outcome :=
  (handle_event_idle code m).and_then (handle_event_switch pow code)

/-! ## Power estimator -/

/-- The loop `for (size_t i = 0; i < power_measurements; ++i)` of
`current_power`, entered with the current `i` and the sums `(now, old)`; the
first argument counts the iterations that are left. The two indices are the
`size_t` expressions `(m_history_count - i) % m_history_size` and
`(m_history_count - (delta + i)) % m_history_size`. -/
def current_power_loop (m : monitor_impl) (delta : Nat) : Nat → Nat → ℚ × ℚ → ℚ × ℚ
  | 0, _, sums => sums
  | n + 1, i, sums =>
    current_power_loop m delta n (i + 1)
      (sums.1 + m.m_energy_history.getD (history_index m i) 0,
       sums.2 + m.m_energy_history.getD (history_index m (delta + i)) 0)

/-- The function `monitor_impl::current_power`. The divisor
`power_measurements*power_interval` is an `unsigned` product. `none` when there
is no defined finite result: an integer division by zero, or a quotient of
doubles with the divisor zero. -/
def current_power (m : monitor_impl) : Option ℚ :=
  if m.m_set.check_interval = 0 then none
  else
    let delta := m.m_set.power_interval / m.m_set.check_interval
    if m.m_history_count ≤ delta + m.m_set.power_measurements then some 0
    else if m.m_history_size = 0 then none
    else
      let sums := current_power_loop m delta m.m_set.power_measurements 0 (0, 0)
      let divisor := (m.m_set.power_measurements * m.m_set.power_interval) % UNSIGNED_RANGE
      if divisor = 0 then none
      else some (3600 * (sums.2 - sums.1) / (divisor : ℚ))

/-! ## Safe defaults -/

/-- The conditional write that `ensure_safe_defaults` makes to either
backlight: the level `value` is written when the `brightness` file shows less.
`none` when the file cannot be opened. -/
def raise_brightness (l : led) (value : Nat) : Option led :=
  match l.brightness with
  | none => none
  | some current => if current < value then l.set_brightness value else some l

/-- The function `monitor_impl::ensure_safe_defaults`: the display is raised to
`std::max(m_original_display_backlight, m_set.min_safe_display_backlight)`, the
keyboard backlight to `m_original_keyboard_backlight`. -/
def ensure_safe_defaults (m : monitor_impl) : outcome :=
  let backlight := max m.m_original_display_backlight m.m_set.min_safe_display_backlight
  match raise_brightness m.m_backlight backlight with
  | none => .thrown m
  | some display =>
    let m1 := { m with m_backlight := display }
    match raise_brightness m1.m_kbd_backlight m1.m_original_keyboard_backlight with
    | none => .thrown m1
    | some keyboard => .done { m1 with m_kbd_backlight := keyboard }

/-! ## Ticks and readings -/

/-- What the sensor files show at one tick: the `online` file of the AC supply,
the `tempN_input` files of coretemp and `charge_now` of the battery. -/
structure sensors where
  online : Option Bool := some true
  temp_inputs : List (Option ℚ) := []
  charge_now : Option ℚ := some 0
  deriving DecidableEq

/-- The monitor with its sensor files showing `s`. -/
def monitor_impl.with_sensors (m : monitor_impl) (s : sensors) : monitor_impl :=
  { m with
    m_ac := { m.m_ac with online := s.online }
    m_coretemp := s.temp_inputs
    m_battery := { m.m_battery with charge_now := s.charge_now } }

/-- Successive calls of `update_stats`, one per entry of the list, each with
the sensors showing that entry; `none` unless every call returns. -/
def update_stats_run : List sensors → monitor_impl → Option monitor_impl
  | [], m => some m
  | s :: rest, m =>
    match update_stats (m.with_sensors s) with
    | .done m1 => update_stats_run rest m1
    | _ => none

/-- The two history vectors hold the readings `temps` and `energies` (oldest
first, one pair per counted tick): there are as many as the counter says, and
for every `j` below both the counter and the capacity the slot
`(counter - j) % capacity` holds the reading taken `j` ticks ago. -/
def ring_holds (m : monitor_impl) (temps energies : List ℚ) : Prop :=
  m.m_history_size ≠ 0 ∧
  m.m_temp_history.length = m.m_history_size ∧
  m.m_energy_history.length = m.m_history_size ∧
  temps.length = m.m_history_count ∧
  energies.length = m.m_history_count ∧
  ∀ j : Nat, j < m.m_history_count → j < m.m_history_size →
    m.m_temp_history[(m.m_history_count - j) % m.m_history_size]?
      = temps[m.m_history_count - 1 - j]? ∧
    m.m_energy_history[(m.m_history_count - j) % m.m_history_size]?
      = energies[m.m_history_count - 1 - j]?

/-! ## Window extremes -/

/-- The sample of age `j` ticks as the loop of `run_checks` reads it, for `j`
up to the counter. -/
def sample (m : monitor_impl) (j : Nat) : ℚ :=
  m.m_temp_history.getD ((m.m_history_count - j) % m.m_history_size) 0

/-- `x` is the smaller of `1000` and the least `f j` over the `j < i` whose age
`j * check_interval` is at most `window`. -/
def min_upto (f : Nat → ℚ) (check_interval window i : Nat) (x : ℚ) : Prop :=
  x ≤ 1000 ∧ (∀ j, j < i → j * check_interval ≤ window → x ≤ f j) ∧
  (x = 1000 ∨ ∃ j, j < i ∧ j * check_interval ≤ window ∧ x = f j)

/-- `x` is the larger of `-300` and the greatest `f j` over the `j < i` whose
age `j * check_interval` is at most `window`. -/
def max_upto (f : Nat → ℚ) (check_interval window i : Nat) (x : ℚ) : Prop :=
  -300 ≤ x ∧ (∀ j, j < i → j * check_interval ≤ window → f j ≤ x) ∧
  (x = -300 ∨ ∃ j, j < i ∧ j * check_interval ≤ window ∧ x = f j)

/-- The four extremes are those of the samples of age below `i` ticks. -/
def bounds_upto (m : monitor_impl) (ps : power_mode) (i : Nat) (b : window_bounds) : Prop :=
  min_upto (sample m) m.m_set.check_interval ps.fan_hot_delay i b.fan_hot ∧
  max_upto (sample m) m.m_set.check_interval ps.fan_cold_delay i b.fan_cold ∧
  min_upto (sample m) m.m_set.check_interval ps.cpu_hot_delay i b.cpu_hot ∧
  max_upto (sample m) m.m_set.check_interval ps.cpu_cold_delay i b.cpu_cold

/-- The reading `t` lies in the window: it is one of the `capacity` most recent
entries of `temps` (oldest first, the last one is the newest) and its age
`j * check_interval` is at most `window`. -/
def in_window (temps : List ℚ) (check_interval window capacity : Nat) (t : ℚ) : Prop :=
  ∃ j, j * check_interval ≤ window ∧ j < capacity ∧ j < temps.length ∧
    temps[temps.length - 1 - j]? = some t

/-- `x` is the smaller of `1000` and the least reading in the window. -/
def window_min (temps : List ℚ) (check_interval window capacity : Nat) (x : ℚ) : Prop :=
  x ≤ 1000 ∧ (∀ t, in_window temps check_interval window capacity t → x ≤ t) ∧
  (x = 1000 ∨ in_window temps check_interval window capacity x)

/-- `x` is the larger of `-300` and the greatest reading in the window. -/
def window_max (temps : List ℚ) (check_interval window capacity : Nat) (x : ℚ) : Prop :=
  -300 ≤ x ∧ (∀ t, in_window temps check_interval window capacity t → t ≤ x) ∧
  (x = -300 ∨ in_window temps check_interval window capacity x)

/-! ## End-to-end scenario -/

/-- Successive periodic checks with the sensor files left as they are: `n`
calls of `on_periodic_check`; `none` when one of them has no defined result. -/
def run_ticks (fuel : Nat) : Nat → monitor_impl → Option monitor_impl
  | 0, m => some m
  | n + 1, m => (run_ticks fuel n m).bind (on_periodic_check fuel)

/-- Every cpu of the list has the ceiling `c` in its `scaling_max_freq`. -/
def ceiling_is (cpus : List cpu) (c : Nat) : Prop :=
  ∀ x ∈ cpus, x.scaling_max_freq = some c

/-- The part of the end-to-end scenario that no tick changes: checks every
second, a longest window of 40 seconds, a hot threshold of 90 degrees, sensors
that read 95 degrees, files that can all be read, the ladder `frequencies` and
the effective cap `cap`; and a history whose readings are all 95. -/
def scenario_holds (m : monitor_impl) (frequencies : List Nat) (cap : Nat) : Prop :=
  m.m_set.check_interval = 1 ∧
  max_delay (power_settings m) = 40 ∧
  (power_settings m).cpu_temp_hot = 90 ∧
  m.m_ac.online = some m.m_on_ac ∧
  current_max_temp m.m_coretemp = some 95 ∧
  m.m_battery.charge_now.isSome ∧
  (∀ f ∈ m.m_fan, f.manual.isSome ∧ f.output.isSome) ∧
  (∃ front rest, m.m_cpuinfo = front :: rest ∧
    front.scaling_available_frequencies = some frequencies) ∧
  (∀ c ∈ m.m_cpuinfo, c.scaling_max_freq.isSome) ∧
  cpu_max_speed m = some cap ∧
  ∃ temps energies, ring_holds m temps energies ∧ ∀ t ∈ temps, t = 95

/-- The monitor `m` with the fans `fans`, and with both estimates and all four
bounds at 95 degrees. -/
def settled_at_95 (m : monitor_impl) (fans : List fan) : monitor_impl :=
  { m with
    m_fan := fans
    m_fan_temp := 95, m_fan_hot := 95, m_fan_cold := 95
    m_cpu_temp := 95, m_cpu_hot := 95, m_cpu_cold := 95 }

/-! ## Brightness steps, power estimates and failing checks -/

/-- What the brightness step needs of the power function, for the exponent `e`
and the level `cur`: the power with exponent `e` is monotone in a nonnegative
base, the root of `cur` is not negative, and raising that root to the power `e`
gives `cur` back to within half a unit. The real power function has all three
for `e > 0` and `cur ≥ 0`. -/
def pow_accurate (pow : ℚ → ℚ → ℚ) (e : ℚ) (cur : Int) : Prop :=
  (∀ x y : ℚ, 0 ≤ x → x ≤ y → pow x e ≤ pow y e) ∧
  0 ≤ pow cur (1 / e) ∧
  |pow (pow cur (1 / e)) e - cur| < 1 / 2

/-- The sum of `n` successive samples of the series `energies` (oldest first,
the last one is the newest), the newest of the `n` being the one taken `skip`
samples before the last. -/
def sample_sum (energies : List ℚ) (skip n : Nat) : ℚ :=
  ((energies.reverse.drop skip).take n).sum

/-- The series `energies` (one sample every `check_interval` seconds) falls by
`r` per second: each sample is the one before it less `r * check_interval`. -/
def constant_drain (energies : List ℚ) (r : ℚ) (check_interval : Nat) : Prop :=
  ∀ i : Nat, ∀ a b : ℚ, energies[i]? = some a → energies[i + 1]? = some b →
    b = a - r * check_interval

/-- A read or a write fails during the periodic check of `m`: `update_stats`
throws, or it returns and `run_checks` throws. -/
def tick_fails (fuel : Nat) (m : monitor_impl) : Prop :=
  (∃ m1, update_stats m = .thrown m1) ∨
  (∃ m1 m2, update_stats m = .done m1 ∧ run_checks fuel m1 = .thrown m2)

/-! ## Ratchet rule, governor decision and events, in the words of the spec -/

/-- The ratchet update as the spec writes it: `hot_bound` if it is above the
estimate, else `cold_bound` if it is below the estimate, else the estimate. -/
def ratchet (hot_bound cold_bound estimate : ℚ) : ℚ :=
  if hot_bound > estimate then hot_bound
  else if cold_bound < estimate then cold_bound
  else estimate

/-- The estimate that enters the ratchet step of a tick: the mean of the two
bounds when there is no prior estimate (one below `-280`), the prior estimate
otherwise. -/
def seeded (hot_bound cold_bound estimate : ℚ) : ℚ :=
  if estimate < -280 then (hot_bound + cold_bound) / 2 else estimate

/-- The governor decision as the spec writes it: `new_ix = min(cur_ix, cap_ix)`;
if `throttle` and `new_ix == cur_ix` and `new_ix > 0` then `new_ix - 1`; else if
`unthrottle` and `new_ix < cap_ix` then `new_ix + 1`; else `new_ix`. -/
def governor_decision (throttle unthrottle : Bool) (cur_ix cap_ix : Nat) : Nat :=
  let new_ix := min cur_ix cap_ix
  if throttle = true ∧ new_ix = cur_ix ∧ new_ix > 0 then new_ix - 1
  else if unthrottle = true ∧ new_ix < cap_ix then new_ix + 1
  else new_ix

/-- The four events that step the display brightness. -/
def display_event (code : event_code) : Bool :=
  code = .DISPLAY_BRIGHTNESS_UP ∨ code = .DISPLAY_BRIGHTNESS_DOWN ∨
  code = .DISPLAY_BRIGHTNESS_UP_SLOW ∨ code = .DISPLAY_BRIGHTNESS_DOWN_SLOW

/-- The four events that step the keyboard brightness. -/
def keyboard_event (code : event_code) : Bool :=
  code = .KEYBOARD_BRIGHTNESS_UP ∨ code = .KEYBOARD_BRIGHTNESS_DOWN ∨
  code = .KEYBOARD_BRIGHTNESS_UP_SLOW ∨ code = .KEYBOARD_BRIGHTNESS_DOWN_SLOW

/-! ## Concrete states used by the closed theorems below -/

/-- A display backlight at level 800 of 1000. -/
def display_led : led :=
  { actual_brightness := some 800, brightness := some 800, max_brightness := some 1000 }

/-- A keyboard backlight that is off, of 255 levels. -/
def keyboard_led : led :=
  { brightness := some 0, max_brightness := some 255 }

/-- Settings with a check every 100 seconds: the history holds three samples. -/
def coarse_settings : settings := { check_interval := 100 }

/-- The monitor that the constructor builds for `coarse_settings` on AC, with
no sensor, fan or cpu attached yet. -/
def coarse_start : monitor_impl :=
  { m_kbd_backlight := keyboard_led
    m_backlight := display_led
    m_original_display_backlight := 800
    m_ac := { online := some true }
    m_temp_history := [0, 0, 0], m_energy_history := [0, 0, 0], m_history_size := 3
    m_set := coarse_settings }

/-- Four ticks of sensor values: 50, 51, 52 and 53 degrees (the second tick has
two sensors), the charge falling from 5.0 to 4.7. -/
def coarse_ticks : List sensors :=
  [ { temp_inputs := [some 50000], charge_now := some 5000000 },
    { temp_inputs := [some 51000, some 49000], charge_now := some 4900000 },
    { temp_inputs := [some 52000], charge_now := some 4800000 },
    { temp_inputs := [some 53000], charge_now := some 4700000 } ]

/-- The monitor after `update_stats` has run on the four `coarse_ticks`: the
fourth reading has overwritten the first in slot `4 % 3 = 1`. -/
def coarse_end : monitor_impl :=
  { m_kbd_backlight := keyboard_led
    m_backlight := display_led
    m_original_display_backlight := 800
    m_ac := { online := some true }
    m_coretemp := [some 53000]
    m_battery := { charge_now := some 4700000 }
    m_temp_history := [52, 53, 51]
    m_energy_history := [scale_micro 4800000, scale_micro 4700000, scale_micro 4900000]
    m_history_size := 3
    m_history_count := 4
    m_set := coarse_settings }

/-- A monitor on AC with one fan and a fan step of `2 ^ 31` rpm, the fan
estimate settled at 50 degrees. -/
def wide_step_monitor : monitor_impl :=
  { m_fan := [{ manual := some false, output := some 3000 }]
    m_fan_temp := 50, m_fan_hot := 50, m_fan_cold := 50
    m_set := { on_ac := { fan_speed_delta := 2147483648 } } }

/-- A monitor on AC with one fan whose fan curve starts at the double nearest
to 0.3 and rises in steps of that same double, by 100 rpm a step; the fan
estimate is settled at the double nearest to 9.6, which is exactly `temp_min`
plus 31 steps. -/
def tenths_curve_monitor : monitor_impl :=
  { m_fan := [{ manual := some false, output := some 3000 }]
    m_fan_temp := 5404319552844595 / 562949953421312
    m_fan_hot := 5404319552844595 / 562949953421312
    m_fan_cold := 5404319552844595 / 562949953421312
    m_set := { on_ac := { fan_temp_min := 5404319552844595 / 18014398509481984
                          fan_temp_delta := 5404319552844595 / 18014398509481984
                          fan_speed_delta := 100 } } }

/-- A monitor on AC with the default fan curve and one fan, the fan estimate
settled at `t` degrees. -/
def settled_fan_monitor (t : ℚ) : monitor_impl :=
  { m_fan := [{ manual := some false, output := some 3000 }]
    m_fan_temp := t, m_fan_hot := t, m_fan_cold := t }

/-- A monitor on AC whose fan curve has `fan_speed_min` above `fan_speed_max`,
the fan estimate settled at `fan_temp_min`. -/
def inverted_curve_monitor : monitor_impl :=
  { m_fan := [{ manual := some false, output := some 3000 }]
    m_fan_temp := 40, m_fan_hot := 40, m_fan_cold := 40
    m_set := { on_ac := { fan_speed_min := 3000, fan_speed_max := 2000 } } }

/-- A cpu with a five-step ladder and the given ceiling. -/
def ladder_cpu (ceiling : Nat) : cpu :=
  { scaling_available_frequencies := some [1000, 2000, 3000, 4000, 5000]
    scaling_max_freq := some ceiling }

/-- A monitor on AC with one `ladder_cpu`: the ceiling, the cap of the AC mode,
the settled CPU estimate and the throttle cooldown are given. -/
def governor_monitor (ceiling cap : Nat) (t : ℚ) (throttle_time : Nat) : monitor_impl :=
  { m_cpuinfo := [ladder_cpu ceiling]
    m_cpu_temp := t, m_cpu_hot := t, m_cpu_cold := t
    m_cpu_throttle_time := throttle_time
    m_set := { on_ac := { cpu_max_speed := cap } } }

/-- The constructor state for `coarse_settings` on AC with one temperature
sensor showing 1100 degrees, no fan and no cpu. -/
def furnace_start : monitor_impl :=
  { m_ac := { online := some true }
    m_coretemp := [some 1100000]
    m_battery := { charge_now := some 5000000 }
    m_temp_history := [0, 0, 0], m_energy_history := [0, 0, 0], m_history_size := 3
    m_set := coarse_settings }

/-- The state `furnace_start` after `update_stats`: one reading of 1100 degrees. -/
def furnace_read : monitor_impl :=
  { furnace_start with
    m_temp_history := [0, 1100, 0], m_energy_history := [0, 5, 0], m_history_count := 1 }

/-- The constructor state for `coarse_settings` on AC with one temperature
sensor showing `raw` millidegrees, a readable battery, no fan, and the given
cpus. -/
def sensor_start (raw : ℚ) (cpus : List cpu) : monitor_impl :=
  { m_ac := { online := some true }
    m_coretemp := [some raw]
    m_cpuinfo := cpus
    m_battery := { charge_now := some 5000000 }
    m_temp_history := [0, 0, 0], m_energy_history := [0, 0, 0], m_history_size := 3
    m_set := coarse_settings }

/-- The state after a first tick that read `t` degrees on a monitor without
cpus: both estimates are seeded with `t`. -/
def first_tick_end (t : ℚ) : monitor_impl :=
  { sensor_start (1000 * t) [] with
    m_temp_history := [0, t, 0], m_energy_history := [0, 5, 0]
    m_history_count := 1
    m_fan_temp := t, m_fan_hot := t, m_fan_cold := t
    m_cpu_temp := t, m_cpu_hot := t, m_cpu_cold := t }

/-- A state after a second tick on a monitor without cpus: the readings `t`
then `u`, the two estimates and the hot bound as given. -/
def second_tick_end (t u fan_temp cpu_temp hot : ℚ) : monitor_impl :=
  { sensor_start (1000 * u) [] with
    m_temp_history := [0, t, u], m_energy_history := [0, 5, 5]
    m_history_count := 2
    m_fan_temp := fan_temp, m_fan_hot := hot, m_fan_cold := u
    m_cpu_temp := cpu_temp, m_cpu_hot := hot, m_cpu_cold := u }

/-- A monitor with one `ladder_cpu` at ceiling 3000 in the second tick, after
`update_stats`: the readings are 50 then 60 degrees, both estimates were seeded
with 50 in the first tick. -/
def second_tick_read : monitor_impl :=
  { sensor_start 60000 [ladder_cpu 3000] with
    m_temp_history := [0, 50, 60], m_energy_history := [0, 5, 5]
    m_history_count := 2
    m_fan_temp := 50, m_fan_hot := 50, m_fan_cold := 50
    m_cpu_temp := 50, m_cpu_hot := 50, m_cpu_cold := 50 }

/-- The state `second_tick_read` after `run_checks`: both estimates have moved
to 60, and the governor, below the cold threshold, has raised the ceiling one
step. -/
def second_tick_governed : monitor_impl :=
  { second_tick_read with
    m_cpuinfo := [ladder_cpu 4000]
    m_fan_temp := 60, m_fan_hot := 60, m_fan_cold := 60
    m_cpu_temp := 60, m_cpu_hot := 60, m_cpu_cold := 60
    m_cpu_unthrottle_time := 10 }

/-- The settings of the end-to-end scenario: the defaults (a check every
second, a hot threshold of 90 degrees, a throttle delay of 10 seconds) with a CPU
hot window of 40 seconds on AC. -/
def scenario_settings : settings := { on_ac := { cpu_hot_delay := 40 } }

/-- The constructor state of the end-to-end scenario: on AC, one sensor at 95
degrees, one fan, one `ladder_cpu` with the ceiling at 3000. -/
def scenario_start : monitor_impl :=
  { m_coretemp := [some 95000]
    m_fan := [{}]
    m_kbd_backlight := keyboard_led
    m_cpuinfo := [ladder_cpu 3000]
    m_backlight := display_led
    m_original_display_backlight := 800
    m_ac := { online := some true }
    m_battery := { charge_now := some 5000000 }
    m_temp_history := List.replicate 300 0
    m_energy_history := List.replicate 300 0
    m_history_size := 300
    m_set := scenario_settings }

/-- A monitor on AC at the given idle level whose display shows `d` (of 1000)
and whose keyboard backlight shows `k` (of 255). -/
def idle_monitor (level d k : Nat) : monitor_impl :=
  { m_backlight := { actual_brightness := some d, brightness := some d, max_brightness := some 1000 }
    m_kbd_backlight := { brightness := some k, max_brightness := some 255 }
    m_idle_level := level }

/-- The library function `std::pow` where the exponent is integral: the rational
power with that exponent. (At other exponents the power is not rational in
general; there the exponent is rounded down.) -/
def pow_integral (x y : ℚ) : ℚ :=
  x ^ ⌊y⌋

/-- Brightness steps of one unit (slow: a quarter) with the exponent 1. -/
def linear_steps : brightness :=
  { exponent := 1, delta := 1, delta_slow := 1 / 4 }

/-- Brightness steps of three thousand million units with the exponent 1. -/
def giant_steps : brightness :=
  { exponent := 1, delta := 3000000000, delta_slow := 1 }

/-- A monitor on battery that checks every 100 seconds and estimates the power
over 150 seconds from one sample at each end, after three ticks with the energy
at 50, 49 and 48 Wh: a drain of 0.01 Wh per second. -/
def drain_monitor : monitor_impl :=
  { m_ac := { online := some false }
    m_on_ac := false
    m_temp_history := [50, 50, 50], m_energy_history := [48, 50, 49]
    m_history_size := 3
    m_history_count := 3
    m_set := { check_interval := 100, power_interval := 150, power_measurements := 1 } }

/-- A monitor that checks every 100 seconds and estimates the power over 100
seconds from one sample at each end, after `count` ticks; the energy samples
that the three slots hold are given. -/
def estimator_monitor (count : Nat) (slots : List ℚ) : monitor_impl :=
  { m_temp_history := [50, 50, 50], m_energy_history := slots
    m_history_size := 3
    m_history_count := count
    m_set := { check_interval := 100, power_interval := 100, power_measurements := 1 } }

/-- The constructor state for `coarse_settings` on AC with one temperature
sensor at 50 degrees and a battery whose `charge_now` cannot be read. -/
def no_battery_start : monitor_impl :=
  { m_ac := { online := some true }
    m_coretemp := [some 50000]
    m_temp_history := [0, 0, 0], m_energy_history := [0, 0, 0], m_history_size := 3
    m_set := coarse_settings }

/-- A monitor that is shut down while dimmed: the display shows 100 and was at
800 at startup, the keyboard backlight is off and was at 200 at startup. -/
def dimmed_at_exit : monitor_impl :=
  { idle_monitor 1 100 0 with
    m_original_display_backlight := 800
    m_original_keyboard_backlight := 200 }

/-- A monitor without cpus in its second tick, after `update_stats`: the
readings are `t` then `u` degrees, both estimates and all four bounds are at
`t` from the first tick. -/
def second_tick_bare (t u : ℚ) : monitor_impl :=
  { sensor_start (1000 * u) [] with
    m_temp_history := [0, t, u], m_energy_history := [0, 5, 5]
    m_history_count := 2
    m_fan_temp := t, m_fan_hot := t, m_fan_cold := t
    m_cpu_temp := t, m_cpu_hot := t, m_cpu_cold := t }

/-- A monitor with one `ladder_cpu` at ceiling 3000 in its first tick, after
`update_stats`: one reading of 50 degrees, no estimate yet. -/
def first_tick_read : monitor_impl :=
  { sensor_start 50000 [ladder_cpu 3000] with
    m_temp_history := [0, 50, 0], m_energy_history := [0, 5, 0]
    m_history_count := 1 }

/-- A monitor on AC with one `ladder_cpu` at the lowest ceiling 1000 under a cap
of 2000, whose hot threshold 60 lies below its cold threshold 80; the CPU
estimate is settled at 70, between the two. -/
def contrary_monitor : monitor_impl :=
  { m_cpuinfo := [ladder_cpu 1000]
    m_cpu_temp := 70, m_cpu_hot := 70, m_cpu_cold := 70
    m_set := { on_ac := { cpu_temp_hot := 60, cpu_temp_cold := 80, cpu_max_speed := 2000 } } }

/-- A monitor on battery at 5 percent of its charge, with a powersave ceiling
of 3000000 above the ceiling 1600000 of the battery mode. -/
def low_battery_monitor : monitor_impl :=
  { m_on_ac := false
    m_battery := { charge_full := some 10000000, charge_now := some 500000 }
    m_set := { powersave_cpu_max_speed := 3000000 } }

/-- A monitor with the lid closed: the display is off (of 1000 levels), the
keyboard backlight is off, and the display steps are of one unit with the
exponent 1. -/
def lid_closed_monitor : monitor_impl :=
  { idle_monitor 2 0 0 with
    m_saved_display_backlight := 800
    m_set := { display_backlight := linear_steps } }

/-- A monitor on battery with the default settings whose charge, 641000, is
one tenth of the full charge 6410000. -/
def tenth_battery_monitor : monitor_impl :=
  { m_on_ac := false
    m_battery := { charge_full := some 6410000, charge_now := some 641000 } }

/-- A monitor on battery at half of its charge. -/
def half_battery_monitor : monitor_impl :=
  { m_on_ac := false
    m_battery := { charge_full := some 10000000, charge_now := some 5000000 } }

/-! ## Rounding of doubles -/

theorem round_half_even_eq (x : ℚ) (n : ℤ) (h : |x - n| < 1 / 2) : round_half_even x = n := by
  rw [abs_lt] at h
  obtain ⟨h1, h2⟩ := h
  unfold round_half_even
  by_cases hx : (n : ℚ) ≤ x
  · have hf : ⌊x⌋ = n := by
      rw [Int.floor_eq_iff]
      constructor
      · exact hx
      · linarith
    rw [hf, if_pos h2]
  · have hx1 : x < n := not_le.mp hx
    have hf : ⌊x⌋ = n - 1 := by
      rw [Int.floor_eq_iff]
      push_cast
      constructor
      · linarith
      · linarith
    rw [hf]
    push_cast
    rw [if_neg (by linarith), if_pos (by linarith)]
    ring

theorem round_half_even_intCast (n : ℤ) : round_half_even (n : ℚ) = n :=
  round_half_even_eq n n (by norm_num)

theorem round_half_even_tie (x : ℚ) (n : ℤ) (h : x = n + 1 / 2) (heven : n % 2 = 0) :
    round_half_even x = n := by
  have hf : ⌊x⌋ = n := by
    rw [Int.floor_eq_iff]
    constructor
    · linarith
    · linarith
  unfold round_half_even
  rw [hf, if_neg (by linarith), if_neg (by linarith), if_pos heven]

theorem log_abs_eq (x : ℚ) (e : ℤ) (h1 : (2 : ℚ) ^ e ≤ |x|) (h2 : |x| < (2 : ℚ) ^ (e + 1)) :
    Int.log 2 |x| = e := by
  have hpos : 0 < |x| := lt_of_lt_of_le (by positivity) h1
  have ha : e ≤ Int.log 2 |x| :=
    (Int.zpow_le_iff_le_log (by norm_num) hpos).mp (by exact_mod_cast h1)
  have hb : Int.log 2 |x| < e + 1 :=
    (Int.lt_zpow_iff_log_lt (by norm_num) hpos).mp (by exact_mod_cast h2)
  omega

/-- The rounding of a value in the binade `[2 ^ e, 2 ^ (e + 1))` of the normal
doubles is the nearest multiple of `2 ^ (e - 52)`. -/
theorem round_double_eq (x : ℚ) (e n : ℤ) (h1 : (2 : ℚ) ^ e ≤ |x|) (h2 : |x| < (2 : ℚ) ^ (e + 1))
    (he : -1022 ≤ e) (hn : |x / 2 ^ (e - 52) - n| < 1 / 2) :
    round_double x = n * 2 ^ (e - 52) := by
  have hu : ulp_exponent x = e - 52 := by
    unfold ulp_exponent
    rw [log_abs_eq x e h1 h2]
    exact max_eq_left (by omega)
  unfold round_double
  rw [hu, round_half_even_eq _ n hn]

/-- The rounding of a positive value in the binade `[2 ^ e, 2 ^ (e + 1))`, the
nearest multiple of the spacing given by two bounds. -/
theorem round_double_pos_eq (x : ℚ) (e n : ℤ) (h1 : (2 : ℚ) ^ e ≤ x) (h2 : x < (2 : ℚ) ^ (e + 1))
    (he : -1022 ≤ e) (hlo : (n : ℚ) - 1 / 2 < x / 2 ^ (e - 52))
    (hhi : x / 2 ^ (e - 52) < (n : ℚ) + 1 / 2) :
    round_double x = n * 2 ^ (e - 52) := by
  have hpos : 0 < x := lt_of_lt_of_le (by positivity) h1
  refine round_double_eq x e n ?_ ?_ he ?_
  · rwa [abs_of_pos hpos]
  · rwa [abs_of_pos hpos]
  · rw [abs_lt]
    constructor
    · linarith
    · linarith

/-- The rounding of a positive value in the binade `[2 ^ e, 2 ^ (e + 1))` that
lies halfway between two multiples of the spacing: the even multiple. -/
theorem round_double_pos_tie (x : ℚ) (e n : ℤ) (h1 : (2 : ℚ) ^ e ≤ x) (h2 : x < (2 : ℚ) ^ (e + 1))
    (he : -1022 ≤ e) (hhalf : x / 2 ^ (e - 52) = (n : ℚ) + 1 / 2) (heven : n % 2 = 0) :
    round_double x = n * 2 ^ (e - 52) := by
  have hpos : 0 < x := lt_of_lt_of_le (by positivity) h1
  have hu : ulp_exponent x = e - 52 := by
    unfold ulp_exponent
    rw [log_abs_eq x e (by rwa [abs_of_pos hpos]) (by rwa [abs_of_pos hpos])]
    exact max_eq_left (by omega)
  unfold round_double
  rw [hu, round_half_even_tie _ n hhalf heven]

/-- A value `n * 2 ^ j` with `|n| < 2 ^ 53` and `j` not below `-1074` is a
double: rounding leaves it as it is. -/
theorem round_double_of_scaled (n j : ℤ) (hn : |n| < 2 ^ 53) (hj : -1074 ≤ j) :
    round_double (n * 2 ^ j) = n * 2 ^ j := by
  by_cases h0 : n = 0
  · subst h0
    simp [round_double, round_half_even]
  have hxpos : 0 < |(n : ℚ) * 2 ^ j| := by
    rw [abs_pos]
    have : (n : ℚ) ≠ 0 := by exact_mod_cast h0
    positivity
  have hlt : |(n : ℚ) * 2 ^ j| < (2 : ℚ) ^ (53 + j) := by
    rw [abs_mul, abs_of_pos (show (0 : ℚ) < 2 ^ j by positivity), zpow_add₀ (by norm_num)]
    have hn1 : |(n : ℚ)| < 2 ^ (53 : ℤ) := by
      have h : ((|n| : ℤ) : ℚ) < 2 ^ 53 := by exact_mod_cast hn
      rw [Int.cast_abs] at h
      exact_mod_cast h
    exact mul_lt_mul_of_pos_right hn1 (by positivity)
  have hlog : Int.log 2 |(n : ℚ) * 2 ^ j| < 53 + j :=
    (Int.lt_zpow_iff_log_lt (by norm_num) hxpos).mp (by exact_mod_cast hlt)
  have hu : ulp_exponent ((n : ℚ) * 2 ^ j) ≤ j := by
    unfold ulp_exponent
    exact max_le (by omega) hj
  obtain ⟨d, hd⟩ : ∃ d : ℕ, j = ulp_exponent ((n : ℚ) * 2 ^ j) + d :=
    ⟨(j - ulp_exponent ((n : ℚ) * 2 ^ j)).toNat, by omega⟩
  unfold round_double
  generalize ulp_exponent ((n : ℚ) * 2 ^ j) = u at hd
  have hq : (n : ℚ) * 2 ^ j / 2 ^ u = ((n * 2 ^ d : ℤ) : ℚ) := by
    rw [hd, zpow_add₀ (by norm_num)]
    push_cast
    field_simp
    ring
  rw [hq, round_half_even_intCast, hd, zpow_add₀ (by norm_num)]
  push_cast
  simp only [zpow_natCast]
  ring

/-- An integer below `2 ^ 53` in magnitude is a double. -/
theorem round_double_intCast (n : ℤ) (hn : |n| < 2 ^ 53) : round_double (n : ℚ) = n := by
  have h := round_double_of_scaled n 0 hn (by norm_num)
  simpa using h

theorem round_double_natCast (n : ℕ) (hn : n < 2 ^ 53) : round_double (n : ℚ) = n := by
  have h := round_double_intCast (n : ℤ)
    (by rw [abs_of_nonneg (by positivity)]; exact_mod_cast hn)
  simpa using h

theorem round_double_zero : round_double 0 = 0 := by
  have h := round_double_intCast 0 (by norm_num)
  simpa using h

/-- A charge of 5000000 reads as the energy 5. -/
@[simp]
theorem scale_micro_5000000 : scale_micro 5000000 = 5 := by
  unfold scale_micro
  rw [round_double_pos_eq (DOUBLE_1E_6 * 5000000) 2 5629499534213120 (by norm_num [DOUBLE_1E_6])
    (by norm_num [DOUBLE_1E_6]) (by norm_num) (by norm_num [DOUBLE_1E_6])
    (by norm_num [DOUBLE_1E_6])]
  norm_num

/-- A charge of 10000000 reads as the energy 10. -/
@[simp]
theorem scale_micro_10000000 : scale_micro 10000000 = 10 := by
  unfold scale_micro
  rw [round_double_pos_eq (DOUBLE_1E_6 * 10000000) 3 5629499534213120 (by norm_num [DOUBLE_1E_6])
    (by norm_num [DOUBLE_1E_6]) (by norm_num) (by norm_num [DOUBLE_1E_6])
    (by norm_num [DOUBLE_1E_6])]
  norm_num

/-- A charge of 500000 reads as the energy 0.5. -/
@[simp]
theorem scale_micro_500000 : scale_micro 500000 = 1 / 2 := by
  unfold scale_micro
  rw [round_double_pos_eq (DOUBLE_1E_6 * 500000) (-2) 9007199254740992
    (by norm_num [DOUBLE_1E_6]) (by norm_num [DOUBLE_1E_6]) (by norm_num)
    (by norm_num [DOUBLE_1E_6]) (by norm_num [DOUBLE_1E_6])]
  norm_num

/-! ## Fan step function -/

theorem double_to_unsigned_natCast (k : Nat) (hk : k < UNSIGNED_RANGE) :
    double_to_unsigned (k : ℚ) = k := by
  unfold double_to_unsigned
  have h0 : (0 : ℚ) ≤ (k : ℚ) := by positivity
  simp only [if_pos h0]
  have hfloor : ⌊(k : ℚ)⌋ = (k : ℤ) := by
    exact_mod_cast Int.floor_natCast (α := ℚ) k
  rw [hfloor]
  have hrange : (-2 ^ 63 : ℤ) ≤ (k : ℤ) ∧ (k : ℤ) < 2 ^ 63 := by
    have hk1 : k < 2 ^ 32 := hk
    constructor
    · have : (0 : ℤ) ≤ (k : ℤ) := Int.natCast_nonneg k
      omega
    · omega
  rw [if_pos hrange]
  have hmod : ((k : ℤ) % ((UNSIGNED_RANGE : ℕ) : ℤ)) = ((k % UNSIGNED_RANGE : ℕ) : ℤ) := by
    push_cast; rfl
  rw [hmod, Int.toNat_natCast, Nat.mod_eq_of_lt hk]

/-- When the rounded difference `fan_temp - fan_temp_min` is finite and exactly
`k` steps of `fan_temp_delta`, the index is `k`. -/
theorem fan_ix_exact (ps : power_mode) (fan_temp : ℚ) (k : Nat)
    (hdelta : 0 < ps.fan_temp_delta) (hk : k < UNSIGNED_RANGE)
    (hdiff : round_double (fan_temp - ps.fan_temp_min) = k * ps.fan_temp_delta)
    (hfinite : (k : ℚ) * ps.fan_temp_delta ≤ DBL_MAX) :
    fan_ix ps fan_temp = k := by
  unfold fan_ix
  simp only [hdiff]
  have hnn : (0 : ℚ) ≤ (k : ℚ) * ps.fan_temp_delta := by positivity
  rw [abs_of_nonneg hnn, if_neg (not_lt.mpr hfinite)]
  have hq : (k : ℚ) * ps.fan_temp_delta / ps.fan_temp_delta = (k : ℚ) := by
    field_simp
  have h53 : k < 2 ^ 53 := lt_trans hk (by norm_num [UNSIGNED_RANGE])
  rw [hq, round_double_natCast k h53, double_to_unsigned_natCast k hk]

/-- At `fan_temp_min` the index is zero. -/
theorem fan_ix_base (ps : power_mode) (hdelta : 0 < ps.fan_temp_delta) :
    fan_ix ps ps.fan_temp_min = 0 := by
  have h := fan_ix_exact ps ps.fan_temp_min 0 hdelta (by norm_num [UNSIGNED_RANGE])
    (by rw [sub_self, round_double_zero]; simp) (by norm_num [DBL_MAX])
  exact h

theorem fan_ratchet_settled (t : ℚ) : fan_ratchet (settled_fan_monitor t) = settled_fan_monitor t := by
  simp [fan_ratchet, settled_fan_monitor]

theorem power_settings_settled (t : ℚ) : power_settings (settled_fan_monitor t) = {} := by
  simp [power_settings, settled_fan_monitor]

/-- C8 (amended): for a fan curve with `temp_delta > 0` and an index `k` for
which `speed_min + k*speed_delta` fits in an `unsigned`, when the double
difference of the ratcheted fan estimate and `temp_min` is finite and exactly
`k*temp_delta`, `check_fan` passes `min(speed_min + k*speed_delta, speed_max)`
to the fan actuator. -/
theorem C8_fan_step_exact_difference (m : monitor_impl) (k : Nat)
    (hdelta : 0 < (power_settings m).fan_temp_delta)
    (hdiff : round_double ((fan_ratchet m).m_fan_temp - (power_settings m).fan_temp_min)
      = k * (power_settings m).fan_temp_delta)
    (hfinite : (k : ℚ) * (power_settings m).fan_temp_delta ≤ DBL_MAX)
    (hk : k < UNSIGNED_RANGE)
    (hfit : (power_settings m).fan_speed_min + k * (power_settings m).fan_speed_delta
      < UNSIGNED_RANGE) :
    check_fan m = applesmc_set_fan_speed
      (min ((power_settings m).fan_speed_min + k * (power_settings m).fan_speed_delta)
        (power_settings m).fan_speed_max) (fan_ratchet m) := by
  unfold check_fan
  simp only [fan_speed, fan_ix_exact _ _ k hdelta hk hdiff hfinite, Nat.mod_eq_of_lt hfit]

/-- C8, witness: the default curve at 50 degrees, two steps above `temp_min`;
the difference `50 - 40` is the double 10, two steps of 5. -/
theorem C8_fan_step_exact_difference_witness :
    check_fan (settled_fan_monitor 50)
      = applesmc_set_fan_speed (min (2000 + 2 * 500) 6500) (settled_fan_monitor 50) := by
  have h10 : round_double 10 = 10 := by
    have h := round_double_natCast 10 (by norm_num)
    simpa using h
  have h := C8_fan_step_exact_difference (settled_fan_monitor 50) 2
    (by rw [power_settings_settled]; norm_num)
    (by
      rw [power_settings_settled, fan_ratchet_settled]
      norm_num [settled_fan_monitor, h10])
    (by rw [power_settings_settled]; norm_num [DBL_MAX])
    (by norm_num [UNSIGNED_RANGE])
    (by rw [power_settings_settled]; norm_num [UNSIGNED_RANGE])
  rw [power_settings_settled, fan_ratchet_settled] at h
  exact h

theorem fan_ix_wide_step : fan_ix { fan_speed_delta := 2147483648 } 50 = 2 := by
  have h10 : round_double 10 = 10 := by
    have h := round_double_natCast 10 (by norm_num)
    simpa using h
  exact fan_ix_exact { fan_speed_delta := 2147483648 } 50 2 (by norm_num)
    (by norm_num [UNSIGNED_RANGE]) (by norm_num [h10]) (by norm_num [DBL_MAX])

/-- The index of the curve of `tenths_curve_monitor` at its estimate: the
rounded difference is `5235434566818201 / 2 ^ 49`, just below 9.3, the rounded
quotient `8725724278030335 / 2 ^ 48`, just below 31, and the index 30. -/
theorem fan_ix_tenths_curve :
    fan_ix (power_settings tenths_curve_monitor) (fan_ratchet tenths_curve_monitor).m_fan_temp
      = 30 := by
  have hps : power_settings tenths_curve_monitor
      = { fan_temp_min := 5404319552844595 / 18014398509481984
          fan_temp_delta := 5404319552844595 / 18014398509481984
          fan_speed_delta := 100 } := by
    simp [power_settings, tenths_curve_monitor]
  have hr : fan_ratchet tenths_curve_monitor = tenths_curve_monitor := by
    simp [fan_ratchet, tenths_curve_monitor]
  have ht : tenths_curve_monitor.m_fan_temp = 5404319552844595 / 562949953421312 := rfl
  have hd : round_double ((5404319552844595 : ℚ) / 562949953421312
      - 5404319552844595 / 18014398509481984) = 5235434566818201 / 562949953421312 := by
    rw [round_double_pos_eq _ 3 5235434566818201 (by norm_num) (by norm_num) (by norm_num)
      (by norm_num) (by norm_num)]
    norm_num
  have hq : round_double ((5235434566818201 : ℚ) / 562949953421312
      / (5404319552844595 / 18014398509481984)) = 8725724278030335 / 281474976710656 := by
    rw [round_double_pos_eq _ 4 8725724278030335 (by norm_num) (by norm_num) (by norm_num)
      (by norm_num) (by norm_num)]
    norm_num
  have hfl : ⌊(8725724278030335 : ℚ) / 281474976710656⌋ = 30 := by
    rw [Int.floor_eq_iff]
    constructor
    · norm_num
    · norm_num
  rw [hps, hr, ht]
  unfold fan_ix
  simp only [hd, hq]
  rw [if_neg (by rw [abs_of_pos (by norm_num)]; norm_num [DBL_MAX])]
  unfold double_to_unsigned
  simp only [if_pos (show (0 : ℚ) ≤ 8725724278030335 / 281474976710656 by norm_num), hfl]
  decide

/-- C8, counterexample. First, rounding: the curve starts at the double nearest
to 0.3 and rises in steps of that double, by 100 rpm a step, and the estimate is
the double nearest to 9.6, which is exactly `temp_min + 31*temp_delta`; the
claim asks for `min(2000 + 31 * 100, 6500) = 5100`, and `check_fan` writes 5000
to the fan: the rounded quotient is below 31 and the index is 30. Second, the
`unsigned` sum: with a step of `2 ^ 31` rpm and the estimate two steps above
`temp_min`, the claim asks for `min(2000 + 2 * 2 ^ 31, 6500) = 6500`, and
`check_fan` writes 2000 to the fan: the sum has wrapped. -/
theorem C8_step_function_fails :
    (0 < (power_settings tenths_curve_monitor).fan_temp_delta ∧
      (fan_ratchet tenths_curve_monitor).m_fan_temp
        = (power_settings tenths_curve_monitor).fan_temp_min
          + (31 : Nat) * (power_settings tenths_curve_monitor).fan_temp_delta ∧
      min ((power_settings tenths_curve_monitor).fan_speed_min
          + 31 * (power_settings tenths_curve_monitor).fan_speed_delta)
        (power_settings tenths_curve_monitor).fan_speed_max = 5100 ∧
      check_fan tenths_curve_monitor
        = .done { tenths_curve_monitor with
            m_fan := [{ manual := some true, output := some 5000 }] }) ∧
    (0 < (power_settings wide_step_monitor).fan_temp_delta ∧
      (fan_ratchet wide_step_monitor).m_fan_temp
        = (power_settings wide_step_monitor).fan_temp_min
          + (2 : Nat) * (power_settings wide_step_monitor).fan_temp_delta ∧
      min ((power_settings wide_step_monitor).fan_speed_min
          + 2 * (power_settings wide_step_monitor).fan_speed_delta)
        (power_settings wide_step_monitor).fan_speed_max = 6500 ∧
      check_fan wide_step_monitor
        = .done { wide_step_monitor with
            m_fan := [{ manual := some true, output := some 2000 }] }) := by
  constructor
  · have hix := fan_ix_tenths_curve
    have hps : power_settings tenths_curve_monitor
        = { fan_temp_min := 5404319552844595 / 18014398509481984
            fan_temp_delta := 5404319552844595 / 18014398509481984
            fan_speed_delta := 100 } := by
      simp [power_settings, tenths_curve_monitor]
    have hr : fan_ratchet tenths_curve_monitor = tenths_curve_monitor := by
      simp [fan_ratchet, tenths_curve_monitor]
    have ht : tenths_curve_monitor.m_fan_temp = 5404319552844595 / 562949953421312 := rfl
    refine ⟨?_, ?_, ?_, ?_⟩
    · rw [hps]; norm_num
    · rw [hps, hr, ht]; norm_num
    · rw [hps]; decide
    · have hs : fan_speed (power_settings tenths_curve_monitor)
          (fan_ratchet tenths_curve_monitor).m_fan_temp = 5000 := by
        simp only [fan_speed, hix]
        rw [hps]
        decide
      simp only [check_fan, hs]
      rw [hr]
      simp [applesmc_set_fan_speed, set_fan_speed, tenths_curve_monitor]
  · have hps : power_settings wide_step_monitor = { fan_speed_delta := 2147483648 } := by
      simp [power_settings, wide_step_monitor]
    have hr : fan_ratchet wide_step_monitor = wide_step_monitor := by
      simp [fan_ratchet, wide_step_monitor]
    refine ⟨?_, ?_, ?_, ?_⟩
    · rw [hps]; norm_num
    · rw [hps, hr]; norm_num [wide_step_monitor]
    · rw [hps]; decide
    · have hs : fan_speed { fan_speed_delta := 2147483648 } 50 = 2000 := by
        simp [fan_speed, fan_ix_wide_step, UNSIGNED_RANGE]
      have ht : wide_step_monitor.m_fan_temp = 50 := rfl
      simp only [check_fan, hps, hr, ht, hs]
      simp [applesmc_set_fan_speed, set_fan_speed, wide_step_monitor]

theorem fan_ix_default_35 : fan_ix {} 35 = 4294967295 := by
  have h5 : round_double (-5) = -5 := by
    have h := round_double_intCast (-5) (by norm_num)
    simpa using h
  have h1 : round_double (-1) = -1 := by
    have h := round_double_intCast (-1) (by norm_num)
    simpa using h
  have hd : ((35 : ℚ) - 40) = -5 := by norm_num
  have hq : ((-5 : ℚ)) / 5 = -1 := by norm_num
  have hc : ⌈(-1 : ℚ)⌉ = -1 := by
    rw [Int.ceil_eq_iff]; norm_num
  unfold fan_ix
  simp only [hd, h5, hq, h1]
  rw [if_neg (by rw [abs_of_neg (by norm_num)]; norm_num [DBL_MAX])]
  unfold double_to_unsigned
  simp only [if_neg (show ¬ (0 : ℚ) ≤ -1 by norm_num), hc]
  decide

/-- C9, the code at a failing input: on the default curve (`temp_min` 40,
`temp_delta` 5, speeds 2000 to 6500 in steps of 500) with the fan estimate
settled at 35 degrees, the index is `2 ^ 32 - 1` and `check_fan` writes 1500 to
the fan, which is not `speed_min` = 2000. -/
theorem C9_negative_index_wraps :
    (fan_ratchet (settled_fan_monitor 35)).m_fan_temp
      < (power_settings (settled_fan_monitor 35)).fan_temp_min ∧
    (power_settings (settled_fan_monitor 35)).fan_speed_min = 2000 ∧
    fan_ix (power_settings (settled_fan_monitor 35)) (fan_ratchet (settled_fan_monitor 35)).m_fan_temp
      = 4294967295 ∧
    check_fan (settled_fan_monitor 35)
      = .done { settled_fan_monitor 35 with
          m_fan := [{ manual := some true, output := some 1500 }] } := by
  have ht : (settled_fan_monitor 35).m_fan_temp = 35 := rfl
  have hs : fan_speed {} 35 = 1500 := by
    simp only [fan_speed, fan_ix_default_35]
    decide
  refine ⟨?_, ?_, ?_, ?_⟩
  · rw [power_settings_settled, fan_ratchet_settled, ht]; norm_num
  · rw [power_settings_settled]
  · rw [power_settings_settled, fan_ratchet_settled, ht, fan_ix_default_35]
  · simp only [check_fan, power_settings_settled, fan_ratchet_settled, ht, hs]
    simp [applesmc_set_fan_speed, set_fan_speed, settled_fan_monitor]

/-- C10 (amended): for a fan curve with `temp_delta > 0` and
`speed_min <= speed_max` (`speed_min` an `unsigned`), when the ratcheted fan
estimate equals `temp_min`, `check_fan` passes `speed_min` to the fan actuator. -/
theorem C10_fan_base_point (m : monitor_impl)
    (hdelta : 0 < (power_settings m).fan_temp_delta)
    (hest : (fan_ratchet m).m_fan_temp = (power_settings m).fan_temp_min)
    (hle : (power_settings m).fan_speed_min ≤ (power_settings m).fan_speed_max)
    (hmin : (power_settings m).fan_speed_min < UNSIGNED_RANGE) :
    check_fan m = applesmc_set_fan_speed (power_settings m).fan_speed_min (fan_ratchet m) := by
  have hix : fan_ix (power_settings m) (power_settings m).fan_temp_min = 0 :=
    fan_ix_base (power_settings m) hdelta
  unfold check_fan
  simp only [hest, fan_speed, hix, Nat.zero_mul, Nat.add_zero, Nat.mod_eq_of_lt hmin,
    Nat.min_eq_left hle]

/-- C10, witness: the default curve with the estimate settled at 40 degrees. -/
theorem C10_fan_base_point_witness :
    check_fan (settled_fan_monitor 40) = applesmc_set_fan_speed 2000 (settled_fan_monitor 40) := by
  have h := C10_fan_base_point (settled_fan_monitor 40)
    (by rw [power_settings_settled]; norm_num)
    (by rw [power_settings_settled, fan_ratchet_settled]; rfl)
    (by rw [power_settings_settled]; decide)
    (by rw [power_settings_settled]; decide)
  rw [power_settings_settled, fan_ratchet_settled] at h
  exact h

/-- C10, counterexample: with `speed_min` = 3000 above `speed_max` = 2000 and
the estimate at `temp_min`, `check_fan` writes `speed_max` = 2000 to the fan,
not `speed_min`. -/
theorem C10_inverted_curve :
    0 < (power_settings inverted_curve_monitor).fan_temp_delta ∧
    (fan_ratchet inverted_curve_monitor).m_fan_temp
      = (power_settings inverted_curve_monitor).fan_temp_min ∧
    (power_settings inverted_curve_monitor).fan_speed_min = 3000 ∧
    check_fan inverted_curve_monitor
      = .done { inverted_curve_monitor with
          m_fan := [{ manual := some true, output := some 2000 }] } := by
  have hps : power_settings inverted_curve_monitor
      = { fan_speed_min := 3000, fan_speed_max := 2000 } := by
    simp [power_settings, inverted_curve_monitor]
  have hr : fan_ratchet inverted_curve_monitor = inverted_curve_monitor := by
    simp [fan_ratchet, inverted_curve_monitor]
  have ht : inverted_curve_monitor.m_fan_temp = 40 := rfl
  refine ⟨?_, ?_, ?_, ?_⟩
  · rw [hps]; norm_num
  · rw [hps, hr, ht]
  · rw [hps]
  · have hix : fan_ix { fan_speed_min := 3000, fan_speed_max := 2000 } 40 = 0 :=
      fan_ix_base { fan_speed_min := 3000, fan_speed_max := 2000 } (by norm_num)
    have hs : fan_speed { fan_speed_min := 3000, fan_speed_max := 2000 } 40 = 2000 := by
      simp [fan_speed, hix, UNSIGNED_RANGE]
    simp only [check_fan, hps, hr, ht, hs]
    simp [applesmc_set_fan_speed, set_fan_speed, inverted_curve_monitor]

/-! ## CPU governor: one call of `check_cpu` -/

theorem lower_bound_le_length (l : List Nat) (v : Nat) : lower_bound l v ≤ l.length := by
  induction l with
  | nil => simp [lower_bound]
  | cons x rest ih =>
    simp only [lower_bound, List.length_cons]
    split <;> omega

theorem cap_index_eq_min (available : List Nat) (cap : Nat) (hne : available ≠ []) :
    cap_index available cap = min (lower_bound available cap) (available.length - 1) := by
  have hlen : 0 < available.length := List.length_pos.mpr hne
  have hle := lower_bound_le_length available cap
  unfold cap_index
  simp only [min_def]
  split_ifs <;> omega

theorem select_index_le_cap (throttle unthrottle : Bool) (ix max_ix : Nat) :
    select_index throttle unthrottle ix max_ix ≤ max_ix := by
  unfold select_index
  rcases Nat.lt_or_ge max_ix ix with h | h
  · rw [min_eq_right (Nat.le_of_lt h)]
    simp only
    split_ifs <;> omega
  · rw [min_eq_left h]
    simp only
    split_ifs <;> omega

theorem select_index_near_min (throttle unthrottle : Bool) (ix max_ix : Nat) :
    select_index throttle unthrottle ix max_ix ≤ min ix max_ix + 1 ∧
    min ix max_ix ≤ select_index throttle unthrottle ix max_ix + 1 := by
  unfold select_index
  rcases Nat.lt_or_ge max_ix ix with h | h
  · rw [min_eq_right (Nat.le_of_lt h)]
    simp only
    split_ifs <;> omega
  · rw [min_eq_left h]
    simp only
    split_ifs <;> omega

theorem select_index_near_current (throttle unthrottle : Bool) (ix max_ix : Nat)
    (hnear : ix ≤ max_ix + 1) :
    select_index throttle unthrottle ix max_ix ≤ ix + 1 ∧
    ix ≤ select_index throttle unthrottle ix max_ix + 1 := by
  unfold select_index
  rcases Nat.lt_or_ge max_ix ix with h | h
  · rw [min_eq_right (Nat.le_of_lt h)]
    simp only
    split_ifs <;> omega
  · rw [min_eq_left h]
    simp only
    split_ifs <;> omega

theorem select_index_ge_min (unthrottle : Bool) (ix max_ix : Nat) :
    min ix max_ix ≤ select_index false unthrottle ix max_ix := by
  unfold select_index
  simp only [Bool.false_eq_true, if_false]
  split_ifs <;> omega

theorem cpu_ratchet_frame (m : monitor_impl) :
    (cpu_ratchet m).m_cpuinfo = m.m_cpuinfo ∧ (cpu_ratchet m).m_on_ac = m.m_on_ac ∧
    (cpu_ratchet m).m_battery = m.m_battery ∧ (cpu_ratchet m).m_set = m.m_set := by
  unfold cpu_ratchet
  split_ifs <;> simp

theorem cpu_ratchet_throttle_time (m : monitor_impl) :
    (cpu_ratchet m).m_cpu_throttle_time = m.m_cpu_throttle_time := by
  unfold cpu_ratchet
  split_ifs <;> rfl

theorem cpu_max_speed_prepared (m : monitor_impl) :
    cpu_max_speed (cpu_cooldowns (cpu_ratchet m)) = cpu_max_speed m := by
  obtain ⟨_, h2, h3, h4⟩ := cpu_ratchet_frame m
  simp only [cpu_max_speed, power_settings, cpu_cooldowns, h2, h3, h4]

/-- When the three reads of `check_cpu` succeed, it ends in `write_ceiling` with
the index that `select_index` gives for the sorted ladder. -/
theorem check_cpu_of_reads (m : monitor_impl) (front : cpu) (rest : List cpu)
    (frequencies : List Nat) (current cap : Nat)
    (hcpus : m.m_cpuinfo = front :: rest)
    (hfreq : front.scaling_available_frequencies = some frequencies)
    (hcur : scaling_max_freq m.m_cpuinfo = some current)
    (hcap : cpu_max_speed m = some cap) :
    check_cpu m = write_ceiling (power_settings m) (throttle_flag (cpu_ratchet m))
      (unthrottle_flag (cpu_ratchet m)) (frequencies.insertionSort (· ≤ ·))
      (lower_bound (frequencies.insertionSort (· ≤ ·)) current)
      (select_index (throttle_flag (cpu_ratchet m)) (unthrottle_flag (cpu_ratchet m))
        (lower_bound (frequencies.insertionSort (· ≤ ·)) current)
        (cap_index (frequencies.insertionSort (· ≤ ·)) cap))
      (cpu_cooldowns (cpu_ratchet m)) := by
  have hinfo : (cpu_cooldowns (cpu_ratchet m)).m_cpuinfo = front :: rest := by
    simp [cpu_cooldowns, (cpu_ratchet_frame m).1, hcpus]
  have hcap2 := cpu_max_speed_prepared m
  unfold check_cpu
  simp only [hinfo, hfreq, hcpus ▸ hcur, hcap2, hcap]

theorem write_ceiling_throttle_time (ps : power_mode) (unthrottle : Bool) (available : List Nat)
    (ix new_ix : Nat) (m m' : monitor_impl)
    (h : write_ceiling ps false unthrottle available ix new_ix m = .done m' ∨
      write_ceiling ps false unthrottle available ix new_ix m = .thrown m') :
    m'.m_cpu_throttle_time = m.m_cpu_throttle_time := by
  unfold write_ceiling at h
  simp only [Bool.false_eq_true, if_false] at h
  split at h
  · split at h
    · simp at h
    · split at h
      · split at h
        · rcases h with h | h <;> simp at h
          subst h; rfl
        · rcases h with h | h <;> simp at h
          subst h; rfl
      · rcases h with h | h <;> simp at h
        subst h; rfl
  · rcases h with h | h <;> simp at h
    subst h; rfl

theorem cpu_ratchet_governor (ceiling cap : Nat) (t : ℚ) (tt : Nat) :
    cpu_ratchet (governor_monitor ceiling cap t tt) = governor_monitor ceiling cap t tt := by
  simp [cpu_ratchet, governor_monitor]

theorem sorted_ladder :
    [1000, 2000, 3000, 4000, 5000].insertionSort (· ≤ ·) = [1000, 2000, 3000, 4000, 5000] := by
  decide

theorem cpu_max_speed_governor (ceiling cap : Nat) (t : ℚ) (tt : Nat) :
    cpu_max_speed (governor_monitor ceiling cap t tt) = some cap := by
  simp [cpu_max_speed, power_settings, governor_monitor]

/-- C4 (amended): when the three reads of `check_cpu` succeed and the index of
the current ceiling is at most one above `cap_ix`, the index `new_ix` that
`check_cpu` hands to the write step differs from `cur_ix` by at most one. -/
theorem C4_one_step_near_cap (m : monitor_impl) (front : cpu) (rest : List cpu)
    (frequencies : List Nat) (current cap : Nat)
    (hcpus : m.m_cpuinfo = front :: rest)
    (hfreq : front.scaling_available_frequencies = some frequencies)
    (hcur : scaling_max_freq m.m_cpuinfo = some current)
    (hcap : cpu_max_speed m = some cap)
    (hnear : lower_bound (frequencies.insertionSort (· ≤ ·)) current
      ≤ cap_index (frequencies.insertionSort (· ≤ ·)) cap + 1) :
    ∃ new_ix : Nat,
      check_cpu m = write_ceiling (power_settings m) (throttle_flag (cpu_ratchet m))
        (unthrottle_flag (cpu_ratchet m)) (frequencies.insertionSort (· ≤ ·))
        (lower_bound (frequencies.insertionSort (· ≤ ·)) current) new_ix
        (cpu_cooldowns (cpu_ratchet m)) ∧
      new_ix ≤ lower_bound (frequencies.insertionSort (· ≤ ·)) current + 1 ∧
      lower_bound (frequencies.insertionSort (· ≤ ·)) current ≤ new_ix + 1 :=
  ⟨_, check_cpu_of_reads m front rest frequencies current cap hcpus hfreq hcur hcap,
    select_index_near_current _ _ _ _ hnear⟩

/-- C4, witness: ceiling 3000 (index 2) under a cap of 4000 (index 3). -/
theorem C4_one_step_near_cap_witness :
    ∃ new_ix : Nat,
      check_cpu (governor_monitor 3000 4000 95 0)
        = write_ceiling (power_settings (governor_monitor 3000 4000 95 0))
          (throttle_flag (cpu_ratchet (governor_monitor 3000 4000 95 0)))
          (unthrottle_flag (cpu_ratchet (governor_monitor 3000 4000 95 0)))
          ([1000, 2000, 3000, 4000, 5000].insertionSort (· ≤ ·))
          (lower_bound ([1000, 2000, 3000, 4000, 5000].insertionSort (· ≤ ·)) 3000) new_ix
          (cpu_cooldowns (cpu_ratchet (governor_monitor 3000 4000 95 0))) ∧
      new_ix ≤ lower_bound ([1000, 2000, 3000, 4000, 5000].insertionSort (· ≤ ·)) 3000 + 1 ∧
      lower_bound ([1000, 2000, 3000, 4000, 5000].insertionSort (· ≤ ·)) 3000 ≤ new_ix + 1 :=
  C4_one_step_near_cap (governor_monitor 3000 4000 95 0) (ladder_cpu 3000) []
    [1000, 2000, 3000, 4000, 5000] 3000 4000 rfl rfl (by decide)
    (cpu_max_speed_governor 3000 4000 95 0) (by rw [sorted_ladder]; decide)

/-- C4, counterexample: ladder 1000..5000, ceiling 5000 (index 4), cap 2000
(index 1), estimate 80 between the cold and hot thresholds: one call of
`check_cpu` writes 2000, three ladder steps below the ceiling. -/
theorem C4_ceiling_drops_to_cap :
    lower_bound ([1000, 2000, 3000, 4000, 5000].insertionSort (· ≤ ·)) 5000 = 4 ∧
    cpu_max_speed (governor_monitor 5000 2000 80 0) = some 2000 ∧
    cap_index ([1000, 2000, 3000, 4000, 5000].insertionSort (· ≤ ·)) 2000 = 1 ∧
    lower_bound ([1000, 2000, 3000, 4000, 5000].insertionSort (· ≤ ·)) 2000 = 1 ∧
    check_cpu (governor_monitor 5000 2000 80 0) = .done (governor_monitor 2000 2000 80 0) := by
  have hflag1 : throttle_flag (governor_monitor 5000 2000 80 0) = false := by
    simp [throttle_flag, power_settings, governor_monitor]; norm_num
  have hflag2 : unthrottle_flag (governor_monitor 5000 2000 80 0) = false := by
    simp [unthrottle_flag, power_settings, governor_monitor]; norm_num
  have hcap := cpu_max_speed_governor 5000 2000 80 0
  have hcool : cpu_cooldowns (governor_monitor 5000 2000 80 0)
      = governor_monitor 5000 2000 80 0 := by
    simp [cpu_cooldowns, cooldown_step, governor_monitor]
  refine ⟨by rw [sorted_ladder]; decide, hcap, by rw [sorted_ladder]; decide,
    by rw [sorted_ladder]; decide, ?_⟩
  rw [check_cpu_of_reads (governor_monitor 5000 2000 80 0) (ladder_cpu 5000) []
    [1000, 2000, 3000, 4000, 5000] 5000 2000 rfl rfl (by decide) hcap]
  rw [cpu_ratchet_governor, hflag1, hflag2, hcool, sorted_ladder]
  have h1 : lower_bound [1000, 2000, 3000, 4000, 5000] 5000 = 4 := by decide
  have h2 : cap_index [1000, 2000, 3000, 4000, 5000] 2000 = 1 := by decide
  have h3 : select_index false false 4 1 = 1 := by decide
  rw [h1, h2, h3]
  simp [write_ceiling, set_scaling_max_freq, governor_monitor, ladder_cpu]

/-- C5: when the three reads of `check_cpu` succeed on a non-empty ladder, the
index `new_ix` that `check_cpu` hands to the write step is at most `cap_ix`,
and `cap_ix` is the lower bound of the effective cap clamped to the last valid
index; the two flags are whatever the state makes them. -/
theorem C5_selected_index_le_cap (m : monitor_impl) (front : cpu) (rest : List cpu)
    (frequencies : List Nat) (current cap : Nat)
    (hcpus : m.m_cpuinfo = front :: rest)
    (hfreq : front.scaling_available_frequencies = some frequencies)
    (hne : frequencies ≠ [])
    (hcur : scaling_max_freq m.m_cpuinfo = some current)
    (hcap : cpu_max_speed m = some cap) :
    ∃ new_ix : Nat,
      check_cpu m = write_ceiling (power_settings m) (throttle_flag (cpu_ratchet m))
        (unthrottle_flag (cpu_ratchet m)) (frequencies.insertionSort (· ≤ ·))
        (lower_bound (frequencies.insertionSort (· ≤ ·)) current) new_ix
        (cpu_cooldowns (cpu_ratchet m)) ∧
      new_ix ≤ cap_index (frequencies.insertionSort (· ≤ ·)) cap ∧
      cap_index (frequencies.insertionSort (· ≤ ·)) cap
        = min (lower_bound (frequencies.insertionSort (· ≤ ·)) cap)
            ((frequencies.insertionSort (· ≤ ·)).length - 1) := by
  refine ⟨_, check_cpu_of_reads m front rest frequencies current cap hcpus hfreq hcur hcap,
    select_index_le_cap _ _ _ _, cap_index_eq_min _ _ ?_⟩
  intro hnil
  have hlen := List.length_insertionSort (· ≤ ·) frequencies
  rw [hnil] at hlen
  exact hne (List.length_eq_zero.mp hlen.symm)

/-- C5, witness: ceiling 5000 under a cap of 2000, the estimate above the hot
threshold. -/
theorem C5_selected_index_le_cap_witness :
    ∃ new_ix : Nat,
      check_cpu (governor_monitor 5000 2000 95 0)
        = write_ceiling (power_settings (governor_monitor 5000 2000 95 0))
          (throttle_flag (cpu_ratchet (governor_monitor 5000 2000 95 0)))
          (unthrottle_flag (cpu_ratchet (governor_monitor 5000 2000 95 0)))
          ([1000, 2000, 3000, 4000, 5000].insertionSort (· ≤ ·))
          (lower_bound ([1000, 2000, 3000, 4000, 5000].insertionSort (· ≤ ·)) 5000) new_ix
          (cpu_cooldowns (cpu_ratchet (governor_monitor 5000 2000 95 0))) ∧
      new_ix ≤ cap_index ([1000, 2000, 3000, 4000, 5000].insertionSort (· ≤ ·)) 2000 ∧
      cap_index ([1000, 2000, 3000, 4000, 5000].insertionSort (· ≤ ·)) 2000
        = min (lower_bound ([1000, 2000, 3000, 4000, 5000].insertionSort (· ≤ ·)) 2000)
            (([1000, 2000, 3000, 4000, 5000].insertionSort (· ≤ ·)).length - 1) :=
  C5_selected_index_le_cap (governor_monitor 5000 2000 95 0) (ladder_cpu 5000) []
    [1000, 2000, 3000, 4000, 5000] 5000 2000 rfl rfl (by decide) (by decide)
    (cpu_max_speed_governor 5000 2000 95 0)

/-- C6: a call of `check_cpu` that starts with `throttle_remaining > 0` has a
false throttle flag whatever the estimate is, so the selected index is at least
`min(cur_ix, cap_ix)`, and however the call ends (it returns or throws) the
throttle cooldown is the old one less `check_interval`, floored at zero. -/
theorem C6_cooldown_blocks_throttle (m : monitor_impl) (hpos : 0 < m.m_cpu_throttle_time) :
    throttle_flag (cpu_ratchet m) = false ∧
    (∀ ix max_ix : Nat, min ix max_ix
      ≤ select_index (throttle_flag (cpu_ratchet m)) (unthrottle_flag (cpu_ratchet m)) ix max_ix) ∧
    (∀ m' : monitor_impl, check_cpu m = .done m' ∨ check_cpu m = .thrown m' →
      m'.m_cpu_throttle_time = m.m_cpu_throttle_time - m.m_set.check_interval) := by
  have hflag : throttle_flag (cpu_ratchet m) = false := by
    simp [throttle_flag, cpu_ratchet_throttle_time]; omega
  have hcool : (cpu_cooldowns (cpu_ratchet m)).m_cpu_throttle_time
      = m.m_cpu_throttle_time - m.m_set.check_interval := by
    simp only [cpu_cooldowns, cooldown_step, cpu_ratchet_throttle_time, (cpu_ratchet_frame m).2.2.2]
    split_ifs <;> omega
  refine ⟨hflag, ?_, ?_⟩
  · intro ix max_ix
    rw [hflag]
    exact select_index_ge_min _ ix max_ix
  · intro m' h
    unfold check_cpu at h
    simp only [hflag] at h
    split at h
    · simp at h
    · split at h
      · rcases h with h | h <;> simp at h
        subst h; exact hcool
      · split at h
        · rcases h with h | h <;> simp at h
          subst h; exact hcool
        · split at h
          · rcases h with h | h <;> simp at h
            subst h; exact hcool
          · rw [write_ceiling_throttle_time _ _ _ _ _ _ _ h, hcool]

/-- C6, witness: a cooldown of 5 seconds left, the estimate at 95 degrees. -/
theorem C6_cooldown_blocks_throttle_witness :
    throttle_flag (cpu_ratchet (governor_monitor 3000 4000 95 5)) = false ∧
    (∀ ix max_ix : Nat, min ix max_ix
      ≤ select_index (throttle_flag (cpu_ratchet (governor_monitor 3000 4000 95 5)))
          (unthrottle_flag (cpu_ratchet (governor_monitor 3000 4000 95 5))) ix max_ix) ∧
    (∀ m' : monitor_impl,
      check_cpu (governor_monitor 3000 4000 95 5) = .done m' ∨
        check_cpu (governor_monitor 3000 4000 95 5) = .thrown m' →
      m'.m_cpu_throttle_time = (governor_monitor 3000 4000 95 5).m_cpu_throttle_time
        - (governor_monitor 3000 4000 95 5).m_set.check_interval) :=
  C6_cooldown_blocks_throttle (governor_monitor 3000 4000 95 5) (by decide)

/-! ## Ring buffer -/

theorem slot_ne_newest (c j N : Nat) (hj : 0 < j) (hjc : j ≤ c + 1) (hjN : j < N) :
    (c + 1 - j) % N ≠ (c + 1) % N := by
  intro h
  have hmod : c + 1 - j ≡ c + 1 [MOD N] := h
  have hdvd : N ∣ c + 1 - (c + 1 - j) := (Nat.modEq_iff_dvd' (Nat.sub_le _ _)).mp hmod
  have hj2 : c + 1 - (c + 1 - j) = j := by omega
  rw [hj2] at hdvd
  exact absurd (Nat.le_of_dvd hj hdvd) (by omega)

/-- One returning call of `update_stats` appends its two readings to what the
ring holds. -/
theorem update_stats_ring (m m1 : monitor_impl) (temps energies : List ℚ)
    (hring : ring_holds m temps energies) (hdone : update_stats m = .done m1) :
    ∃ t e, current_max_temp m.m_coretemp = some t ∧ m.m_battery.energy_now = some e ∧
      m1.m_history_count = m.m_history_count + 1 ∧ m1.m_history_size = m.m_history_size ∧
      m1.m_set = m.m_set ∧
      ring_holds m1 (temps ++ [t]) (energies ++ [e]) := by
  obtain ⟨hN, hlt, hle, htl, hel, hslots⟩ := hring
  unfold update_stats at hdone
  split at hdone
  · simp at hdone
  · rename_i online honline
    simp only [hN, if_false] at hdone
    split at hdone
    · simp at hdone
    · rename_i t ht
      split at hdone
      · simp at hdone
      · rename_i e he
        simp only [outcome.done.injEq] at hdone
        subst hdone
        refine ⟨t, e, ht, he, rfl, rfl, rfl, hN, ?_, ?_, ?_, ?_, ?_⟩
        · simpa using hlt
        · simpa using hle
        · simp [htl]
        · simp [hel]
        · intro j hjc hjN
          simp only at hjc hjN ⊢
          have hpos : 0 < m.m_history_size := Nat.pos_of_ne_zero hN
          rcases Nat.eq_zero_or_pos j with hj0 | hjpos
          · subst hj0
            simp only [Nat.sub_zero, Nat.add_sub_cancel]
            have hidx : (m.m_history_count + 1) % m.m_history_size < m.m_history_size :=
              Nat.mod_lt _ hpos
            constructor
            · rw [List.getElem?_set_self (by rw [hlt]; exact hidx)]
              rw [List.getElem?_append_right (by omega)]
              simp [htl]
            · rw [List.getElem?_set_self (by rw [hle]; exact hidx)]
              rw [List.getElem?_append_right (by omega)]
              simp [hel]
          · have hne := slot_ne_newest m.m_history_count j m.m_history_size hjpos (by omega) hjN
            have hold := hslots (j - 1) (by omega) (by omega)
            have e1 : m.m_history_count - (j - 1) = m.m_history_count + 1 - j := by omega
            have e2 : m.m_history_count - 1 - (j - 1) = m.m_history_count + 1 - 1 - j := by omega
            rw [e1, e2] at hold
            constructor
            · rw [List.getElem?_set_ne (Ne.symm hne), hold.1]
              rw [List.getElem?_append_left (by omega)]
            · rw [List.getElem?_set_ne (Ne.symm hne), hold.2]
              rw [List.getElem?_append_left (by omega)]

theorem init_ring (set : settings) (coretemp : List (Option ℚ)) (fans : List fan)
    (cpus : List cpu) (ac battery : power) (backlight keyboard_backlight : led)
    (m0 : monitor_impl)
    (hinit : monitor_impl.init set coretemp fans cpus ac battery backlight keyboard_backlight
      = some m0) :
    set.check_interval ≠ 0 ∧ m0.m_set = set ∧ m0.m_history_count = 0 ∧
    m0.m_history_size = (HISTORY_LENGTH + set.check_interval - 1) / set.check_interval ∧
    ring_holds m0 [] [] := by
  unfold monitor_impl.init at hinit
  split at hinit
  · split at hinit
    · simp at hinit
    · rename_i hci
      simp only [Option.some.injEq] at hinit
      subst hinit
      refine ⟨hci, rfl, rfl, rfl, ?_, ?_, ?_, rfl, rfl, ?_⟩
      · simp only [HISTORY_LENGTH]
        have hpos : 0 < set.check_interval := Nat.pos_of_ne_zero hci
        have : 0 < (300 + set.check_interval - 1) / set.check_interval :=
          Nat.div_pos (by omega) hpos
        omega
      · simp
      · simp
      · intro j hj
        simp at hj
  · simp at hinit

theorem update_stats_run_ring (ticks : List sensors) :
    ∀ (m m1 : monitor_impl) (temps energies : List ℚ),
      ring_holds m temps energies → update_stats_run ticks m = some m1 →
      ∃ temps1 energies1 : List ℚ,
        ticks.map (fun s => current_max_temp s.temp_inputs) = temps1.map some ∧
        ticks.map (fun s => s.charge_now.map scale_micro) = energies1.map some ∧
        m1.m_history_count = m.m_history_count + ticks.length ∧
        m1.m_history_size = m.m_history_size ∧ m1.m_set = m.m_set ∧
        ring_holds m1 (temps ++ temps1) (energies ++ energies1) := by
  induction ticks with
  | nil =>
    intro m m1 temps energies hring hrun
    simp only [update_stats_run, Option.some.injEq] at hrun
    subst hrun
    exact ⟨[], [], rfl, rfl, rfl, rfl, rfl, by simpa using hring⟩
  | cons s rest ih =>
    intro m m1 temps energies hring hrun
    simp only [update_stats_run] at hrun
    split at hrun
    · rename_i m2 hdone
      have hring0 : ring_holds (m.with_sensors s) temps energies := hring
      obtain ⟨t, e, ht, he, hc, hsz, hset, hring2⟩ :=
        update_stats_ring (m.with_sensors s) m2 temps energies hring0 hdone
      obtain ⟨temps1, energies1, hts, hes, hc1, hsz1, hset1, hring1⟩ :=
        ih m2 m1 (temps ++ [t]) (energies ++ [e]) hring2 hrun
      refine ⟨t :: temps1, e :: energies1, ?_, ?_, ?_, ?_, ?_, ?_⟩
      · simp only [List.map_cons, hts]
        congr 1
      · simp only [List.map_cons, hes]
        congr 1
      · rw [hc1, hc]; simp [monitor_impl.with_sensors]; omega
      · rw [hsz1, hsz]; rfl
      · rw [hset1, hset]; rfl
      · simpa using hring1
    · simp at hrun

theorem coarse_init :
    monitor_impl.init coarse_settings [] [] [] { online := some true } {} display_led
      keyboard_led = some coarse_start := by
  simp [monitor_impl.init, coarse_settings, coarse_start, HISTORY_LENGTH, display_led,
    keyboard_led]

theorem coarse_run : update_stats_run coarse_ticks coarse_start = some coarse_end := by
  simp [update_stats_run, coarse_ticks, update_stats, monitor_impl.with_sensors, coarse_start,
    current_max_temp, current_max_temp_from, power.energy_now, coarse_end]
  norm_num

/-- C3: after the constructor (which needs `check_interval >= 1`) and `k`
returning calls of `update_stats` on the ticks' sensor values, the capacity is
`ceil(300 / check_interval)`, the counter is `k`, every call had a temperature
reading `t_i` and an energy reading `e_i`, and for every `j < min(k, N)` the
slot `(k - j) % N` of the temperature history holds `t_(k-j)` and the same slot
of the energy history holds `e_(k-j)` (the lists are indexed from 0, so
`t_(k-j)` is `temps[k - 1 - j]`); `k` may exceed `N`. -/
theorem C3_ring_buffer (set : settings) (coretemp : List (Option ℚ)) (fans : List fan)
    (cpus : List cpu) (ac battery : power) (backlight keyboard_backlight : led)
    (m0 m : monitor_impl) (ticks : List sensors)
    (hinit : monitor_impl.init set coretemp fans cpus ac battery backlight keyboard_backlight
      = some m0)
    (hrun : update_stats_run ticks m0 = some m) :
    1 ≤ set.check_interval ∧
    m.m_history_size = (HISTORY_LENGTH + set.check_interval - 1) / set.check_interval ∧
    m.m_history_count = ticks.length ∧
    ∃ temps energies : List ℚ,
      ticks.map (fun s => current_max_temp s.temp_inputs) = temps.map some ∧
      ticks.map (fun s => s.charge_now.map scale_micro) = energies.map some ∧
      ∀ j : Nat, j < ticks.length → j < m.m_history_size →
        m.m_temp_history[(ticks.length - j) % m.m_history_size]? = temps[ticks.length - 1 - j]? ∧
        m.m_energy_history[(ticks.length - j) % m.m_history_size]?
          = energies[ticks.length - 1 - j]? ∧
        (temps[ticks.length - 1 - j]?).isSome ∧ (energies[ticks.length - 1 - j]?).isSome := by
  obtain ⟨hci, hset, hc0, hsz0, hring0⟩ := init_ring set coretemp fans cpus ac battery backlight keyboard_backlight m0 hinit
  obtain ⟨temps, energies, hts, hes, hc, hsz, -, hring⟩ :=
    update_stats_run_ring ticks m0 m [] [] hring0 hrun
  rw [hc0, Nat.zero_add] at hc
  simp only [List.nil_append] at hring
  obtain ⟨-, -, -, htl, hel, hslots⟩ := hring
  refine ⟨Nat.pos_of_ne_zero hci, by rw [hsz, hsz0], hc, temps, energies, hts, hes, ?_⟩
  intro j hj hjN
  rw [hc] at hslots htl hel
  have h := hslots j hj hjN
  refine ⟨h.1, h.2, ?_, ?_⟩
  · rw [List.getElem?_eq_getElem (by omega)]; rfl
  · rw [List.getElem?_eq_getElem (by omega)]; rfl

/-- C3, witness: four ticks into a history of capacity three. -/
theorem C3_ring_buffer_witness :
    1 ≤ coarse_settings.check_interval ∧
    coarse_end.m_history_size
      = (HISTORY_LENGTH + coarse_settings.check_interval - 1) / coarse_settings.check_interval ∧
    coarse_end.m_history_count = coarse_ticks.length ∧
    ∃ temps energies : List ℚ,
      coarse_ticks.map (fun s => current_max_temp s.temp_inputs) = temps.map some ∧
      coarse_ticks.map (fun s => s.charge_now.map scale_micro) = energies.map some ∧
      ∀ j : Nat, j < coarse_ticks.length → j < coarse_end.m_history_size →
        coarse_end.m_temp_history[(coarse_ticks.length - j) % coarse_end.m_history_size]?
          = temps[coarse_ticks.length - 1 - j]? ∧
        coarse_end.m_energy_history[(coarse_ticks.length - j) % coarse_end.m_history_size]?
          = energies[coarse_ticks.length - 1 - j]? ∧
        (temps[coarse_ticks.length - 1 - j]?).isSome ∧
        (energies[coarse_ticks.length - 1 - j]?).isSome :=
  C3_ring_buffer coarse_settings [] [] [] { online := some true } {} display_led keyboard_led
    coarse_start coarse_end coarse_ticks coarse_init coarse_run

/-! ## Window extremes of `run_checks` -/

theorem min_upto_step (f : Nat → ℚ) (ci w i : Nat) (x : ℚ) (h : min_upto f ci w i x) :
    min_upto f ci w (i + 1) (if i * ci ≤ w then min x (f i) else x) := by
  obtain ⟨h1, h2, h3⟩ := h
  split_ifs with hw
  · refine ⟨le_trans (min_le_left _ _) h1, ?_, ?_⟩
    · intro j hj hjw
      rcases Nat.lt_succ_iff_lt_or_eq.mp hj with hlt | heq
      · exact le_trans (min_le_left _ _) (h2 j hlt hjw)
      · subst heq; exact min_le_right _ _
    · rcases le_total x (f i) with hle | hle
      · rw [min_eq_left hle]
        rcases h3 with h3 | ⟨j, hj, hjw, hx⟩
        · exact Or.inl h3
        · exact Or.inr ⟨j, by omega, hjw, hx⟩
      · rw [min_eq_right hle]
        exact Or.inr ⟨i, by omega, hw, rfl⟩
  · refine ⟨h1, ?_, ?_⟩
    · intro j hj hjw
      rcases Nat.lt_succ_iff_lt_or_eq.mp hj with hlt | heq
      · exact h2 j hlt hjw
      · subst heq; exact absurd hjw hw
    · rcases h3 with h3 | ⟨j, hj, hjw, hx⟩
      · exact Or.inl h3
      · exact Or.inr ⟨j, by omega, hjw, hx⟩

theorem max_upto_step (f : Nat → ℚ) (ci w i : Nat) (x : ℚ) (h : max_upto f ci w i x) :
    max_upto f ci w (i + 1) (if i * ci ≤ w then max x (f i) else x) := by
  obtain ⟨h1, h2, h3⟩ := h
  split_ifs with hw
  · refine ⟨le_trans h1 (le_max_left _ _), ?_, ?_⟩
    · intro j hj hjw
      rcases Nat.lt_succ_iff_lt_or_eq.mp hj with hlt | heq
      · exact le_trans (h2 j hlt hjw) (le_max_left _ _)
      · subst heq; exact le_max_right _ _
    · rcases le_total x (f i) with hle | hle
      · rw [max_eq_right hle]
        exact Or.inr ⟨i, by omega, hw, rfl⟩
      · rw [max_eq_left hle]
        rcases h3 with h3 | ⟨j, hj, hjw, hx⟩
        · exact Or.inl h3
        · exact Or.inr ⟨j, by omega, hjw, hx⟩
  · refine ⟨h1, ?_, ?_⟩
    · intro j hj hjw
      rcases Nat.lt_succ_iff_lt_or_eq.mp hj with hlt | heq
      · exact h2 j hlt hjw
      · subst heq; exact absurd hjw hw
    · rcases h3 with h3 | ⟨j, hj, hjw, hx⟩
      · exact Or.inl h3
      · exact Or.inr ⟨j, by omega, hjw, hx⟩

theorem bounds_upto_zero (m : monitor_impl) (ps : power_mode) : bounds_upto m ps 0 {} := by
  refine ⟨⟨le_refl _, ?_, Or.inl rfl⟩, ⟨le_refl _, ?_, Or.inl rfl⟩, ⟨le_refl _, ?_, Or.inl rfl⟩,
    ⟨le_refl _, ?_, Or.inl rfl⟩⟩ <;> intro j hj <;> omega

theorem bounds_upto_step (m : monitor_impl) (ps : power_mode) (i : Nat) (b : window_bounds)
    (h : bounds_upto m ps i b) :
    bounds_upto m ps (i + 1) (run_checks_body ps (i * m.m_set.check_interval) (sample m i) b) :=
  ⟨min_upto_step _ _ _ _ _ h.1, max_upto_step _ _ _ _ _ h.2.1, min_upto_step _ _ _ _ _ h.2.2.1,
    max_upto_step _ _ _ _ _ h.2.2.2⟩

theorem run_checks_loop_spec (m : monitor_impl) (ps : power_mode) (delay : Nat)
    (hci : 0 < m.m_set.check_interval)
    (hwrap : (delay / m.m_set.check_interval + 1) * m.m_set.check_interval < UNSIGNED_RANGE)
    (hcount : delay / m.m_set.check_interval < m.m_history_count) :
    ∀ (fuel i : Nat) (b : window_bounds), i ≤ delay / m.m_set.check_interval + 1 →
      delay / m.m_set.check_interval + 1 - i < fuel → bounds_upto m ps i b →
      ∃ b1, run_checks_loop m ps delay fuel i (i * m.m_set.check_interval) b = some b1 ∧
        bounds_upto m ps (delay / m.m_set.check_interval + 1) b1 := by
  intro fuel
  induction fuel with
  | zero => intro i b _ hf; omega
  | succ fuel ih =>
    intro i b hi hf hb
    unfold run_checks_loop
    by_cases hdt : i * m.m_set.check_interval ≤ delay
    · have hile : i ≤ delay / m.m_set.check_interval := (Nat.le_div_iff_mul_le hci).mpr hdt
      have hmul : (i + 1) * m.m_set.check_interval
          ≤ (delay / m.m_set.check_interval + 1) * m.m_set.check_interval :=
        Nat.mul_le_mul_right _ (by omega)
      have hi1 : i + 1 ≤ (i + 1) * m.m_set.check_interval := Nat.le_mul_of_pos_right _ hci
      have hidx : history_index m i = (m.m_history_count - i) % m.m_history_size := by
        unfold history_index
        rw [if_pos (by omega)]
      have hnext : (i * m.m_set.check_interval + m.m_set.check_interval) % UNSIGNED_RANGE
          = (i + 1) * m.m_set.check_interval := by
        have e : i * m.m_set.check_interval + m.m_set.check_interval
            = (i + 1) * m.m_set.check_interval := by ring
        rw [e]
        exact Nat.mod_eq_of_lt (by omega)
      have hinext : (i + 1) % UNSIGNED_RANGE = i + 1 := Nat.mod_eq_of_lt (by omega)
      rw [if_pos hdt]
      simp only [hidx, hnext, hinext]
      exact ih (i + 1) _ (by omega) (by omega) (bounds_upto_step m ps i b hb)
    · rw [if_neg hdt]
      have hieq : i = delay / m.m_set.check_interval + 1 := by
        have : ¬ i ≤ delay / m.m_set.check_interval := fun h =>
          hdt ((Nat.le_div_iff_mul_le hci).mp h)
        omega
      exact ⟨b, rfl, hieq ▸ hb⟩

theorem sample_eq_reading (m : monitor_impl) (temps energies : List ℚ)
    (hring : ring_holds m temps energies) (j : Nat) (hj : j < m.m_history_count) :
    temps[temps.length - 1 - j % m.m_history_size]? = some (sample m j) := by
  obtain ⟨hN, hlt, -, htl, -, hslots⟩ := hring
  have hpos : 0 < m.m_history_size := Nat.pos_of_ne_zero hN
  have hjm : j % m.m_history_size < m.m_history_size := Nat.mod_lt _ hpos
  have hjle : j % m.m_history_size ≤ j := Nat.mod_le _ _
  have hslot := (hslots (j % m.m_history_size) (by omega) hjm).1
  have hidx : (m.m_history_count - j % m.m_history_size) % m.m_history_size
      = (m.m_history_count - j) % m.m_history_size := by
    have hdecomp := Nat.div_add_mod j m.m_history_size
    have : m.m_history_count - j % m.m_history_size
        = (m.m_history_count - j) + m.m_history_size * (j / m.m_history_size) := by omega
    rw [this, Nat.add_mul_mod_self_left]
  rw [hidx] at hslot
  rw [htl, ← hslot]
  unfold sample
  have hlt2 : (m.m_history_count - j) % m.m_history_size < m.m_temp_history.length := by
    rw [hlt]; exact Nat.mod_lt _ hpos
  rw [List.getD_eq_getElem?_getD, List.getElem?_eq_getElem hlt2]
  rfl

theorem window_min_of_upto (m : monitor_impl) (temps energies : List ℚ) (w n : Nat) (x : ℚ)
    (hring : ring_holds m temps energies) (hci : 0 < m.m_set.check_interval)
    (hwn : w / m.m_set.check_interval ≤ n) (hn : n < m.m_history_count)
    (h : min_upto (sample m) m.m_set.check_interval w (n + 1) x) :
    window_min temps m.m_set.check_interval w m.m_history_size x := by
  obtain ⟨h1, h2, h3⟩ := h
  have htl : temps.length = m.m_history_count := hring.2.2.2.1
  refine ⟨h1, ?_, ?_⟩
  · rintro t ⟨j, hjw, hjN, hjl, ht⟩
    have hjn : j ≤ w / m.m_set.check_interval := (Nat.le_div_iff_mul_le hci).mpr hjw
    have hx := h2 j (by omega) hjw
    have hs := sample_eq_reading m temps energies hring j (by omega)
    rw [Nat.mod_eq_of_lt hjN, ht] at hs
    rw [Option.some.injEq] at hs
    rw [hs]; exact hx
  · rcases h3 with h3 | ⟨j, hj, hjw, hx⟩
    · exact Or.inl h3
    · right
      have hpos : 0 < m.m_history_size := Nat.pos_of_ne_zero hring.1
      have hjle : j % m.m_history_size ≤ j := Nat.mod_le _ _
      refine ⟨j % m.m_history_size, ?_, Nat.mod_lt _ hpos, by omega, ?_⟩
      · exact le_trans (Nat.mul_le_mul_right _ hjle) hjw
      · rw [hx]; exact sample_eq_reading m temps energies hring j (by omega)

theorem window_max_of_upto (m : monitor_impl) (temps energies : List ℚ) (w n : Nat) (x : ℚ)
    (hring : ring_holds m temps energies) (hci : 0 < m.m_set.check_interval)
    (hwn : w / m.m_set.check_interval ≤ n) (hn : n < m.m_history_count)
    (h : max_upto (sample m) m.m_set.check_interval w (n + 1) x) :
    window_max temps m.m_set.check_interval w m.m_history_size x := by
  obtain ⟨h1, h2, h3⟩ := h
  have htl : temps.length = m.m_history_count := hring.2.2.2.1
  refine ⟨h1, ?_, ?_⟩
  · rintro t ⟨j, hjw, hjN, hjl, ht⟩
    have hjn : j ≤ w / m.m_set.check_interval := (Nat.le_div_iff_mul_le hci).mpr hjw
    have hx := h2 j (by omega) hjw
    have hs := sample_eq_reading m temps energies hring j (by omega)
    rw [Nat.mod_eq_of_lt hjN, ht] at hs
    rw [Option.some.injEq] at hs
    rw [hs]; exact hx
  · rcases h3 with h3 | ⟨j, hj, hjw, hx⟩
    · exact Or.inl h3
    · right
      have hpos : 0 < m.m_history_size := Nat.pos_of_ne_zero hring.1
      have hjle : j % m.m_history_size ≤ j := Nat.mod_le _ _
      refine ⟨j % m.m_history_size, ?_, Nat.mod_lt _ hpos, by omega, ?_⟩
      · exact le_trans (Nat.mul_le_mul_right _ hjle) hjw
      · rw [hx]; exact sample_eq_reading m temps energies hring j (by omega)

theorem fan_ratchet_eq (m : monitor_impl) :
    fan_ratchet m = { m with m_fan_temp := (fan_ratchet m).m_fan_temp } := by
  unfold fan_ratchet
  split_ifs <;> rfl

theorem cpu_ratchet_eq (m : monitor_impl) :
    cpu_ratchet m = { m with m_cpu_temp := (cpu_ratchet m).m_cpu_temp } := by
  unfold cpu_ratchet
  split_ifs <;> rfl

theorem check_fan_frame (m m1 : monitor_impl)
    (h : check_fan m = .done m1 ∨ check_fan m = .thrown m1) :
    m1 = { m with m_fan_temp := (fan_ratchet m).m_fan_temp, m_fan := m1.m_fan } := by
  have hm : ∃ fans, m1 = { fan_ratchet m with m_fan := fans } := by
    unfold check_fan applesmc_set_fan_speed at h
    simp only at h
    split at h
    · rcases h with h | h <;> simp at h
      exact ⟨_, h.symm⟩
    · rcases h with h | h <;> simp at h
      exact ⟨_, h.symm⟩
  obtain ⟨fans, rfl⟩ := hm
  unfold fan_ratchet
  split_ifs <;> rfl

theorem write_ceiling_frame (ps : power_mode) (throttle unthrottle : Bool)
    (available : List Nat) (ix new_ix : Nat) (m m1 : monitor_impl)
    (h : write_ceiling ps throttle unthrottle available ix new_ix m = .done m1 ∨
      write_ceiling ps throttle unthrottle available ix new_ix m = .thrown m1) :
    m1 = { m with m_cpuinfo := m1.m_cpuinfo, m_cpu_throttle_time := m1.m_cpu_throttle_time,
                  m_cpu_unthrottle_time := m1.m_cpu_unthrottle_time } := by
  unfold write_ceiling at h
  by_cases hne : new_ix = ix
  · simp only [hne, ne_eq, not_true_eq_false, if_false] at h
    rcases h with h | h <;> simp at h
    subst h; rfl
  · simp only [ne_eq, hne, not_false_eq_true, if_true] at h
    cases hav : available[new_ix]? with
    | none => simp [hav] at h
    | some freq =>
      simp only [hav] at h
      cases hr : (set_scaling_max_freq freq m.m_cpuinfo).1 <;> cases throttle <;>
        cases unthrottle <;> simp [hr] at h <;> subst h <;> rfl

theorem check_cpu_frame (m m1 : monitor_impl)
    (h : check_cpu m = .done m1 ∨ check_cpu m = .thrown m1) :
    m1 = { m with m_cpu_temp := (cpu_ratchet m).m_cpu_temp, m_cpuinfo := m1.m_cpuinfo,
                  m_cpu_throttle_time := m1.m_cpu_throttle_time,
                  m_cpu_unthrottle_time := m1.m_cpu_unthrottle_time } := by
  have hm : ∃ cpus tt ut, m1 =
      { cpu_ratchet m with
        m_cpuinfo := cpus, m_cpu_throttle_time := tt, m_cpu_unthrottle_time := ut } := by
    unfold check_cpu at h
    simp only at h
    split at h
    · simp at h
    · split at h
      · rcases h with h | h <;> simp at h
        exact ⟨_, _, _, h.symm.trans rfl⟩
      · split at h
        · rcases h with h | h <;> simp at h
          exact ⟨_, _, _, h.symm.trans rfl⟩
        · split at h
          · rcases h with h | h <;> simp at h
            exact ⟨_, _, _, h.symm.trans rfl⟩
          · have hw := write_ceiling_frame _ _ _ _ _ _ _ _ h
            exact ⟨_, _, _, hw⟩
  obtain ⟨cpus, tt, ut, rfl⟩ := hm
  unfold cpu_ratchet
  split_ifs <;> rfl

theorem store_bounds_fields (m : monitor_impl) (b : window_bounds) :
    (store_bounds m b).m_fan_hot = b.fan_hot ∧ (store_bounds m b).m_fan_cold = b.fan_cold ∧
    (store_bounds m b).m_cpu_hot = b.cpu_hot ∧ (store_bounds m b).m_cpu_cold = b.cpu_cold := by
  unfold store_bounds
  simp only
  split_ifs <;> exact ⟨rfl, rfl, rfl, rfl⟩

theorem run_checks_of_loop (fuel : Nat) (m : monitor_impl) (b : window_bounds)
    (hci : m.m_set.check_interval ≠ 0)
    (hguard : max_delay (power_settings m) / m.m_set.check_interval < m.m_history_count)
    (hN : m.m_history_size ≠ 0)
    (hloop : run_checks_loop m (power_settings m) (max_delay (power_settings m)) fuel 0 0 {}
      = some b) :
    run_checks fuel m =
      match check_fan (store_bounds m b) with
      | .done m5 => if configurable m5.m_cpuinfo then check_cpu m5 else .done m5
      | o => o := by
  unfold run_checks
  simp only [hci, if_false, hguard, if_true, hN, hloop]

theorem run_checks_bounds (fuel : Nat) (m m1 : monitor_impl) (b : window_bounds)
    (hci : m.m_set.check_interval ≠ 0)
    (hguard : max_delay (power_settings m) / m.m_set.check_interval < m.m_history_count)
    (hN : m.m_history_size ≠ 0)
    (hloop : run_checks_loop m (power_settings m) (max_delay (power_settings m)) fuel 0 0 {}
      = some b)
    (h : run_checks fuel m = .done m1 ∨ run_checks fuel m = .thrown m1) :
    m1.m_fan_hot = b.fan_hot ∧ m1.m_fan_cold = b.fan_cold ∧
    m1.m_cpu_hot = b.cpu_hot ∧ m1.m_cpu_cold = b.cpu_cold := by
  rw [run_checks_of_loop fuel m b hci hguard hN hloop] at h
  have hs := store_bounds_fields m b
  split at h
  · rename_i m5 hfan
    have hf := check_fan_frame _ m5 (Or.inl hfan)
    have h5 : m5.m_fan_hot = b.fan_hot ∧ m5.m_fan_cold = b.fan_cold ∧
        m5.m_cpu_hot = b.cpu_hot ∧ m5.m_cpu_cold = b.cpu_cold := by
      rw [hf]; exact hs
    split at h
    · have hc := check_cpu_frame m5 m1 h
      rw [hc]; exact h5
    · rcases h with h | h <;> simp at h
      subst h; exact h5
  · rename_i o hne
    rcases h with h | h
    · exact absurd h (hne m1)
    · have hf := check_fan_frame _ m1 (Or.inr h)
      rw [hf]; exact hs

theorem coarse_end_ring :
    ring_holds coarse_end [50, 51, 52, 53] [5, scale_micro 4900000, scale_micro 4800000, scale_micro 4700000] := by
  refine ⟨by decide, rfl, rfl, rfl, rfl, ?_⟩
  intro j hj hjN
  have hj3 : j < 3 := hjN
  interval_cases j <;> simp [coarse_end]

theorem power_settings_coarse_end : power_settings coarse_end = {} := by
  simp [power_settings, coarse_end, coarse_settings]

theorem max_delay_default : max_delay {} = 40 := by decide

/-- C1 (amended): when `run_checks` evaluates (the history counter exceeds
`delay / check_interval`) on a history that holds the readings `temps`, with
`check_interval >= 1` and an age counter that does not wrap
(`(delay / check_interval + 1) * check_interval < 2 ^ 32`), the loop ends within
`delay / check_interval + 2` iterations, and however `run_checks` ends, each hot
bound is the smaller of 1000 and the minimum, each cold bound the larger of
-300 and the maximum, of the readings whose age `j * check_interval` is at most
the corresponding window length, taken among the `N` most recent readings. -/
theorem C1_window_extremes (fuel : Nat) (m : monitor_impl) (temps energies : List ℚ)
    (hring : ring_holds m temps energies)
    (hci : 1 ≤ m.m_set.check_interval)
    (hguard : max_delay (power_settings m) / m.m_set.check_interval < m.m_history_count)
    (hwrap : (max_delay (power_settings m) / m.m_set.check_interval + 1)
      * m.m_set.check_interval < UNSIGNED_RANGE)
    (hfuel : max_delay (power_settings m) / m.m_set.check_interval + 1 < fuel) :
    (run_checks_loop m (power_settings m) (max_delay (power_settings m)) fuel 0 0 {}).isSome ∧
    ∀ m1 : monitor_impl, run_checks fuel m = .done m1 ∨ run_checks fuel m = .thrown m1 →
      window_min temps m.m_set.check_interval (power_settings m).fan_hot_delay
        m.m_history_size m1.m_fan_hot ∧
      window_max temps m.m_set.check_interval (power_settings m).fan_cold_delay
        m.m_history_size m1.m_fan_cold ∧
      window_min temps m.m_set.check_interval (power_settings m).cpu_hot_delay
        m.m_history_size m1.m_cpu_hot ∧
      window_max temps m.m_set.check_interval (power_settings m).cpu_cold_delay
        m.m_history_size m1.m_cpu_cold := by
  have hpos : 0 < m.m_set.check_interval := hci
  obtain ⟨b, hloop, hb⟩ := run_checks_loop_spec m (power_settings m)
    (max_delay (power_settings m)) hpos hwrap hguard fuel 0 {} (Nat.zero_le _)
    (by rw [Nat.sub_zero]; exact hfuel) (bounds_upto_zero m _)
  rw [Nat.zero_mul] at hloop
  refine ⟨by rw [hloop]; rfl, ?_⟩
  intro m1 h1
  obtain ⟨e1, e2, e3, e4⟩ := run_checks_bounds fuel m m1 b (Nat.pos_iff_ne_zero.mp hpos) hguard hring.1 hloop h1
  rw [e1, e2, e3, e4]
  have hdiv : ∀ w, w ≤ max_delay (power_settings m) →
      w / m.m_set.check_interval ≤ max_delay (power_settings m) / m.m_set.check_interval :=
    fun w hw => Nat.div_le_div_right hw
  have h1 : (power_settings m).fan_hot_delay ≤ max_delay (power_settings m) := by
    unfold max_delay; omega
  have h2 : (power_settings m).fan_cold_delay ≤ max_delay (power_settings m) := by
    unfold max_delay; omega
  have h3 : (power_settings m).cpu_hot_delay ≤ max_delay (power_settings m) := by
    unfold max_delay; omega
  have h4 : (power_settings m).cpu_cold_delay ≤ max_delay (power_settings m) := by
    unfold max_delay; omega
  exact ⟨window_min_of_upto m temps energies _ _ _ hring hpos (hdiv _ h1) hguard hb.1,
    window_max_of_upto m temps energies _ _ _ hring hpos (hdiv _ h2) hguard hb.2.1,
    window_min_of_upto m temps energies _ _ _ hring hpos (hdiv _ h3) hguard hb.2.2.1,
    window_max_of_upto m temps energies _ _ _ hring hpos (hdiv _ h4) hguard hb.2.2.2⟩

/-- C1, witness: four readings in a history of capacity three. -/
theorem C1_window_extremes_witness :
    (run_checks_loop coarse_end (power_settings coarse_end)
      (max_delay (power_settings coarse_end)) 2 0 0 {}).isSome ∧
    ∀ m1 : monitor_impl, run_checks 2 coarse_end = .done m1 ∨ run_checks 2 coarse_end = .thrown m1 →
      window_min [50, 51, 52, 53] coarse_end.m_set.check_interval
        (power_settings coarse_end).fan_hot_delay coarse_end.m_history_size m1.m_fan_hot ∧
      window_max [50, 51, 52, 53] coarse_end.m_set.check_interval
        (power_settings coarse_end).fan_cold_delay coarse_end.m_history_size m1.m_fan_cold ∧
      window_min [50, 51, 52, 53] coarse_end.m_set.check_interval
        (power_settings coarse_end).cpu_hot_delay coarse_end.m_history_size m1.m_cpu_hot ∧
      window_max [50, 51, 52, 53] coarse_end.m_set.check_interval
        (power_settings coarse_end).cpu_cold_delay coarse_end.m_history_size m1.m_cpu_cold :=
  C1_window_extremes 2 coarse_end [50, 51, 52, 53] [5, scale_micro 4900000, scale_micro 4800000, scale_micro 4700000] coarse_end_ring
    (by decide)
    (by rw [power_settings_coarse_end, max_delay_default]; decide)
    (by rw [power_settings_coarse_end, max_delay_default]; decide)
    (by rw [power_settings_coarse_end, max_delay_default]; decide)

theorem check_fan_no_fan (m : monitor_impl) (h : m.m_fan = []) :
    check_fan m = .done (fan_ratchet m) := by
  have hr : (fan_ratchet m).m_fan = [] := by
    unfold fan_ratchet; split_ifs <;> exact h
  unfold check_fan applesmc_set_fan_speed
  simp only [hr, set_fan_speed, if_true]
  congr 1
  rw [← hr]

/-- C1, counterexample: after one tick whose only reading is 1100 degrees,
`run_checks` evaluates (`check_interval` 100, longest window 40) and stores
1000 as both hot bounds, not the minimum 1100 of the readings in the window. -/
theorem C1_hot_bound_capped_at_1000 :
    update_stats furnace_start = .done furnace_read ∧
    ring_holds furnace_read [1100] [5] ∧
    ∃ m1 : monitor_impl, run_checks 2 furnace_read = .done m1 ∧
      m1.m_fan_hot = 1000 ∧ m1.m_cpu_hot = 1000 := by
  have hps : power_settings furnace_read = {} := by
    simp [power_settings, furnace_read, furnace_start, coarse_settings]
  have hloop : run_checks_loop furnace_read {} 40 2 0 0 {}
      = some { fan_hot := 1000, fan_cold := 1100, cpu_hot := 1000, cpu_cold := 1100 } := by
    simp [run_checks_loop, run_checks_body, history_index, furnace_read, furnace_start,
      coarse_settings, UNSIGNED_RANGE]
    norm_num
  refine ⟨?_, ?_, ?_⟩
  · simp [update_stats, furnace_start, furnace_read, current_max_temp, current_max_temp_from,
      power.energy_now]
    norm_num
  · refine ⟨by decide, rfl, rfl, rfl, rfl, ?_⟩
    intro j hj hjN
    have hj1 : j < 1 := hj
    interval_cases j
    simp [furnace_read, furnace_start]
  · have hrun := run_checks_of_loop 2 furnace_read _ (by decide)
      (by rw [hps, max_delay_default]; decide) (by decide)
      (by rw [hps, max_delay_default]; exact hloop)
    rw [check_fan_no_fan _ (by unfold store_bounds; simp only; split_ifs <;> rfl)] at hrun
    have hcfg : configurable (fan_ratchet (store_bounds furnace_read
        { fan_hot := 1000, fan_cold := 1100, cpu_hot := 1000, cpu_cold := 1100 })).m_cpuinfo
        = false := by
      unfold fan_ratchet store_bounds; simp only; split_ifs <;> rfl
    simp only [hcfg] at hrun
    refine ⟨_, hrun, ?_, ?_⟩
    · unfold fan_ratchet store_bounds; simp only; split_ifs <;> rfl
    · unfold fan_ratchet store_bounds; simp only; split_ifs <;> rfl

/-- With a longest window of `2 ^ 32 - 1` seconds the loop of `run_checks` does
not end, whatever the fuel: `dt <= delay` holds for every `unsigned dt`. This
is why the theorems on the window extremes ask for an age counter that does not
wrap. -/
theorem run_checks_loop_never_ends (m : monitor_impl) (ps : power_mode) :
    ∀ (fuel i dt : Nat) (b : window_bounds), dt < UNSIGNED_RANGE →
      run_checks_loop m ps (UNSIGNED_RANGE - 1) fuel i dt b = none := by
  intro fuel
  induction fuel with
  | zero => intro i dt b _; rfl
  | succ fuel ih =>
    intro i dt b hdt
    unfold run_checks_loop
    rw [if_pos (by omega)]
    exact ih _ _ _ (Nat.mod_lt _ (by decide))

/-! ## Debounce -/

theorem window_min_exact (temps : List ℚ) (ci w N : Nat) (x : ℚ)
    (h : window_min temps ci w N x) (hlow : ∃ t, in_window temps ci w N t ∧ t ≤ 1000) :
    in_window temps ci w N x ∧ ∀ t, in_window temps ci w N t → x ≤ t := by
  obtain ⟨h1, h2, h3⟩ := h
  refine ⟨?_, h2⟩
  rcases h3 with h3 | h3
  · obtain ⟨t0, ht0, hle⟩ := hlow
    have hx := h2 t0 ht0
    have : t0 = x := le_antisymm (by rw [h3]; exact hle) hx
    rw [← this]; exact ht0
  · exact h3

theorem ratchet_moves_up (hot cold est new : ℚ)
    (hnew : new = if hot > est then hot else if cold < est then cold else est) :
    (est < new ↔ est < hot) ∧ (est < new → new = hot) := by
  subst hnew
  by_cases h : hot > est
  · rw [if_pos h]
    exact ⟨Iff.rfl, fun _ => rfl⟩
  · rw [if_neg h]
    have hle : ¬ est < (if cold < est then cold else est) := by
      split_ifs with hc
      · exact not_lt.mpr (le_of_lt hc)
      · exact lt_irrefl _
    exact ⟨⟨fun h1 => absurd h1 hle, fun h1 => absurd h1 h⟩, fun h1 => absurd h1 hle⟩

theorem fan_ratchet_temp (m : monitor_impl) :
    (fan_ratchet m).m_fan_temp
      = if m.m_fan_hot > m.m_fan_temp then m.m_fan_hot
        else if m.m_fan_cold < m.m_fan_temp then m.m_fan_cold else m.m_fan_temp := by
  unfold fan_ratchet
  split_ifs <;> rfl

theorem cpu_ratchet_temp (m : monitor_impl) :
    (cpu_ratchet m).m_cpu_temp
      = if m.m_cpu_hot > m.m_cpu_temp then m.m_cpu_hot
        else if m.m_cpu_cold < m.m_cpu_temp then m.m_cpu_cold else m.m_cpu_temp := by
  unfold cpu_ratchet
  split_ifs <;> rfl

theorem store_bounds_seeded (m : monitor_impl) (b : window_bounds)
    (hfan : -280 ≤ m.m_fan_temp) (hcpu : -280 ≤ m.m_cpu_temp) :
    store_bounds m b = { m with m_fan_hot := b.fan_hot, m_fan_cold := b.fan_cold,
                                m_cpu_hot := b.cpu_hot, m_cpu_cold := b.cpu_cold } := by
  unfold store_bounds
  simp only [not_lt.mpr hfan, not_lt.mpr hcpu, if_false]

/-- What a returning `run_checks` that evaluates has done: the loop gave `b`,
`check_fan` returned `m5` on the stored bounds, and `check_cpu` ran on `m5` when
the platform is configurable. -/
theorem run_checks_done (fuel : Nat) (m m1 : monitor_impl) (b : window_bounds)
    (hci : m.m_set.check_interval ≠ 0)
    (hguard : max_delay (power_settings m) / m.m_set.check_interval < m.m_history_count)
    (hN : m.m_history_size ≠ 0)
    (hloop : run_checks_loop m (power_settings m) (max_delay (power_settings m)) fuel 0 0 {}
      = some b)
    (h : run_checks fuel m = .done m1) :
    ∃ m5, check_fan (store_bounds m b) = .done m5 ∧
      ((configurable m5.m_cpuinfo = true ∧ check_cpu m5 = .done m1) ∨
       (configurable m5.m_cpuinfo = false ∧ m1 = m5)) := by
  rw [run_checks_of_loop fuel m b hci hguard hN hloop] at h
  split at h
  · rename_i m5 hfan
    refine ⟨m5, hfan, ?_⟩
    split at h
    · rename_i hc
      exact Or.inl ⟨hc, h⟩
    · rename_i hc
      simp only [outcome.done.injEq] at h
      exact Or.inr ⟨by simpa using hc, h.symm⟩
  · rename_i o hne
    exact absurd h (hne m1)

/-- C2 (amended): in an evaluating tick that `run_checks` completes on a
platform with configurable frequency scaling, with both estimates seeded (not
below -280), `check_interval >= 1`, an age counter that does not wrap and, in
each hot window, a reading of at most 1000: the fan estimate and the CPU
estimate each increase in that tick if and only if every reading inside the
component's hot window is strictly greater than the pre-tick estimate, and the
new estimate is then the minimum reading of that window (it lies in the window
and is at most every reading of it). -/
theorem C2_debounce (fuel : Nat) (m m1 : monitor_impl) (temps energies : List ℚ)
    (hring : ring_holds m temps energies)
    (hci : 1 ≤ m.m_set.check_interval)
    (hguard : max_delay (power_settings m) / m.m_set.check_interval < m.m_history_count)
    (hwrap : (max_delay (power_settings m) / m.m_set.check_interval + 1)
      * m.m_set.check_interval < UNSIGNED_RANGE)
    (hfuel : max_delay (power_settings m) / m.m_set.check_interval + 1 < fuel)
    (hdone : run_checks fuel m = .done m1)
    (hcfg : configurable m.m_cpuinfo = true)
    (hfan_seeded : -280 ≤ m.m_fan_temp) (hcpu_seeded : -280 ≤ m.m_cpu_temp)
    (hfan_low : ∃ t, in_window temps m.m_set.check_interval (power_settings m).fan_hot_delay
      m.m_history_size t ∧ t ≤ 1000)
    (hcpu_low : ∃ t, in_window temps m.m_set.check_interval (power_settings m).cpu_hot_delay
      m.m_history_size t ∧ t ≤ 1000) :
    ((m.m_fan_temp < m1.m_fan_temp ↔
        ∀ t, in_window temps m.m_set.check_interval (power_settings m).fan_hot_delay
          m.m_history_size t → m.m_fan_temp < t) ∧
      (m.m_fan_temp < m1.m_fan_temp →
        in_window temps m.m_set.check_interval (power_settings m).fan_hot_delay
          m.m_history_size m1.m_fan_temp ∧
        ∀ t, in_window temps m.m_set.check_interval (power_settings m).fan_hot_delay
          m.m_history_size t → m1.m_fan_temp ≤ t)) ∧
    ((m.m_cpu_temp < m1.m_cpu_temp ↔
        ∀ t, in_window temps m.m_set.check_interval (power_settings m).cpu_hot_delay
          m.m_history_size t → m.m_cpu_temp < t) ∧
      (m.m_cpu_temp < m1.m_cpu_temp →
        in_window temps m.m_set.check_interval (power_settings m).cpu_hot_delay
          m.m_history_size m1.m_cpu_temp ∧
        ∀ t, in_window temps m.m_set.check_interval (power_settings m).cpu_hot_delay
          m.m_history_size t → m1.m_cpu_temp ≤ t)) := by
  have hpos : 0 < m.m_set.check_interval := hci
  have hci0 : m.m_set.check_interval ≠ 0 := Nat.pos_iff_ne_zero.mp hpos
  obtain ⟨b, hloop, hb⟩ := run_checks_loop_spec m (power_settings m)
    (max_delay (power_settings m)) hpos hwrap hguard fuel 0 {} (Nat.zero_le _)
    (by rw [Nat.sub_zero]; exact hfuel) (bounds_upto_zero m _)
  rw [Nat.zero_mul] at hloop
  have hdiv : ∀ w, w ≤ max_delay (power_settings m) →
      w / m.m_set.check_interval ≤ max_delay (power_settings m) / m.m_set.check_interval :=
    fun w hw => Nat.div_le_div_right hw
  have hw1 : (power_settings m).fan_hot_delay ≤ max_delay (power_settings m) := by
    unfold max_delay; omega
  have hw3 : (power_settings m).cpu_hot_delay ≤ max_delay (power_settings m) := by
    unfold max_delay; omega
  have hfanmin := window_min_exact _ _ _ _ _
    (window_min_of_upto m temps energies _ _ _ hring hpos (hdiv _ hw1) hguard hb.1) hfan_low
  have hcpumin := window_min_exact _ _ _ _ _
    (window_min_of_upto m temps energies _ _ _ hring hpos (hdiv _ hw3) hguard hb.2.2.1) hcpu_low
  obtain ⟨m5, hfan, hcpu⟩ := run_checks_done fuel m m1 b hci0 hguard hring.1 hloop hdone
  have hstore := store_bounds_seeded m b hfan_seeded hcpu_seeded
  have hf5 := check_fan_frame _ m5 (Or.inl hfan)
  have hfr := fan_ratchet_temp (store_bounds m b)
  rw [hstore] at hf5 hfr
  simp only at hfr
  have h5cfg : configurable m5.m_cpuinfo = true := by rw [hf5]; exact hcfg
  rcases hcpu with ⟨-, hcpu⟩ | ⟨hno, -⟩
  swap
  · rw [h5cfg] at hno; exact absurd hno (by decide)
  have hc1 := check_cpu_frame m5 m1 (Or.inl hcpu)
  have hcr := cpu_ratchet_temp m5
  have hfan_new : m1.m_fan_temp = if b.fan_hot > m.m_fan_temp then b.fan_hot
      else if b.fan_cold < m.m_fan_temp then b.fan_cold else m.m_fan_temp := by
    rw [hc1, hf5]; exact hfr
  have hcpu_new : m1.m_cpu_temp = if b.cpu_hot > m.m_cpu_temp then b.cpu_hot
      else if b.cpu_cold < m.m_cpu_temp then b.cpu_cold else m.m_cpu_temp := by
    rw [hc1]; simp only; rw [hcr, hf5]
  have hfm := ratchet_moves_up _ _ _ _ hfan_new
  have hcm := ratchet_moves_up _ _ _ _ hcpu_new
  refine ⟨⟨?_, ?_⟩, ⟨?_, ?_⟩⟩
  · rw [hfm.1]
    exact ⟨fun h t ht => lt_of_lt_of_le h (hfanmin.2 t ht), fun h => h _ hfanmin.1⟩
  · intro h
    rw [hfm.2 h]; exact hfanmin
  · rw [hcm.1]
    exact ⟨fun h t ht => lt_of_lt_of_le h (hcpumin.2 t ht), fun h => h _ hcpumin.1⟩
  · intro h
    rw [hcm.2 h]; exact hcpumin

theorem set_fan_speed_nil (v : Nat) : set_fan_speed v [] = (true, []) := rfl

theorem second_tick_read_ring : ring_holds second_tick_read [50, 60] [5, 5] := by
  refine ⟨by decide, rfl, rfl, rfl, rfl, ?_⟩
  intro j hj hjN
  have hj2 : j < 2 := hj
  interval_cases j <;> simp [second_tick_read, sensor_start]

theorem second_tick_read_settings : power_settings second_tick_read = {} := by
  simp [power_settings, second_tick_read, sensor_start, coarse_settings]

theorem second_tick_run : run_checks 2 second_tick_read = .done second_tick_governed := by
  have hsel : select_index false true 2 4 = 3 := by decide
  norm_num [run_checks, second_tick_read, second_tick_governed, sensor_start, power_settings,
    coarse_settings, max_delay, run_checks_loop, run_checks_body, history_index, UNSIGNED_RANGE,
    store_bounds, check_fan, fan_ratchet, applesmc_set_fan_speed, set_fan_speed_nil, configurable,
    ladder_cpu, check_cpu, cpu_ratchet, throttle_flag, unthrottle_flag, cpu_cooldowns,
    cooldown_step, scaling_max_freq, scaling_max_freq_from, cpu_max_speed, lower_bound,
    cap_index, hsel, write_ceiling, set_scaling_max_freq, List.insertionSort,
    List.orderedInsert]

theorem newest_in_window : in_window [50, 60] 100 40 3 60 ∧ in_window [50, 60] 100 10 3 60 :=
  ⟨⟨0, by decide, by decide, by decide, rfl⟩, ⟨0, by decide, by decide, by decide, rfl⟩⟩

/-- C2, counterexample, on a monitor without cpus (`cpuinfo::configurable` is
false). First run: a tick reading 50 degrees seeds both estimates with 50; the
next tick reads 60, the only reading in either hot window, and the fan estimate
moves to 60 while the CPU estimate stays at 50. Second run: the readings are
900 then 1100; the fan estimate moves up to 1000, which is not the minimum
reading 1100 of its hot window. -/
theorem C2_cpu_estimate_needs_governor :
    on_periodic_check 2 (sensor_start 50000 []) = some (first_tick_end 50) ∧
    on_periodic_check 2 { first_tick_end 50 with m_coretemp := [some 60000] }
      = some (second_tick_end 50 60 60 50 60) ∧
    on_periodic_check 2 (sensor_start 900000 []) = some (first_tick_end 900) ∧
    on_periodic_check 2 { first_tick_end 900 with m_coretemp := [some 1100000] }
      = some (second_tick_end 900 1100 1000 900 1000) := by
  refine ⟨?_, ?_, ?_, ?_⟩ <;>
  norm_num [on_periodic_check, update_stats, sensor_start, first_tick_end, second_tick_end,
    current_max_temp, current_max_temp_from, power.energy_now, run_checks, power_settings,
    coarse_settings, max_delay, run_checks_loop, run_checks_body, history_index, UNSIGNED_RANGE,
    store_bounds, check_fan, fan_ratchet, applesmc_set_fan_speed, set_fan_speed_nil, configurable]

/-- C2, witness: the second tick of a monitor with one cpu, readings 50 then 60. -/
theorem C2_debounce_witness :
    ((second_tick_read.m_fan_temp < second_tick_governed.m_fan_temp ↔
        ∀ t, in_window [50, 60] second_tick_read.m_set.check_interval
          (power_settings second_tick_read).fan_hot_delay second_tick_read.m_history_size t →
          second_tick_read.m_fan_temp < t) ∧
      (second_tick_read.m_fan_temp < second_tick_governed.m_fan_temp →
        in_window [50, 60] second_tick_read.m_set.check_interval
          (power_settings second_tick_read).fan_hot_delay second_tick_read.m_history_size
          second_tick_governed.m_fan_temp ∧
        ∀ t, in_window [50, 60] second_tick_read.m_set.check_interval
          (power_settings second_tick_read).fan_hot_delay second_tick_read.m_history_size t →
          second_tick_governed.m_fan_temp ≤ t)) ∧
    ((second_tick_read.m_cpu_temp < second_tick_governed.m_cpu_temp ↔
        ∀ t, in_window [50, 60] second_tick_read.m_set.check_interval
          (power_settings second_tick_read).cpu_hot_delay second_tick_read.m_history_size t →
          second_tick_read.m_cpu_temp < t) ∧
      (second_tick_read.m_cpu_temp < second_tick_governed.m_cpu_temp →
        in_window [50, 60] second_tick_read.m_set.check_interval
          (power_settings second_tick_read).cpu_hot_delay second_tick_read.m_history_size
          second_tick_governed.m_cpu_temp ∧
        ∀ t, in_window [50, 60] second_tick_read.m_set.check_interval
          (power_settings second_tick_read).cpu_hot_delay second_tick_read.m_history_size t →
          second_tick_governed.m_cpu_temp ≤ t)) :=
  C2_debounce 2 second_tick_read second_tick_governed [50, 60] [5, 5] second_tick_read_ring
    (by decide)
    (by rw [second_tick_read_settings, max_delay_default]; decide)
    (by rw [second_tick_read_settings, max_delay_default]; decide)
    (by rw [second_tick_read_settings, max_delay_default]; decide)
    second_tick_run (by decide)
    (by norm_num [second_tick_read]) (by norm_num [second_tick_read])
    ⟨60, by rw [second_tick_read_settings]; exact newest_in_window.1, by norm_num⟩
    ⟨60, by rw [second_tick_read_settings]; exact newest_in_window.2, by norm_num⟩

/-! ## End-to-end scenario: 95 degrees from the first tick on -/

theorem set_fan_speed_readable (v : Nat) (fans : List fan)
    (h : ∀ f ∈ fans, f.manual.isSome ∧ f.output.isSome) :
    (set_fan_speed v fans).1 = true ∧
    ∀ f ∈ (set_fan_speed v fans).2, f.manual.isSome ∧ f.output.isSome := by
  induction fans with
  | nil => simp [set_fan_speed]
  | cons f rest ih =>
    have hf := h f (List.mem_cons_self _ _)
    have hrest := ih (fun g hg => h g (List.mem_cons_of_mem _ hg))
    obtain ⟨manual, hm⟩ := Option.isSome_iff_exists.mp hf.1
    obtain ⟨output, ho⟩ := Option.isSome_iff_exists.mp hf.2
    unfold set_fan_speed
    simp only [hm]
    have ho1 : (if (!manual) = true then { f with manual := some true } else f).output
        = some output := by
      split_ifs <;> simp [ho]
    simp only [ho1]
    refine ⟨hrest.1, ?_⟩
    intro g hg
    rcases List.mem_cons.mp hg with hg | hg
    · subst hg
      split_ifs <;> simp [hm, ho]
    · exact hrest.2 g hg

theorem set_scaling_max_freq_readable (v : Nat) (cpus : List cpu)
    (h : ∀ c ∈ cpus, c.scaling_max_freq.isSome) :
    set_scaling_max_freq v cpus
      = (true, cpus.map (fun c => { c with scaling_max_freq := some v })) := by
  induction cpus with
  | nil => simp [set_scaling_max_freq]
  | cons c rest ih =>
    have hc := h c (List.mem_cons_self _ _)
    have hrest := ih (fun g hg => h g (List.mem_cons_of_mem _ hg))
    obtain ⟨cur, hcur⟩ := Option.isSome_iff_exists.mp hc
    unfold set_scaling_max_freq
    simp only [hcur, hrest, List.map_cons]

theorem scaling_max_freq_from_ceiling (c : Nat) (cpus : List cpu) (h : ceiling_is cpus c) :
    ∀ freq, scaling_max_freq_from freq cpus = some (if cpus = [] then freq else max freq c) := by
  induction cpus with
  | nil => intro freq; simp [scaling_max_freq_from]
  | cons x rest ih =>
    intro freq
    have hx := h x (List.mem_cons_self _ _)
    have hrest := ih (fun g hg => h g (List.mem_cons_of_mem _ hg))
    unfold scaling_max_freq_from
    simp only [hx, hrest, reduceCtorEq, if_false]
    split_ifs <;> simp [max_assoc]

theorem scaling_max_freq_ceiling (c : Nat) (cpus : List cpu) (hne : cpus ≠ [])
    (h : ceiling_is cpus c) : scaling_max_freq cpus = some c := by
  unfold scaling_max_freq
  rw [scaling_max_freq_from_ceiling c cpus h 0, if_neg hne]
  simp

theorem lower_bound_lt (l : List Nat) (v : Nat) :
    ∀ i x, i < lower_bound l v → l[i]? = some x → x < v := by
  induction l with
  | nil => intro i x hi; simp [lower_bound] at hi
  | cons y rest ih =>
    intro i x hi hx
    unfold lower_bound at hi
    split_ifs at hi with hy
    · cases i with
      | zero => simp at hx; rw [← hx]; exact hy
      | succ i => simp at hx; exact ih i x (by omega) hx
    · omega

theorem lower_bound_ge (l : List Nat) (v : Nat) :
    ∀ x, l[lower_bound l v]? = some x → v ≤ x := by
  induction l with
  | nil => intro x hx; simp [lower_bound] at hx
  | cons y rest ih =>
    intro x hx
    unfold lower_bound at hx
    split_ifs at hx with hy
    · simp at hx; exact ih x hx
    · simp at hx; omega

theorem lower_bound_mono (l : List Nat) (v w : Nat) (hvw : v ≤ w) :
    lower_bound l v ≤ lower_bound l w := by
  induction l with
  | nil => simp [lower_bound]
  | cons y rest ih =>
    unfold lower_bound
    split_ifs with h1 h2 <;> omega

theorem lower_bound_of_entry (l : List Nat) :
    ∀ p x, l[p]? = some x → lower_bound l x ≤ p := by
  induction l with
  | nil => intro p x hx; simp at hx
  | cons y rest ih =>
    intro p x hx
    unfold lower_bound
    split_ifs with hy
    · cases p with
      | zero => simp at hx; omega
      | succ p => simp at hx; have := ih p x hx; omega
    · omega

theorem sorted_entries_le (l : List Nat) (hs : l.Sorted (· ≤ ·)) (i j : Nat) (x y : Nat)
    (hij : i ≤ j) (hx : l[i]? = some x) (hy : l[j]? = some y) : x ≤ y := by
  rcases Nat.eq_or_lt_of_le hij with heq | hlt
  · subst heq; rw [hx] at hy; simp at hy; omega
  · obtain ⟨hi, hxi⟩ := List.getElem?_eq_some_iff.mp hx
    obtain ⟨hj, hyj⟩ := List.getElem?_eq_some_iff.mp hy
    have := (List.pairwise_iff_getElem.mp hs) i j hi hj hlt
    rw [hxi, hyj] at this
    exact this

theorem update_stats_steady (m : monitor_impl) (frequencies : List Nat) (cap : Nat)
    (h : scenario_holds m frequencies cap) :
    ∃ m1, update_stats m = .done m1 ∧
      m1 = { m with m_history_count := m.m_history_count + 1,
                    m_temp_history := m1.m_temp_history,
                    m_energy_history := m1.m_energy_history } ∧
      scenario_holds m1 frequencies cap := by
  obtain ⟨h1, h2, h3, h4, h5, h6, h7, h8, h9, h10, temps, energies, hring, h95⟩ := h
  obtain ⟨charge, hcharge⟩ := Option.isSome_iff_exists.mp h6
  have he : m.m_battery.energy_now = some (scale_micro charge) := by
    simp [power.energy_now, hcharge]
  have hN : m.m_history_size ≠ 0 := hring.1
  have hdone : update_stats m = .done
      { m with m_history_count := m.m_history_count + 1,
               m_temp_history := m.m_temp_history.set
                 ((m.m_history_count + 1) % m.m_history_size) 95,
               m_energy_history := m.m_energy_history.set
                 ((m.m_history_count + 1) % m.m_history_size) (scale_micro charge) } := by
    unfold update_stats
    simp only [h4, hN, if_false, h5, he]
  refine ⟨_, hdone, rfl, ?_⟩
  obtain ⟨t, e, ht, -, -, -, -, hring1⟩ := update_stats_ring m _ temps energies hring hdone
  rw [h5, Option.some.injEq] at ht
  subst ht
  refine ⟨h1, h2, h3, h4, h5, h6, h7, h8, h9, h10, temps ++ [95], energies ++ [e], hring1, ?_⟩
  intro t ht
  rcases List.mem_append.mp ht with ht | ht
  · exact h95 t ht
  · simpa using ht

theorem run_checks_idle (fuel : Nat) (m : monitor_impl) (hci : m.m_set.check_interval = 1)
    (hdelay : max_delay (power_settings m) = 40) (hcount : m.m_history_count ≤ 40) :
    run_checks fuel m = .done m := by
  unfold run_checks
  simp only [hci, hdelay, Nat.div_one, one_ne_zero, if_false, not_lt.mpr hcount]

theorem window_min_all_95 (temps : List ℚ) (w N : Nat) (x : ℚ)
    (h : window_min temps 1 w N x) (h95 : ∀ t ∈ temps, t = 95) (hlen : 0 < temps.length)
    (hN : 0 < N) : x = 95 := by
  obtain ⟨-, h2, h3⟩ := h
  have hnewest : in_window temps 1 w N 95 := by
    refine ⟨0, by omega, hN, hlen, ?_⟩
    rw [List.getElem?_eq_getElem (by omega)]
    exact congrArg some (h95 _ (List.getElem_mem _))
  have hle := h2 95 hnewest
  rcases h3 with h3 | ⟨j, -, -, hj, hx⟩
  · rw [h3] at hle; norm_num at hle
  · exact h95 x (List.getElem?_mem hx)

theorem window_max_all_95 (temps : List ℚ) (w N : Nat) (x : ℚ)
    (h : window_max temps 1 w N x) (h95 : ∀ t ∈ temps, t = 95) (hlen : 0 < temps.length)
    (hN : 0 < N) : x = 95 := by
  obtain ⟨-, h2, h3⟩ := h
  have hnewest : in_window temps 1 w N 95 := by
    refine ⟨0, by omega, hN, hlen, ?_⟩
    rw [List.getElem?_eq_getElem (by omega)]
    exact congrArg some (h95 _ (List.getElem_mem _))
  have hle := h2 95 hnewest
  rcases h3 with h3 | ⟨j, -, -, hj, hx⟩
  · rw [h3] at hle; norm_num at hle
  · exact h95 x (List.getElem?_mem hx)

theorem loop_all_95 (fuel : Nat) (m : monitor_impl) (frequencies : List Nat) (cap : Nat)
    (h : scenario_holds m frequencies cap) (hcount : 40 < m.m_history_count)
    (hfuel : 41 < fuel) :
    run_checks_loop m (power_settings m) (max_delay (power_settings m)) fuel 0 0 {}
      = some { fan_cold := 95, fan_hot := 95, cpu_cold := 95, cpu_hot := 95 } := by
  obtain ⟨h1, h2, -, -, -, -, -, -, -, -, temps, energies, hring, h95⟩ := h
  have hpos : 0 < m.m_set.check_interval := by omega
  have hguard : max_delay (power_settings m) / m.m_set.check_interval < m.m_history_count := by
    rw [h1, h2]; exact hcount
  obtain ⟨b, hloop, hb⟩ := run_checks_loop_spec m (power_settings m)
    (max_delay (power_settings m)) hpos (by rw [h1, h2]; decide) hguard fuel 0 {}
    (Nat.zero_le _) (by rw [h1, h2]; exact hfuel) (bounds_upto_zero m _)
  rw [Nat.zero_mul] at hloop
  rw [hloop]
  have hdiv : ∀ w, w ≤ max_delay (power_settings m) →
      w / m.m_set.check_interval ≤ max_delay (power_settings m) / m.m_set.check_interval :=
    fun w hw => Nat.div_le_div_right hw
  have hw1 : (power_settings m).fan_hot_delay ≤ max_delay (power_settings m) := by
    unfold max_delay; omega
  have hw2 : (power_settings m).fan_cold_delay ≤ max_delay (power_settings m) := by
    unfold max_delay; omega
  have hw3 : (power_settings m).cpu_hot_delay ≤ max_delay (power_settings m) := by
    unfold max_delay; omega
  have hw4 : (power_settings m).cpu_cold_delay ≤ max_delay (power_settings m) := by
    unfold max_delay; omega
  have hlen : 0 < temps.length := by rw [hring.2.2.2.1]; omega
  have hN : 0 < m.m_history_size := Nat.pos_of_ne_zero hring.1
  have e1 := window_min_of_upto m temps energies _ _ _ hring hpos (hdiv _ hw1) hguard hb.1
  have e2 := window_max_of_upto m temps energies _ _ _ hring hpos (hdiv _ hw2) hguard hb.2.1
  have e3 := window_min_of_upto m temps energies _ _ _ hring hpos (hdiv _ hw3) hguard hb.2.2.1
  have e4 := window_max_of_upto m temps energies _ _ _ hring hpos (hdiv _ hw4) hguard hb.2.2.2
  rw [h1] at e1 e2 e3 e4
  have f1 := window_min_all_95 _ _ _ _ e1 h95 hlen hN
  have f2 := window_max_all_95 _ _ _ _ e2 h95 hlen hN
  have f3 := window_min_all_95 _ _ _ _ e3 h95 hlen hN
  have f4 := window_max_all_95 _ _ _ _ e4 h95 hlen hN
  cases b
  simp only at f1 f2 f3 f4
  simp only [f1, f2, f3, f4]

theorem fan_ratchet_settled_state (m : monitor_impl) (hhot : m.m_fan_hot = m.m_fan_temp)
    (hcold : m.m_fan_cold = m.m_fan_temp) : fan_ratchet m = m := by
  unfold fan_ratchet
  rw [hhot, hcold]
  simp

theorem cpu_ratchet_settled_state (m : monitor_impl) (hhot : m.m_cpu_hot = m.m_cpu_temp)
    (hcold : m.m_cpu_cold = m.m_cpu_temp) : cpu_ratchet m = m := by
  unfold cpu_ratchet
  rw [hhot, hcold]
  simp

theorem check_fan_settled (m : monitor_impl)
    (hfans : ∀ f ∈ m.m_fan, f.manual.isSome ∧ f.output.isSome)
    (hhot : m.m_fan_hot = m.m_fan_temp) (hcold : m.m_fan_cold = m.m_fan_temp) :
    ∃ fans, check_fan m = .done { m with m_fan := fans } ∧
      ∀ f ∈ fans, f.manual.isSome ∧ f.output.isSome := by
  have hr := fan_ratchet_settled_state m hhot hcold
  have hs := set_fan_speed_readable (fan_speed (power_settings m) m.m_fan_temp) m.m_fan hfans
  refine ⟨_, ?_, hs.2⟩
  unfold check_fan applesmc_set_fan_speed
  simp only [hr, hs.1, if_true]

theorem check_cpu_settled (m : monitor_impl) (front : cpu) (rest : List cpu)
    (frequencies : List Nat) (current cap : Nat)
    (hcpus : m.m_cpuinfo = front :: rest)
    (hfreq : front.scaling_available_frequencies = some frequencies)
    (hcur : scaling_max_freq m.m_cpuinfo = some current)
    (hcap : cpu_max_speed m = some cap)
    (hhot : m.m_cpu_hot = m.m_cpu_temp) (hcold : m.m_cpu_cold = m.m_cpu_temp) :
    check_cpu m = write_ceiling (power_settings m) (throttle_flag m) (unthrottle_flag m)
      (frequencies.insertionSort (· ≤ ·))
      (lower_bound (frequencies.insertionSort (· ≤ ·)) current)
      (select_index (throttle_flag m) (unthrottle_flag m)
        (lower_bound (frequencies.insertionSort (· ≤ ·)) current)
        (cap_index (frequencies.insertionSort (· ≤ ·)) cap))
      (cpu_cooldowns m) := by
  have h := check_cpu_of_reads m front rest frequencies current cap hcpus hfreq hcur hcap
  rw [cpu_ratchet_settled_state m hhot hcold] at h
  exact h

theorem write_ceiling_same (ps : power_mode) (throttle unthrottle : Bool)
    (available : List Nat) (ix : Nat) (m : monitor_impl) :
    write_ceiling ps throttle unthrottle available ix ix m = .done m := by
  unfold write_ceiling
  simp

theorem write_ceiling_throttle (ps : power_mode) (unthrottle : Bool) (available : List Nat)
    (ix new_ix freq : Nat) (m : monitor_impl) (hne : new_ix ≠ ix)
    (hfreq : available[new_ix]? = some freq)
    (hread : ∀ c ∈ m.m_cpuinfo, c.scaling_max_freq.isSome) :
    write_ceiling ps true unthrottle available ix new_ix m
      = .done { m with
          m_cpuinfo := m.m_cpuinfo.map (fun c => { c with scaling_max_freq := some freq })
          m_cpu_throttle_time := ps.cpu_throttle_delay } := by
  unfold write_ceiling
  simp only [ne_eq, hne, not_false_eq_true, if_true, hfreq,
    set_scaling_max_freq_readable freq m.m_cpuinfo hread]

theorem write_ceiling_no_throttle (ps : power_mode) (unthrottle : Bool) (available : List Nat)
    (ix new_ix freq : Nat) (m : monitor_impl) (hne : new_ix ≠ ix)
    (hfreq : available[new_ix]? = some freq)
    (hread : ∀ c ∈ m.m_cpuinfo, c.scaling_max_freq.isSome) :
    ∃ ut, write_ceiling ps false unthrottle available ix new_ix m
      = .done { m with
          m_cpuinfo := m.m_cpuinfo.map (fun c => { c with scaling_max_freq := some freq })
          m_cpu_unthrottle_time := ut } := by
  unfold write_ceiling
  simp only [ne_eq, hne, not_false_eq_true, if_true, hfreq,
    set_scaling_max_freq_readable freq m.m_cpuinfo hread, Bool.false_eq_true, if_false]
  cases unthrottle
  · exact ⟨m.m_cpu_unthrottle_time, by simp⟩
  · exact ⟨ps.cpu_unthrottle_delay, by simp⟩

theorem scenario_frame (m m1 : monitor_impl) (frequencies : List Nat) (cap : Nat)
    (h : scenario_holds m frequencies cap)
    (hset : m1.m_set = m.m_set) (hon : m1.m_on_ac = m.m_on_ac) (hac : m1.m_ac = m.m_ac)
    (hcore : m1.m_coretemp = m.m_coretemp) (hbat : m1.m_battery = m.m_battery)
    (hth : m1.m_temp_history = m.m_temp_history)
    (heh : m1.m_energy_history = m.m_energy_history)
    (hsz : m1.m_history_size = m.m_history_size)
    (hcount : m1.m_history_count = m.m_history_count)
    (hfans : ∀ f ∈ m1.m_fan, f.manual.isSome ∧ f.output.isSome)
    (hfront : ∃ front rest, m1.m_cpuinfo = front :: rest ∧
      front.scaling_available_frequencies = some frequencies)
    (hread : ∀ c ∈ m1.m_cpuinfo, c.scaling_max_freq.isSome) :
    scenario_holds m1 frequencies cap := by
  obtain ⟨h1, h2, h3, h4, h5, h6, h7, h8, h9, h10, temps, energies, hring, h95⟩ := h
  have hps : power_settings m1 = power_settings m := by
    simp only [power_settings, hset, hon]
  refine ⟨by rw [hset]; exact h1, by rw [hps]; exact h2, by rw [hps]; exact h3,
    by rw [hac, hon]; exact h4, by rw [hcore]; exact h5, by rw [hbat]; exact h6, hfans, hfront,
    hread, ?_, temps, energies, ?_, h95⟩
  · rw [← h10]
    simp only [cpu_max_speed, hps, hset, hon, hbat]
  · unfold ring_holds at hring ⊢
    rw [hth, heh, hsz, hcount]
    exact hring

theorem store_bounds_95 (m : monitor_impl)
    (hfan : m.m_fan_temp < -280 ∨ m.m_fan_temp = 95)
    (hcpu : m.m_cpu_temp < -280 ∨ m.m_cpu_temp = 95) :
    store_bounds m { fan_cold := 95, fan_hot := 95, cpu_cold := 95, cpu_hot := 95 }
      = settled_at_95 m m.m_fan := by
  have hmean : ((95 : ℚ) + 95) / 2 = 95 := by norm_num
  unfold store_bounds settled_at_95
  rcases hfan with hfan | hfan <;> rcases hcpu with hcpu | hcpu
  · simp only [hfan, hcpu, if_true, hmean]
  · have hc : ¬ m.m_cpu_temp < -280 := by rw [hcpu]; norm_num
    simp only [hfan, hc, if_true, if_false, hmean]
    simp only [hcpu]
  · have hf : ¬ m.m_fan_temp < -280 := by rw [hfan]; norm_num
    simp only [hf, hcpu, if_true, if_false, hmean]
    simp only [hfan]
  · have hc : ¬ m.m_cpu_temp < -280 := by rw [hcpu]; norm_num
    have hf : ¬ m.m_fan_temp < -280 := by rw [hfan]; norm_num
    simp only [hf, hc, if_false]
    simp only [hfan, hcpu]

/-- An evaluating tick of the scenario, up to the write of the ceiling. -/
theorem run_checks_steady (fuel : Nat) (m : monitor_impl) (frequencies : List Nat)
    (cap current : Nat)
    (h : scenario_holds m frequencies cap) (hcount : 40 < m.m_history_count)
    (hfuel : 41 < fuel)
    (hfan : m.m_fan_temp < -280 ∨ m.m_fan_temp = 95)
    (hcpu : m.m_cpu_temp < -280 ∨ m.m_cpu_temp = 95)
    (hcur : scaling_max_freq m.m_cpuinfo = some current) :
    ∃ fans, (∀ f ∈ fans, f.manual.isSome ∧ f.output.isSome) ∧
      run_checks fuel m = write_ceiling (power_settings m)
        (decide (m.m_cpu_throttle_time = 0)) (unthrottle_flag (settled_at_95 m fans))
        (frequencies.insertionSort (· ≤ ·))
        (lower_bound (frequencies.insertionSort (· ≤ ·)) current)
        (select_index (decide (m.m_cpu_throttle_time = 0))
          (unthrottle_flag (settled_at_95 m fans))
          (lower_bound (frequencies.insertionSort (· ≤ ·)) current)
          (cap_index (frequencies.insertionSort (· ≤ ·)) cap))
        (cpu_cooldowns (settled_at_95 m fans)) := by
  have hloop := loop_all_95 fuel m frequencies cap h hcount hfuel
  obtain ⟨h1, h2, h3, h4, h5, h6, h7, ⟨front, rest, hcpus, hfreq⟩, h9, h10, temps, energies,
    hring, h95⟩ := h
  have hrun := run_checks_of_loop fuel m _ (by omega) (by rw [h1, h2]; exact hcount) hring.1 hloop
  rw [store_bounds_95 m hfan hcpu] at hrun
  obtain ⟨fans, hfan_done, hfans⟩ := check_fan_settled (settled_at_95 m m.m_fan) h7 rfl rfl
  refine ⟨fans, hfans, ?_⟩
  rw [hfan_done] at hrun
  have hstate : { settled_at_95 m m.m_fan with m_fan := fans } = settled_at_95 m fans := rfl
  rw [hstate] at hrun
  have hcfg : configurable (settled_at_95 m fans).m_cpuinfo = true := by
    show configurable m.m_cpuinfo = true
    rw [hcpus]; simp [configurable, hfreq]
  simp only [hcfg, if_true] at hrun
  rw [hrun]
  have hcpu_eq := check_cpu_settled (settled_at_95 m fans) front rest frequencies current cap
    hcpus hfreq hcur h10 rfl rfl
  rw [hcpu_eq]
  have hthr : throttle_flag (settled_at_95 m fans) = decide (m.m_cpu_throttle_time = 0) := by
    have hps : power_settings (settled_at_95 m fans) = power_settings m := rfl
    have h95 : (settled_at_95 m fans).m_cpu_temp = 95 := rfl
    have htt : (settled_at_95 m fans).m_cpu_throttle_time = m.m_cpu_throttle_time := rfl
    unfold throttle_flag
    rw [hps, h3, h95, htt]
    have : (95 : ℚ) > 90 := by norm_num
    simp [this]
  rw [hthr]
  rfl

theorem select_throttle (unthrottle : Bool) (ix max_ix : Nat) (h1 : 1 ≤ ix)
    (hnear : ix ≤ max_ix + 1) : select_index true unthrottle ix max_ix = ix - 1 := by
  unfold select_index
  rcases Nat.lt_or_ge max_ix ix with h | h
  · rw [min_eq_right (Nat.le_of_lt h)]
    simp only [if_true]
    rw [if_neg (by omega)]
    omega
  · rw [min_eq_left h]
    simp only [if_true]
    rw [if_pos ⟨trivial, by omega⟩]

theorem select_no_throttle (unthrottle : Bool) (ix max_ix : Nat) (h : ix ≤ max_ix) :
    select_index false unthrottle ix max_ix = ix ∨
    (select_index false unthrottle ix max_ix = ix + 1 ∧ ix + 1 ≤ max_ix) := by
  unfold select_index
  rw [min_eq_left h]
  simp only [Bool.false_eq_true, if_false]
  split_ifs
  · right; exact ⟨rfl, by omega⟩
  · left; rfl
  · left; rfl

theorem on_periodic_check_done (fuel : Nat) (m m1 m2 : monitor_impl)
    (h1 : update_stats m = .done m1) (h2 : run_checks fuel m1 = .done m2) :
    on_periodic_check fuel m = some m2 := by
  unfold on_periodic_check
  simp only [h1, h2]

theorem update_stats_tick (m : monitor_impl) (frequencies : List Nat) (cap : Nat)
    (h : scenario_holds m frequencies cap) :
    ∃ m1, update_stats m = .done m1 ∧ scenario_holds m1 frequencies cap ∧
      m1.m_history_count = m.m_history_count + 1 ∧ m1.m_cpuinfo = m.m_cpuinfo ∧
      m1.m_fan_temp = m.m_fan_temp ∧ m1.m_cpu_temp = m.m_cpu_temp ∧
      m1.m_cpu_throttle_time = m.m_cpu_throttle_time ∧
      power_settings m1 = power_settings m := by
  obtain ⟨m1, hdone, hframe, hs⟩ := update_stats_steady m frequencies cap h
  refine ⟨m1, hdone, hs, ?_, ?_, ?_, ?_, ?_, ?_⟩ <;> (rw [hframe]; try rfl)

theorem tick_idle (fuel : Nat) (m : monitor_impl) (frequencies : List Nat) (cap : Nat)
    (h : scenario_holds m frequencies cap) (hcount : m.m_history_count < 40) :
    ∃ m1, on_periodic_check fuel m = some m1 ∧ scenario_holds m1 frequencies cap ∧
      m1.m_history_count = m.m_history_count + 1 ∧ m1.m_cpuinfo = m.m_cpuinfo ∧
      m1.m_fan_temp = m.m_fan_temp ∧ m1.m_cpu_temp = m.m_cpu_temp ∧
      m1.m_cpu_throttle_time = m.m_cpu_throttle_time ∧
      power_settings m1 = power_settings m := by
  obtain ⟨m1, hdone, hs, hc, hcpus, hf, hcp, htt, hps⟩ := update_stats_tick m frequencies cap h
  have hidle := run_checks_idle fuel m1 hs.1 hs.2.1 (by omega)
  exact ⟨m1, on_periodic_check_done fuel m m1 m1 hdone hidle, hs, hc, hcpus, hf, hcp, htt, hps⟩

theorem cap_index_lt_length (available : List Nat) (cap : Nat) (hne : available ≠ []) :
    cap_index available cap < available.length := by
  have hlen : 0 < available.length := List.length_pos.mpr hne
  rw [cap_index_eq_min available cap hne]
  have := min_le_right (lower_bound available cap) (available.length - 1)
  omega

theorem sorted_length (frequencies : List Nat) :
    (frequencies.insertionSort (· ≤ ·)).length = frequencies.length :=
  List.length_insertionSort _ _

theorem map_ceiling (cpus : List cpu) (front : cpu) (rest : List cpu) (frequencies : List Nat)
    (f : Nat) (hcpus : cpus = front :: rest)
    (hfreq : front.scaling_available_frequencies = some frequencies) :
    ceiling_is (cpus.map (fun c => { c with scaling_max_freq := some f })) f ∧
    (∃ front1 rest1, cpus.map (fun c => { c with scaling_max_freq := some f })
        = front1 :: rest1 ∧ front1.scaling_available_frequencies = some frequencies) ∧
    (∀ c ∈ cpus.map (fun c => { c with scaling_max_freq := some f }),
      c.scaling_max_freq.isSome) := by
  refine ⟨?_, ?_, ?_⟩
  · intro x hx
    obtain ⟨y, -, rfl⟩ := List.mem_map.mp hx
    rfl
  · rw [hcpus]
    exact ⟨_, _, rfl, hfreq⟩
  · intro x hx
    obtain ⟨y, -, rfl⟩ := List.mem_map.mp hx
    rfl

theorem tick_first (fuel : Nat) (m : monitor_impl) (frequencies : List Nat)
    (cap current lowest : Nat) (higher : List Nat)
    (h : scenario_holds m frequencies cap) (hcount : m.m_history_count = 40)
    (hfuel : 41 < fuel)
    (hfan : m.m_fan_temp < -280 ∨ m.m_fan_temp = 95)
    (hcpu : m.m_cpu_temp < -280 ∨ m.m_cpu_temp = 95)
    (htt : m.m_cpu_throttle_time = 0)
    (hcur : scaling_max_freq m.m_cpuinfo = some current)
    (hladder : frequencies.insertionSort (· ≤ ·) = lowest :: higher)
    (hlow : lowest < current) (hle : current ≤ cap) :
    ∃ m1 f, on_periodic_check fuel m = some m1 ∧
      (frequencies.insertionSort (· ≤ ·))[
        lower_bound (frequencies.insertionSort (· ≤ ·)) current - 1]? = some f ∧
      f < current ∧ ceiling_is m1.m_cpuinfo f ∧ scenario_holds m1 frequencies cap ∧
      m1.m_history_count = 41 ∧ m1.m_fan_temp = 95 ∧ m1.m_cpu_temp = 95 ∧
      m1.m_cpu_throttle_time = (power_settings m).cpu_throttle_delay ∧
      lower_bound (frequencies.insertionSort (· ≤ ·)) current - 1
        ≤ cap_index (frequencies.insertionSort (· ≤ ·)) cap ∧
      power_settings m1 = power_settings m := by
  obtain ⟨mu, hdone, hs, hc, hcpus, hf, hcp, htt1, hps⟩ := update_stats_tick m frequencies cap h
  obtain ⟨fans, hfans, hrun⟩ := run_checks_steady fuel mu frequencies cap current hs
    (by omega) hfuel (by rw [hf]; exact hfan) (by rw [hcp]; exact hcpu)
    (by rw [hcpus]; exact hcur)
  have hne : frequencies.insertionSort (· ≤ ·) ≠ [] := by rw [hladder]; simp
  have hix1 : 1 ≤ lower_bound (frequencies.insertionSort (· ≤ ·)) current := by
    rw [hladder]; unfold lower_bound; rw [if_pos hlow]; omega
  have hixlen := lower_bound_le_length (frequencies.insertionSort (· ≤ ·)) current
  have hmono := lower_bound_mono (frequencies.insertionSort (· ≤ ·)) current cap hle
  have hnear : lower_bound (frequencies.insertionSort (· ≤ ·)) current
      ≤ cap_index (frequencies.insertionSort (· ≤ ·)) cap + 1 := by
    rw [cap_index_eq_min _ _ hne]
    rcases le_total (lower_bound (frequencies.insertionSort (· ≤ ·)) cap)
        ((frequencies.insertionSort (· ≤ ·)).length - 1) with hl | hl
    · rw [min_eq_left hl]; omega
    · rw [min_eq_right hl]; omega
  have hidx : lower_bound (frequencies.insertionSort (· ≤ ·)) current - 1
      < (frequencies.insertionSort (· ≤ ·)).length := by omega
  have hf1 : (frequencies.insertionSort (· ≤ ·))[
      lower_bound (frequencies.insertionSort (· ≤ ·)) current - 1]?
      = some ((frequencies.insertionSort (· ≤ ·))[
          lower_bound (frequencies.insertionSort (· ≤ ·)) current - 1]) :=
    List.getElem?_eq_getElem hidx
  have hflt := lower_bound_lt (frequencies.insertionSort (· ≤ ·)) current _ _ (by omega) hf1
  rw [htt1, htt] at hrun
  simp only [decide_True] at hrun
  rw [select_throttle _ _ _ hix1 hnear] at hrun
  have hs0 := hs
  obtain ⟨-, -, -, -, -, -, -, ⟨front, rest, hfront, hfreq⟩, hread, -⟩ := hs
  have hread2 : ∀ c ∈ (cpu_cooldowns (settled_at_95 mu fans)).m_cpuinfo,
      c.scaling_max_freq.isSome := hread
  rw [write_ceiling_throttle _ _ _ _ _ _ _ (by omega) hf1 hread2] at hrun
  have hmap := map_ceiling mu.m_cpuinfo front rest frequencies
    ((frequencies.insertionSort (· ≤ ·))[
      lower_bound (frequencies.insertionSort (· ≤ ·)) current - 1]) hfront hfreq
  refine ⟨_, _, on_periodic_check_done fuel m mu _ hdone hrun, hf1, hflt, hmap.1, ?_, ?_,
    rfl, rfl, ?_, by omega, ?_⟩
  · exact scenario_frame mu _ frequencies cap hs0 rfl rfl rfl rfl rfl rfl rfl rfl rfl hfans
      hmap.2.1 hmap.2.2
  · show mu.m_history_count = 41
    omega
  · show (power_settings mu).cpu_throttle_delay = (power_settings m).cpu_throttle_delay
    rw [hps]
  · show power_settings mu = power_settings m
    exact hps

theorem cooldowns_settled_throttle_time (m : monitor_impl) (fans : List fan)
    (hci : m.m_set.check_interval = 1) :
    (cpu_cooldowns (settled_at_95 m fans)).m_cpu_throttle_time = m.m_cpu_throttle_time - 1 := by
  show cooldown_step m.m_set.check_interval m.m_cpu_throttle_time = m.m_cpu_throttle_time - 1
  unfold cooldown_step
  rw [hci]
  split_ifs <;> omega

theorem tick_cooldown (fuel : Nat) (m : monitor_impl) (frequencies : List Nat)
    (cap c p : Nat)
    (h : scenario_holds m frequencies cap) (hcount : 40 ≤ m.m_history_count)
    (hfuel : 41 < fuel) (hfan : m.m_fan_temp = 95) (hcpu : m.m_cpu_temp = 95)
    (htt : 0 < m.m_cpu_throttle_time) (hceil : ceiling_is m.m_cpuinfo c)
    (hp : p ≤ cap_index (frequencies.insertionSort (· ≤ ·)) cap)
    (hpc : (frequencies.insertionSort (· ≤ ·))[p]? = some c) :
    ∃ m1 c1 p1, on_periodic_check fuel m = some m1 ∧ scenario_holds m1 frequencies cap ∧
      m1.m_history_count = m.m_history_count + 1 ∧ m1.m_fan_temp = 95 ∧ m1.m_cpu_temp = 95 ∧
      m1.m_cpu_throttle_time = m.m_cpu_throttle_time - 1 ∧
      ceiling_is m1.m_cpuinfo c1 ∧ c ≤ c1 ∧
      p1 ≤ cap_index (frequencies.insertionSort (· ≤ ·)) cap ∧
      (frequencies.insertionSort (· ≤ ·))[p1]? = some c1 ∧
      power_settings m1 = power_settings m := by
  obtain ⟨mu, hdone, hs, hc, hcpus, hf, hcp, htt1, hps⟩ := update_stats_tick m frequencies cap h
  have hs0 := hs
  obtain ⟨hci, -, -, -, -, -, -, ⟨front, rest, hfront, hfreq⟩, hread, -⟩ := hs
  have hcur : scaling_max_freq mu.m_cpuinfo = some c :=
    scaling_max_freq_ceiling c mu.m_cpuinfo (by rw [hfront]; simp) (by rw [hcpus]; exact hceil)
  obtain ⟨fans, hfans, hrun⟩ := run_checks_steady fuel mu frequencies cap c hs0
    (by omega) hfuel (by rw [hf]; exact Or.inr hfan) (by rw [hcp]; exact Or.inr hcpu) hcur
  have hne : frequencies.insertionSort (· ≤ ·) ≠ [] := by
    intro hnil; rw [hnil] at hpc; simp at hpc
  have hsorted : (frequencies.insertionSort (· ≤ ·)).Sorted (· ≤ ·) :=
    List.sorted_insertionSort (· ≤ ·) frequencies
  have hixp := lower_bound_of_entry (frequencies.insertionSort (· ≤ ·)) p c hpc
  have hcaplt := cap_index_lt_length (frequencies.insertionSort (· ≤ ·)) cap hne
  have hthr : decide (mu.m_cpu_throttle_time = 0) = false := by
    rw [htt1]; simp; omega
  rw [hthr] at hrun
  have htime := cooldowns_settled_throttle_time mu fans hci
  rw [htt1] at htime
  have hbase : scenario_holds (cpu_cooldowns (settled_at_95 mu fans)) frequencies cap :=
    scenario_frame mu _ frequencies cap hs0 rfl rfl rfl rfl rfl rfl rfl rfl rfl hfans
      ⟨front, rest, hfront, hfreq⟩ hread
  rcases select_no_throttle (unthrottle_flag (settled_at_95 mu fans))
      (lower_bound (frequencies.insertionSort (· ≤ ·)) c)
      (cap_index (frequencies.insertionSort (· ≤ ·)) cap) (by omega) with hsel | ⟨hsel, hup⟩
  · rw [hsel, write_ceiling_same] at hrun
    refine ⟨_, c, p, on_periodic_check_done fuel m mu _ hdone hrun, hbase, hc, rfl, rfl, htime,
      ?_, le_refl _, hp, hpc, hps⟩
    show ceiling_is mu.m_cpuinfo c
    rw [hcpus]; exact hceil
  · have hidx : lower_bound (frequencies.insertionSort (· ≤ ·)) c + 1
        < (frequencies.insertionSort (· ≤ ·)).length := by omega
    have hc1 : (frequencies.insertionSort (· ≤ ·))[
        lower_bound (frequencies.insertionSort (· ≤ ·)) c + 1]?
        = some ((frequencies.insertionSort (· ≤ ·))[
            lower_bound (frequencies.insertionSort (· ≤ ·)) c + 1]) :=
      List.getElem?_eq_getElem hidx
    obtain ⟨y, hy⟩ : ∃ y, (frequencies.insertionSort (· ≤ ·))[
        lower_bound (frequencies.insertionSort (· ≤ ·)) c]? = some y :=
      ⟨_, List.getElem?_eq_getElem (by omega)⟩
    have hcy := lower_bound_ge (frequencies.insertionSort (· ≤ ·)) c _ hy
    have hyc1 := sorted_entries_le _ hsorted _ _ _ _ (Nat.le_succ _) hy hc1
    have hread2 : ∀ x ∈ (cpu_cooldowns (settled_at_95 mu fans)).m_cpuinfo,
        x.scaling_max_freq.isSome := hread
    rw [hsel] at hrun
    obtain ⟨ut, hw⟩ := write_ceiling_no_throttle (power_settings mu)
      (unthrottle_flag (settled_at_95 mu fans)) (frequencies.insertionSort (· ≤ ·))
      (lower_bound (frequencies.insertionSort (· ≤ ·)) c)
      (lower_bound (frequencies.insertionSort (· ≤ ·)) c + 1) _
      (cpu_cooldowns (settled_at_95 mu fans)) (by omega) hc1 hread2
    rw [hw] at hrun
    have hmap := map_ceiling mu.m_cpuinfo front rest frequencies
      ((frequencies.insertionSort (· ≤ ·))[
        lower_bound (frequencies.insertionSort (· ≤ ·)) c + 1]) hfront hfreq
    refine ⟨_, _, _, on_periodic_check_done fuel m mu _ hdone hrun, ?_, hc, rfl, rfl, htime,
      hmap.1, le_trans hcy hyc1, hup, hc1, hps⟩
    exact scenario_frame mu _ frequencies cap hs0 rfl rfl rfl rfl rfl rfl rfl rfl rfl hfans
      hmap.2.1 hmap.2.2

theorem run_ticks_succ (fuel n : Nat) (m0 m m1 : monitor_impl)
    (h : run_ticks fuel n m0 = some m) (h1 : on_periodic_check fuel m = some m1) :
    run_ticks fuel (n + 1) m0 = some m1 := by
  show (run_ticks fuel n m0).bind (on_periodic_check fuel) = some m1
  rw [h]; exact h1

theorem scenario_idle_phase (fuel : Nat) (m0 : monitor_impl) (frequencies : List Nat)
    (cap : Nat) (h0 : scenario_holds m0 frequencies cap) (hc0 : m0.m_history_count = 0) :
    ∀ n, n ≤ 40 → ∃ m, run_ticks fuel n m0 = some m ∧ scenario_holds m frequencies cap ∧
      m.m_history_count = n ∧ m.m_cpuinfo = m0.m_cpuinfo ∧ m.m_fan_temp = m0.m_fan_temp ∧
      m.m_cpu_temp = m0.m_cpu_temp ∧ m.m_cpu_throttle_time = m0.m_cpu_throttle_time ∧
      power_settings m = power_settings m0 := by
  intro n
  induction n with
  | zero => intro _; exact ⟨m0, rfl, h0, hc0, rfl, rfl, rfl, rfl, rfl⟩
  | succ n ih =>
    intro hn
    obtain ⟨m, hrun, hs, hc, hcpus, hf, hcp, htt, hps⟩ := ih (by omega)
    obtain ⟨m1, htick, hs1, hc1, hcpus1, hf1, hcp1, htt1, hps1⟩ :=
      tick_idle fuel m frequencies cap hs (by omega)
    exact ⟨m1, run_ticks_succ fuel n m0 m m1 hrun htick, hs1, by omega, by rw [hcpus1, hcpus],
      by rw [hf1, hf], by rw [hcp1, hcp], by rw [htt1, htt], by rw [hps1, hps]⟩

theorem scenario_cooldown_phase (fuel : Nat) (m0 m41 : monitor_impl) (frequencies : List Nat)
    (cap f p : Nat) (D : Nat)
    (hrun : run_ticks fuel 41 m0 = some m41)
    (hs : scenario_holds m41 frequencies cap) (hc : m41.m_history_count = 41)
    (hfan : m41.m_fan_temp = 95) (hcpu : m41.m_cpu_temp = 95)
    (htt : m41.m_cpu_throttle_time = D) (hceil : ceiling_is m41.m_cpuinfo f)
    (hp : p ≤ cap_index (frequencies.insertionSort (· ≤ ·)) cap)
    (hpf : (frequencies.insertionSort (· ≤ ·))[p]? = some f) (hfuel : 41 < fuel) :
    ∀ j, j ≤ D → ∃ m c q, run_ticks fuel (41 + j) m0 = some m ∧
      scenario_holds m frequencies cap ∧ m.m_history_count = 41 + j ∧
      m.m_fan_temp = 95 ∧ m.m_cpu_temp = 95 ∧ m.m_cpu_throttle_time = D - j ∧
      ceiling_is m.m_cpuinfo c ∧ f ≤ c ∧
      q ≤ cap_index (frequencies.insertionSort (· ≤ ·)) cap ∧
      (frequencies.insertionSort (· ≤ ·))[q]? = some c := by
  intro j
  induction j with
  | zero =>
    intro _
    exact ⟨m41, f, p, hrun, hs, hc, hfan, hcpu, htt, hceil, le_refl _, hp, hpf⟩
  | succ j ih =>
    intro hj
    obtain ⟨m, c, q, hrunj, hsj, hcj, hfj, hcpj, httj, hceilj, hfc, hq, hqc⟩ := ih (by omega)
    obtain ⟨m1, c1, q1, htick, hs1, hc1, hf1, hcp1, htt1, hceil1, hcc1, hq1, hqc1, -⟩ :=
      tick_cooldown fuel m frequencies cap c q hsj (by omega) hfuel hfj hcpj (by omega)
        hceilj hq hqc
    exact ⟨m1, c1, q1, run_ticks_succ fuel (41 + j) m0 m m1 hrunj htick, hs1, by omega, hf1,
      hcp1, by omega, hceil1, le_trans hfc hcc1, hq1, hqc1⟩

/-- The end-to-end scenario from a state with an empty history and unseeded
estimates: the ceiling is untouched through tick 40, tick 41 lowers it one
ladder step to `f`, and in each of the next `cpu_throttle_delay` ticks the
ceiling does not go down. -/
theorem scenario_run (fuel : Nat) (m0 : monitor_impl) (frequencies : List Nat)
    (cap current lowest : Nat) (higher : List Nat)
    (h0 : scenario_holds m0 frequencies cap) (hc0 : m0.m_history_count = 0)
    (hfan0 : m0.m_fan_temp < -280) (hcpu0 : m0.m_cpu_temp < -280)
    (htt0 : m0.m_cpu_throttle_time = 0)
    (hcur : scaling_max_freq m0.m_cpuinfo = some current)
    (hladder : frequencies.insertionSort (· ≤ ·) = lowest :: higher)
    (hlow : lowest < current) (hle : current ≤ cap) (hfuel : 41 < fuel) :
    (∀ n, n ≤ 40 → ∃ m, run_ticks fuel n m0 = some m ∧ m.m_cpuinfo = m0.m_cpuinfo) ∧
    ∃ f, (frequencies.insertionSort (· ≤ ·))[
        lower_bound (frequencies.insertionSort (· ≤ ·)) current - 1]? = some f ∧
      f < current ∧
      (∃ m, run_ticks fuel 41 m0 = some m ∧ ceiling_is m.m_cpuinfo f) ∧
      ∀ j, j < (power_settings m0).cpu_throttle_delay →
        ∃ m m1 c c1, run_ticks fuel (41 + j) m0 = some m ∧
          run_ticks fuel (41 + j + 1) m0 = some m1 ∧
          ceiling_is m.m_cpuinfo c ∧ ceiling_is m1.m_cpuinfo c1 ∧ f ≤ c ∧ c ≤ c1 := by
  have hidle := scenario_idle_phase fuel m0 frequencies cap h0 hc0
  refine ⟨fun n hn => ?_, ?_⟩
  · obtain ⟨m, hrun, -, -, hcpus, -⟩ := hidle n hn
    exact ⟨m, hrun, hcpus⟩
  obtain ⟨m40, hrun40, hs40, hc40, hcpus40, hf40, hcp40, htt40, hps40⟩ := hidle 40 (le_refl _)
  obtain ⟨m41, f, htick, hf, hflt, hceil, hs41, hc41, hfan41, hcpu41, htt41, hp, hps⟩ :=
    tick_first fuel m40 frequencies cap current lowest higher hs40 hc40 hfuel
      (Or.inl (by rw [hf40]; exact hfan0)) (Or.inl (by rw [hcp40]; exact hcpu0))
      (by rw [htt40]; exact htt0) (by rw [hcpus40]; exact hcur) hladder hlow hle
  have hrun41 := run_ticks_succ fuel 40 m0 m40 m41 hrun40 htick
  have hD : m41.m_cpu_throttle_time = (power_settings m0).cpu_throttle_delay := by
    rw [htt41, hps40]
  have hcool := scenario_cooldown_phase fuel m0 m41 frequencies cap f _
    (power_settings m0).cpu_throttle_delay hrun41 hs41 hc41 hfan41 hcpu41 hD hceil hp hf hfuel
  refine ⟨f, hf, hflt, ⟨m41, hrun41, hceil⟩, ?_⟩
  intro j hj
  obtain ⟨m, c, q, hrunj, hsj, hcj, hfj, hcpj, httj, hceilj, hfc, hq, hqc⟩ := hcool j (by omega)
  obtain ⟨m1, c1, q1, htick1, -, -, -, -, -, hceil1, hcc1, -⟩ :=
    tick_cooldown fuel m frequencies cap c q hsj (by omega) hfuel hfj hcpj (by omega)
      hceilj hq hqc
  exact ⟨m, m1, c, c1, hrunj, run_ticks_succ fuel (41 + j) m0 m m1 hrunj htick1, hceilj,
    hceil1, hfc, hcc1⟩

theorem init_fields (set : settings) (coretemp : List (Option ℚ)) (fans : List fan)
    (cpus : List cpu) (ac battery : power) (backlight keyboard_backlight : led)
    (m0 : monitor_impl)
    (hinit : monitor_impl.init set coretemp fans cpus ac battery backlight keyboard_backlight
      = some m0) :
    m0.m_set = set ∧ m0.m_coretemp = coretemp ∧ m0.m_fan = fans ∧ m0.m_cpuinfo = cpus ∧
    m0.m_ac = ac ∧ m0.m_battery = battery ∧ ac.online = some m0.m_on_ac ∧
    m0.m_fan_temp = -300 ∧ m0.m_cpu_temp = -300 ∧ m0.m_cpu_throttle_time = 0 ∧
    m0.m_cpu_unthrottle_time = 0 := by
  unfold monitor_impl.init at hinit
  split at hinit
  · rename_i original_display original_keyboard online _ _ honline
    split at hinit
    · simp at hinit
    · simp only [Option.some.injEq] at hinit
      subst hinit
      exact ⟨rfl, rfl, rfl, rfl, rfl, rfl, honline, rfl, rfl, rfl, rfl⟩
  · simp at hinit

/-- C7 (amended): from the constructor state, with `check_interval` 1, a
longest window of 40 seconds, `cpu_temp_hot` 90, every reading 95 degrees, all
files readable, the current ceiling above the lowest ladder entry and not above
the cap: the ceiling is untouched through tick 40, tick 41 lowers it by one
ladder step (to the entry `f` just below the index of the current ceiling), and
in none of the following `cpu_throttle_delay` ticks does the ceiling go down. -/
theorem C7_end_to_end (fuel : Nat) (set : settings) (coretemp : List (Option ℚ))
    (fans : List fan) (cpus : List cpu) (ac battery : power)
    (backlight keyboard_backlight : led) (m0 : monitor_impl)
    (front : cpu) (rest : List cpu) (frequencies : List Nat)
    (cap current lowest : Nat) (higher : List Nat)
    (hinit : monitor_impl.init set coretemp fans cpus ac battery backlight keyboard_backlight
      = some m0)
    (hci : set.check_interval = 1)
    (hlongest : max_delay (power_settings m0) = 40)
    (hthreshold : (power_settings m0).cpu_temp_hot = 90)
    (htemp : current_max_temp coretemp = some 95)
    (hcharge : battery.charge_now.isSome)
    (hfans : ∀ f ∈ fans, f.manual.isSome ∧ f.output.isSome)
    (hcpus : cpus = front :: rest)
    (hfreq : front.scaling_available_frequencies = some frequencies)
    (hread : ∀ c ∈ cpus, c.scaling_max_freq.isSome)
    (hcur : scaling_max_freq cpus = some current)
    (hcap : cpu_max_speed m0 = some cap)
    (hladder : frequencies.insertionSort (· ≤ ·) = lowest :: higher)
    (hlow : lowest < current) (hle : current ≤ cap) (hfuel : 41 < fuel) :
    (∀ n, n ≤ 40 → ∃ m, run_ticks fuel n m0 = some m ∧ m.m_cpuinfo = cpus) ∧
    ∃ f, (frequencies.insertionSort (· ≤ ·))[
        lower_bound (frequencies.insertionSort (· ≤ ·)) current - 1]? = some f ∧
      f < current ∧
      (∃ m, run_ticks fuel 41 m0 = some m ∧ ceiling_is m.m_cpuinfo f) ∧
      ∀ j, j < (power_settings m0).cpu_throttle_delay →
        ∃ m m1 c c1, run_ticks fuel (41 + j) m0 = some m ∧
          run_ticks fuel (41 + j + 1) m0 = some m1 ∧
          ceiling_is m.m_cpuinfo c ∧ ceiling_is m1.m_cpuinfo c1 ∧ f ≤ c ∧ c ≤ c1 := by
  obtain ⟨e1, e2, e3, e4, e5, e6, e7, e8, e9, e10, -⟩ :=
    init_fields set coretemp fans cpus ac battery backlight keyboard_backlight m0 hinit
  obtain ⟨-, -, hc0, -, hring0⟩ := init_ring set coretemp fans cpus ac battery backlight keyboard_backlight m0 hinit
  have h0 : scenario_holds m0 frequencies cap :=
    ⟨by rw [e1]; exact hci, hlongest, hthreshold, by rw [e5]; exact e7, by rw [e2]; exact htemp,
      by rw [e6]; exact hcharge, by rw [e3]; exact hfans,
      ⟨front, rest, by rw [e4]; exact hcpus, hfreq⟩, by rw [e4]; exact hread, hcap,
      [], [], hring0, by simp⟩
  have h := scenario_run fuel m0 frequencies cap current lowest higher h0 hc0
    (by rw [e8]; norm_num) (by rw [e9]; norm_num) e10 (by rw [e4]; exact hcur) hladder hlow hle
    hfuel
  rw [e4] at h
  exact h

theorem scenario_init :
    monitor_impl.init scenario_settings [some 95000] [{}] [ladder_cpu 3000]
      { online := some true } { charge_now := some 5000000 } display_led keyboard_led
      = some scenario_start := rfl

theorem scenario_start_settings :
    power_settings scenario_start = { cpu_hot_delay := 40 } := rfl

theorem scenario_start_holds :
    scenario_holds scenario_start [1000, 2000, 3000, 4000, 5000] 2000000 := by
  have hring := (init_ring _ _ _ _ _ _ _ _ _ scenario_init).2.2.2.2
  refine ⟨rfl, by rw [scenario_start_settings]; decide, by rw [scenario_start_settings],
    rfl, ?_, rfl, ?_, ⟨ladder_cpu 3000, [], rfl, rfl⟩, ?_, ?_, [], [], hring, by simp⟩
  · change current_max_temp [some 95000] = some 95
    norm_num [current_max_temp, current_max_temp_from]
  · intro f hf
    change f ∈ [({} : fan)] at hf
    have : f = {} := by simpa using hf
    subst this; exact ⟨rfl, rfl⟩
  · intro c hc
    change c ∈ [ladder_cpu 3000] at hc
    have : c = ladder_cpu 3000 := by simpa using hc
    subst this; rfl
  · simp only [cpu_max_speed, scenario_start_settings]
    rfl

/-- C7, witness: a five-step ladder with the ceiling at 3000 under the default
cap, a throttle delay of 10 ticks. -/
theorem C7_end_to_end_witness :
    (∀ n, n ≤ 40 → ∃ m, run_ticks 42 n scenario_start = some m ∧
      m.m_cpuinfo = [ladder_cpu 3000]) ∧
    ∃ f, ([1000, 2000, 3000, 4000, 5000].insertionSort (· ≤ ·))[
        lower_bound ([1000, 2000, 3000, 4000, 5000].insertionSort (· ≤ ·)) 3000 - 1]? = some f ∧
      f < 3000 ∧
      (∃ m, run_ticks 42 41 scenario_start = some m ∧ ceiling_is m.m_cpuinfo f) ∧
      ∀ j, j < (power_settings scenario_start).cpu_throttle_delay →
        ∃ m m1 c c1, run_ticks 42 (41 + j) scenario_start = some m ∧
          run_ticks 42 (41 + j + 1) scenario_start = some m1 ∧
          ceiling_is m.m_cpuinfo c ∧ ceiling_is m1.m_cpuinfo c1 ∧ f ≤ c ∧ c ≤ c1 :=
  C7_end_to_end 42 scenario_settings [some 95000] [{}] [ladder_cpu 3000]
    { online := some true } { charge_now := some 5000000 } display_led keyboard_led
    scenario_start (ladder_cpu 3000) []
    [1000, 2000, 3000, 4000, 5000] 2000000 3000 1000 [2000, 3000, 4000, 5000]
    scenario_init rfl (by rw [scenario_start_settings]; decide)
    (by rw [scenario_start_settings])
    (by norm_num [current_max_temp, current_max_temp_from])
    rfl
    (by intro f hf; have : f = {} := by simpa using hf
        subst this; exact ⟨rfl, rfl⟩)
    rfl rfl
    (by intro c hc; have : c = ladder_cpu 3000 := by simpa using hc
        subst this; rfl)
    (by decide) scenario_start_holds.2.2.2.2.2.2.2.2.2.1 sorted_ladder (by decide) (by decide)
    (by decide)

/-- C7, counterexample: in the scenario with a five-step ladder and the ceiling
at 3000, the cpus are as they were after tick 40 (`run_checks` has not
evaluated yet: it needs more than 40 samples), and the ceiling is 2000 after
tick 41. -/
theorem C7_first_drop_on_tick_41 :
    (∃ m, run_ticks 42 40 scenario_start = some m ∧ m.m_cpuinfo = [ladder_cpu 3000]) ∧
    (∃ m, run_ticks 42 41 scenario_start = some m ∧ ceiling_is m.m_cpuinfo 2000) := by
  have h := scenario_run 42 scenario_start [1000, 2000, 3000, 4000, 5000] 2000000 3000 1000
    [2000, 3000, 4000, 5000] scenario_start_holds rfl
    (by change (-300 : ℚ) < -280; norm_num) (by change (-300 : ℚ) < -280; norm_num) rfl
    (by decide)
    sorted_ladder (by decide) (by decide) (by decide)
  obtain ⟨h40, f, hf, -, h41, -⟩ := h
  refine ⟨h40 40 (le_refl _), ?_⟩
  have hf2 : f = 2000 := by
    rw [sorted_ladder] at hf
    have h2 : lower_bound [1000, 2000, 3000, 4000, 5000] 3000 - 1 = 1 := by decide
    rw [h2] at hf
    simpa using hf.symm
  rw [hf2] at h41
  exact h41

/-! ## Idle state machine -/

theorem set_brightness_readable (l : led) (value old : Nat) (h : l.brightness = some old) :
    l.set_brightness value =
      some { l with brightness := some value
                    actual_brightness := l.actual_brightness.map (fun _ => value) } := by
  unfold led.set_brightness
  rw [h]

theorem lower_brightness_display (l : led) (target current old : Nat)
    (hcur : l.actual_brightness = some current) (hfile : l.brightness = some old) :
    ∃ l1, lower_brightness l target current = some l1 ∧
      l1.actual_brightness = some (min current target) ∧ l1.brightness.isSome ∧
      l1.max_brightness = l.max_brightness := by
  unfold lower_brightness
  by_cases h : target < current
  · rw [if_pos h, set_brightness_readable l target old hfile]
    refine ⟨_, rfl, ?_, rfl, rfl⟩
    simp only [hcur, Option.map_some']
    rw [min_eq_right (le_of_lt h)]
  · rw [if_neg h]
    refine ⟨l, rfl, ?_, ?_, rfl⟩
    · rw [hcur, min_eq_left (not_lt.mp h)]
    · rw [hfile]; rfl

theorem lower_brightness_keyboard (l : led) (target current : Nat)
    (hcur : l.brightness = some current) :
    ∃ l1, lower_brightness l target current = some l1 ∧
      l1.brightness = some (min current target) ∧ l1.max_brightness = l.max_brightness := by
  unfold lower_brightness
  by_cases h : target < current
  · rw [if_pos h, set_brightness_readable l target current hcur]
    refine ⟨_, rfl, ?_, rfl⟩
    simp only
    rw [min_eq_right (le_of_lt h)]
  · rw [if_neg h]
    exact ⟨l, rfl, by rw [hcur, min_eq_left (not_lt.mp h)], rfl⟩

/-- A call of `enter_idle` that raises the level, with the three files it
touches readable: what it returns. -/
theorem enter_idle_done (level : Nat) (m : monitor_impl) (d b k : Nat)
    (hlevel : m.m_idle_level < level)
    (hd : m.m_backlight.actual_brightness = some d)
    (hb : m.m_backlight.brightness = some b)
    (hk : m.m_kbd_backlight.brightness = some k) :
    ∃ m1, enter_idle level m = .done m1 ∧ m1.m_idle_level = level ∧
      m1.m_backlight.actual_brightness =
        some (min d (if level = 1 then (power_settings m).display_backlight_idle_level else 0)) ∧
      m1.m_backlight.brightness.isSome ∧
      m1.m_kbd_backlight.brightness =
        some (min k (if level = 1 then (power_settings m).keyboard_backlight_idle_level else 0)) ∧
      m1.m_saved_display_backlight = (if m.m_idle_level = 0 then d else m.m_saved_display_backlight) ∧
      m1.m_saved_keyboard_backlight =
        (if m.m_idle_level = 0 then k else m.m_saved_keyboard_backlight) ∧
      m1.m_on_ac = m.m_on_ac ∧ m1.m_set = m.m_set := by
  have hps : ∀ x y : Nat, power_settings
      { m with m_saved_display_backlight := x, m_saved_keyboard_backlight := y }
      = power_settings m := fun _ _ => rfl
  have hps1 : power_settings
      (if m.m_idle_level = 0 then
        { m with m_saved_display_backlight := d, m_saved_keyboard_backlight := k } else m)
      = power_settings m := by
    split_ifs
    · exact hps d k
    · rfl
  have hbl : (if m.m_idle_level = 0 then
        { m with m_saved_display_backlight := d, m_saved_keyboard_backlight := k } else m).m_backlight
      = m.m_backlight := by split_ifs <;> rfl
  have hkl : (if m.m_idle_level = 0 then
        { m with m_saved_display_backlight := d, m_saved_keyboard_backlight := k }
          else m).m_kbd_backlight
      = m.m_kbd_backlight := by split_ifs <;> rfl
  obtain ⟨l1, hl1, hact, hfile, _⟩ := lower_brightness_display m.m_backlight
    (if level = 1 then (power_settings m).display_backlight_idle_level else 0) d b hd hb
  obtain ⟨l2, hl2, hkb, _⟩ := lower_brightness_keyboard m.m_kbd_backlight
    (if level = 1 then (power_settings m).keyboard_backlight_idle_level else 0) k hk
  unfold enter_idle
  rw [if_pos hlevel, hd, hk]
  simp only [hps1, hbl, hl1, hkl, hl2]
  refine ⟨_, rfl, rfl, hact, hfile, hkb, ?_, ?_, ?_, ?_⟩ <;> split_ifs <;> rfl

theorem leave_idle_done (m : monitor_impl) (d b k : Nat)
    (hlevel : 0 < m.m_idle_level)
    (hd : m.m_backlight.actual_brightness = some d)
    (hb : m.m_backlight.brightness = some b)
    (hk : m.m_kbd_backlight.brightness = some k) :
    ∃ m1, leave_idle m = .done m1 ∧ m1.m_idle_level = 0 ∧
      m1.m_backlight.actual_brightness = some m.m_saved_display_backlight ∧
      m1.m_backlight.brightness = some m.m_saved_display_backlight ∧
      m1.m_kbd_backlight.brightness = some m.m_saved_keyboard_backlight := by
  unfold leave_idle
  rw [if_pos hlevel, set_brightness_readable _ _ b hb]
  simp only
  rw [set_brightness_readable _ _ k hk]
  refine ⟨_, rfl, rfl, ?_, rfl, rfl⟩
  simp only [hd, Option.map_some']

theorem power_settings_idle_monitor (level d k : Nat) :
    power_settings (idle_monitor level d k) = {} := by
  simp [power_settings, idle_monitor]

/-- C11 (idle restore): from the active level with readable backlight files,
`enter_idle(1)`, `enter_idle(2)`, `leave_idle()` all return, and the sequence
ends at the active level with the display and the keyboard backlight at the
values `d` and `k` they showed before the first call. The second call reads the
dimmed display value `min d target` and leaves the saved values `d` and `k`
alone. This holds in either power mode. -/
theorem C11_idle_restore (m : monitor_impl) (d b k : Nat)
    (hactive : m.m_idle_level = 0)
    (hd : m.m_backlight.actual_brightness = some d)
    (hb : m.m_backlight.brightness = some b)
    (hk : m.m_kbd_backlight.brightness = some k) :
    ∃ m1 m2 m3, enter_idle 1 m = .done m1 ∧ enter_idle 2 m1 = .done m2 ∧
      leave_idle m2 = .done m3 ∧
      ((enter_idle 1 m).and_then (enter_idle 2)).and_then leave_idle = .done m3 ∧
      m1.m_backlight.actual_brightness
        = some (min d (power_settings m).display_backlight_idle_level) ∧
      m2.m_saved_display_backlight = d ∧ m2.m_saved_keyboard_backlight = k ∧
      m3.m_idle_level = 0 ∧
      m3.m_backlight.actual_brightness = some d ∧ m3.m_backlight.brightness = some d ∧
      m3.m_kbd_backlight.brightness = some k := by
  obtain ⟨m1, h1, hl1, ha1, hb1, hk1, hsd1, hsk1, _, _⟩ :=
    enter_idle_done 1 m d b k (by omega) hd hb hk
  rw [if_pos hactive] at hsd1 hsk1
  rw [if_pos rfl] at ha1 hk1
  obtain ⟨b1, hb1⟩ := Option.isSome_iff_exists.mp hb1
  obtain ⟨m2, h2, hl2, ha2, hb2, hk2, hsd2, hsk2, _, _⟩ :=
    enter_idle_done 2 m1 _ b1 _ (by omega) ha1 hb1 hk1
  rw [if_neg (by omega)] at hsd2 hsk2
  obtain ⟨b2, hb2⟩ := Option.isSome_iff_exists.mp hb2
  obtain ⟨m3, h3, hl3, ha3, hb3, hk3⟩ :=
    leave_idle_done m2 _ b2 _ (by omega) ha2 hb2 hk2
  refine ⟨m1, m2, m3, h1, h2, h3, ?_, ha1, hsd2.trans hsd1, hsk2.trans hsk1, hl3, ?_, ?_, ?_⟩
  · simp only [h1, outcome.and_then, h2, h3]
  · rw [ha3, hsd2, hsd1]
  · rw [hb3, hsd2, hsd1]
  · rw [hk3, hsk2, hsk1]

/-- C11, witness: a display at 800 and a keyboard backlight at 200, on AC (idle
levels 100 and 0). -/
theorem C11_idle_restore_witness :
    ∃ m1 m2 m3, enter_idle 1 (idle_monitor 0 800 200) = .done m1 ∧
      enter_idle 2 m1 = .done m2 ∧ leave_idle m2 = .done m3 ∧
      ((enter_idle 1 (idle_monitor 0 800 200)).and_then (enter_idle 2)).and_then leave_idle
        = .done m3 ∧
      m1.m_backlight.actual_brightness
        = some (min 800 (power_settings (idle_monitor 0 800 200)).display_backlight_idle_level) ∧
      m2.m_saved_display_backlight = 800 ∧ m2.m_saved_keyboard_backlight = 200 ∧
      m3.m_idle_level = 0 ∧
      m3.m_backlight.actual_brightness = some 800 ∧ m3.m_backlight.brightness = some 800 ∧
      m3.m_kbd_backlight.brightness = some 200 :=
  C11_idle_restore (idle_monitor 0 800 200) 800 800 200 rfl rfl rfl rfl

/-- C12 (idle never brightens): for every state with readable backlight files
and every level above the current idle level, `enter_idle(level)` returns with
the display at `min(previous, target)` and the keyboard backlight at
`min(previous, target)`, the targets being the idle levels of the active power
mode for level 1 and zero otherwise; the idle level is `level` whether or not a
backlight was written. -/
theorem C12_idle_never_brightens (level : Nat) (m : monitor_impl) (d b k : Nat)
    (hlevel : m.m_idle_level < level)
    (hd : m.m_backlight.actual_brightness = some d)
    (hb : m.m_backlight.brightness = some b)
    (hk : m.m_kbd_backlight.brightness = some k) :
    ∃ m1, enter_idle level m = .done m1 ∧
      m1.m_backlight.actual_brightness =
        some (min d (if level = 1 then (power_settings m).display_backlight_idle_level else 0)) ∧
      m1.m_kbd_backlight.brightness =
        some (min k (if level = 1 then (power_settings m).keyboard_backlight_idle_level else 0)) ∧
      m1.m_idle_level = level := by
  obtain ⟨m1, h1, hl1, ha1, _, hk1, _⟩ := enter_idle_done level m d b k hlevel hd hb hk
  exact ⟨m1, h1, ha1, hk1, hl1⟩

/-- C12, witness: a display at 60, below the idle level 100 of the AC mode, and a
keyboard backlight that is off: `enter_idle(1)` writes neither. -/
theorem C12_idle_never_brightens_witness :
    ∃ m1, enter_idle 1 (idle_monitor 0 60 0) = .done m1 ∧
      m1.m_backlight.actual_brightness =
        some (min 60 (if 1 = 1 then
          (power_settings (idle_monitor 0 60 0)).display_backlight_idle_level else 0)) ∧
      m1.m_kbd_backlight.brightness =
        some (min 0 (if 1 = 1 then
          (power_settings (idle_monitor 0 60 0)).keyboard_backlight_idle_level else 0)) ∧
      m1.m_idle_level = 1 :=
  C12_idle_never_brightens 1 (idle_monitor 0 60 0) 60 60 0 (by decide) rfl rfl rfl

/-- C13 (lid close): from every state at idle level 0 or 1 with readable
backlight files, `handle_event(LID_CLOSED)` returns at idle level 2 with the
display and the keyboard backlight at zero; when the level was 1 the two saved
values are left as they were. -/
theorem C13_lid_close (pow : ℚ → ℚ → ℚ) (m : monitor_impl) (d b k : Nat)
    (hlevel : m.m_idle_level ≤ 1)
    (hd : m.m_backlight.actual_brightness = some d)
    (hb : m.m_backlight.brightness = some b)
    (hk : m.m_kbd_backlight.brightness = some k) :
    ∃ m1, handle_event pow .LID_CLOSED m = .done m1 ∧ m1.m_idle_level = 2 ∧
      m1.m_backlight.actual_brightness = some 0 ∧ m1.m_kbd_backlight.brightness = some 0 ∧
      (m.m_idle_level = 1 →
        m1.m_saved_display_backlight = m.m_saved_display_backlight ∧
        m1.m_saved_keyboard_backlight = m.m_saved_keyboard_backlight) := by
  obtain ⟨m1, h1, hl1, ha1, _, hk1, hsd1, hsk1, _, _⟩ :=
    enter_idle_done 2 m d b k (by omega) hd hb hk
  rw [if_neg (by decide), Nat.min_zero] at ha1 hk1
  refine ⟨m1, ?_, hl1, ha1, hk1, ?_⟩
  · simp only [handle_event, handle_event_idle, if_true, h1, outcome.and_then,
      handle_event_switch]
  · intro h
    rw [if_neg (by omega)] at hsd1 hsk1
    exact ⟨hsd1, hsk1⟩

/-- C13, witness: the lid closes on a dimmed display (100, saved 800) with the
keyboard backlight off (saved 200). -/
theorem C13_lid_close_witness :
    ∃ m1, handle_event (fun x _ => x) .LID_CLOSED
        { idle_monitor 1 100 0 with m_saved_display_backlight := 800
                                    m_saved_keyboard_backlight := 200 } = .done m1 ∧
      m1.m_idle_level = 2 ∧
      m1.m_backlight.actual_brightness = some 0 ∧ m1.m_kbd_backlight.brightness = some 0 ∧
      ((1 : Nat) = 1 → m1.m_saved_display_backlight = 800 ∧ m1.m_saved_keyboard_backlight = 200) :=
  C13_lid_close (fun x _ => x)
    { idle_monitor 1 100 0 with m_saved_display_backlight := 800
                                m_saved_keyboard_backlight := 200 } 100 100 0
    (by decide) rfl rfl rfl

/-- C14 (frame): `enter_idle(level)` with `level` not above the current idle
level returns the state it was given: the idle level, both saved values and both
backlights are unchanged. -/
theorem C14_enter_idle_noop (level : Nat) (m : monitor_impl) (h : level ≤ m.m_idle_level) :
    enter_idle level m = .done m := by
  unfold enter_idle
  rw [if_neg (by omega)]

/-- C14, witness: `enter_idle(1)` while the lid is closed. -/
theorem C14_enter_idle_noop_witness :
    (1 : Nat) ≤ (idle_monitor 2 0 0).m_idle_level ∧
      enter_idle 1 (idle_monitor 2 0 0) = .done (idle_monitor 2 0 0) :=
  ⟨by decide, C14_enter_idle_noop 1 (idle_monitor 2 0 0) (by decide)⟩

/-! ## Brightness calculator -/

theorem int_wrap_in_range (x : Int) (hlo : INT_MIN ≤ x) (hhi : x ≤ INT_MAX) : int_wrap x = x := by
  unfold int_wrap
  unfold INT_MIN INT_MAX at *
  unfold UNSIGNED_RANGE
  norm_num at *
  omega

theorem int_wrap_ne (cur : Int) : int_wrap (cur + 1) ≠ cur ∧ int_wrap (cur - 1) ≠ cur := by
  unfold int_wrap INT_MIN UNSIGNED_RANGE
  norm_num
  constructor <;> omega

theorem calc_brightness_tmp_ne (pow : ℚ → ℚ → ℚ) (set : brightness) (cur : Int)
    (up slow : Bool) : calc_brightness_tmp pow set cur up slow ≠ cur := by
  unfold calc_brightness_tmp
  simp only
  split_ifs with h hup
  · exact (int_wrap_ne cur).1
  · exact (int_wrap_ne cur).2
  · exact h

/-- C15 (range): for every power function, every brightness setting, every
`max ≥ 0` and every `cur`, `up` and `slow`, `calc_brightness` returns a value
between `0` and `max`. Neither the bounds on `cur` nor the sign of the exponent
are needed. -/
theorem C15_brightness_in_range (pow : ℚ → ℚ → ℚ) (set : brightness) (cur max : Int)
    (up slow : Bool) (hmax : 0 ≤ max) :
    0 ≤ calc_brightness pow set cur max up slow ∧
      calc_brightness pow set cur max up slow ≤ max := by
  unfold calc_brightness
  exact ⟨le_min hmax (le_max_left _ _), min_le_left _ _⟩

/-- C15, witness: a slow step up from 3 of 5 with the exponent 1. -/
theorem C15_brightness_in_range_witness :
    0 ≤ calc_brightness pow_integral linear_steps 3 5 true true ∧
      calc_brightness pow_integral linear_steps 3 5 true true ≤ 5 :=
  C15_brightness_in_range pow_integral linear_steps 3 5 true true (by decide)

/-- C16 (amended): for `0 ≤ cur ≤ max`, `calc_brightness` returns `cur` exactly
when the clamp brings the result back to it: at `cur = max` with the value
before the clamp above `max`, or at `cur = 0` with the value before the clamp
below zero. Strictly inside the range it never returns `cur`. -/
theorem C16_returns_cur_only_when_clamped (pow : ℚ → ℚ → ℚ) (set : brightness)
    (cur max : Int) (up slow : Bool) (hcur : 0 ≤ cur) (hmax : cur ≤ max) :
    (calc_brightness pow set cur max up slow = cur ↔
      (cur = max ∧ max < calc_brightness_tmp pow set cur up slow) ∨
      (cur = 0 ∧ calc_brightness_tmp pow set cur up slow < 0)) ∧
    (0 < cur → cur < max → calc_brightness pow set cur max up slow ≠ cur) := by
  have hne := calc_brightness_tmp_ne pow set cur up slow
  unfold calc_brightness
  generalize calc_brightness_tmp pow set cur up slow = tmp at hne ⊢
  have key : min max (Max.max 0 tmp) = cur ↔ (cur = max ∧ max < tmp) ∨ (cur = 0 ∧ tmp < 0) := by
    rcases le_total 0 tmp with h0 | h0
    · rw [max_eq_right h0]
      rcases le_total max tmp with h1 | h1
      · rw [min_eq_left h1]
        constructor
        · intro h; left; exact ⟨h.symm, by omega⟩
        · rintro (⟨h, _⟩ | ⟨_, h⟩)
          · exact h.symm
          · omega
      · rw [min_eq_right h1]
        constructor
        · intro h; exact absurd h hne
        · rintro (⟨_, h⟩ | ⟨_, h⟩) <;> omega
    · rw [max_eq_left h0]
      have hm : (0 : Int) ≤ max := le_trans hcur hmax
      rw [min_eq_right hm]
      constructor
      · intro h; right; exact ⟨h.symm, by omega⟩
      · rintro (⟨_, h⟩ | ⟨h, _⟩)
        · omega
        · exact h.symm
  refine ⟨key, ?_⟩
  intro hpos hlt h
  rcases key.mp h with ⟨h1, _⟩ | ⟨h1, _⟩ <;> omega

/-- C16, witness: a slow step up from 3 of 5 with the exponent 1. -/
theorem C16_returns_cur_only_when_clamped_witness :
    (calc_brightness pow_integral linear_steps 3 5 true true = 3 ↔
      ((3 : Int) = 5 ∧ 5 < calc_brightness_tmp pow_integral linear_steps 3 true true) ∨
      ((3 : Int) = 0 ∧ calc_brightness_tmp pow_integral linear_steps 3 true true < 0)) ∧
    ((0 : Int) < 3 → (3 : Int) < 5 → calc_brightness pow_integral linear_steps 3 5 true true ≠ 3) :=
  C16_returns_cur_only_when_clamped pow_integral linear_steps 3 5 true true (by decide) (by decide)

theorem pow_integral_one (x : ℚ) : pow_integral x 1 = x := by
  unfold pow_integral
  norm_num

theorem double_to_int_natCast (n : Nat) (h : (n : Int) ≤ INT_MAX) :
    double_to_int ((n : ℚ) + 1 / 2) = n := by
  have hfloor : ⌊(n : ℚ) + 1 / 2⌋ = (n : Int) := by
    rw [Int.floor_eq_iff]
    constructor <;> push_cast <;> linarith
  unfold double_to_int
  have h0 : (0 : ℚ) ≤ (n : ℚ) + 1 / 2 := by positivity
  simp only [h0, if_true, hfloor]
  have hlo : INT_MIN ≤ (n : Int) := by unfold INT_MIN; omega
  rw [if_pos ⟨hlo, h⟩]

/-- C16, counterexample, at both ends of the range: with the exponent 1 and
steps of one unit, `calc_brightness(cur = 5, max = 5, up)` returns 5 and
`calc_brightness(cur = 0, max = 5, down)` returns 0. -/
theorem C16_returns_cur_at_the_ends :
    calc_brightness pow_integral linear_steps 5 5 true false = 5 ∧
      calc_brightness pow_integral linear_steps 0 5 false false = 0 := by
  constructor
  · have h : double_to_int ((5 : ℚ) + 1 + 1 / 2) = 6 := by
      have := double_to_int_natCast 6 (by unfold INT_MAX; norm_num)
      norm_num at this ⊢
      exact this
    unfold calc_brightness calc_brightness_tmp calc_brightness_norm linear_steps
    norm_num [pow_integral_one]
    norm_num at h
    rw [h]
    decide
  · have h : double_to_int ((0 : ℚ) + 1 / 2) = 0 := by
      have := double_to_int_natCast 0 (by unfold INT_MAX; norm_num)
      norm_num at this ⊢
      exact this
    unfold calc_brightness calc_brightness_tmp calc_brightness_norm linear_steps
    norm_num [pow_integral_one]
    norm_num at h
    rw [h]
    decide

theorem double_to_int_ge (x : ℚ) (c : Int) (hc : 0 ≤ c) (hx : (c : ℚ) ≤ x)
    (hfit : x < 2 ^ 31) : c ≤ double_to_int x := by
  have hx0 : (0 : ℚ) ≤ x := le_trans (by exact_mod_cast hc) hx
  have hfl : c ≤ ⌊x⌋ := Int.le_floor.mpr hx
  have hhi : ⌊x⌋ ≤ INT_MAX := by
    have : ⌊x⌋ < (2 : Int) ^ 31 := by
      rw [Int.floor_lt]
      exact_mod_cast hfit
    unfold INT_MAX
    omega
  have hlo : INT_MIN ≤ ⌊x⌋ := by unfold INT_MIN; omega
  unfold double_to_int
  simp only [hx0, if_true]
  rw [if_pos ⟨hlo, hhi⟩]
  exact hfl

theorem double_to_int_le (x : ℚ) (c : Int) (hc : 0 ≤ c) (hx : x < (c : ℚ) + 1) :
    double_to_int x ≤ c := by
  have ht : (if 0 ≤ x then ⌊x⌋ else ⌈x⌉) ≤ c := by
    split_ifs with h0
    · have : ⌊x⌋ < c + 1 := by
        rw [Int.floor_lt]
        push_cast
        exact hx
      omega
    · have hneg : x ≤ ((0 : Int) : ℚ) := by
        push_cast
        exact le_of_lt (not_le.mp h0)
      have : ⌈x⌉ ≤ 0 := Int.ceil_le.mpr hneg
      omega
  unfold double_to_int
  simp only
  generalize (if 0 ≤ x then ⌊x⌋ else ⌈x⌉) = t at ht ⊢
  split_ifs with hr
  · exact ht
  · unfold INT_MIN; omega

/-- C17 (amended): for a power function that is accurate at the exponent and at
`cur` (`pow_accurate`), a positive step and `max` within `int`:
`calc_brightness` with `up` and `0 ≤ cur < max` returns a value above `cur`
when the raised value plus one half is below `2 ^ 31`, and with `up` false and
`0 < cur ≤ max` it returns a value below `cur`. -/
theorem C17_step_in_direction (pow : ℚ → ℚ → ℚ) (set : brightness) (cur max : Int)
    (slow : Bool) (hint : max ≤ INT_MAX)
    (hacc : pow_accurate pow set.exponent cur)
    (hstep : 0 < (if slow then set.delta_slow else set.delta)) :
    (0 ≤ cur → cur < max →
      pow (pow cur (1 / set.exponent) + (if slow then set.delta_slow else set.delta))
        set.exponent + 1 / 2 < 2 ^ 31 →
      cur < calc_brightness pow set cur max true slow) ∧
    (0 < cur → cur ≤ max → calc_brightness pow set cur max false slow < cur) := by
  obtain ⟨hmono, hroot, hround⟩ := hacc
  rw [abs_lt] at hround
  obtain ⟨hlow, hhigh⟩ := hround
  constructor
  · intro hcur hlt hfit
    have hnorm : calc_brightness_norm pow set cur true slow
        = pow cur (1 / set.exponent) + (if slow then set.delta_slow else set.delta) := by
      unfold calc_brightness_norm
      simp only [if_true]
      rw [if_neg (by linarith)]
    have hraised := hmono (pow cur (1 / set.exponent))
      (pow cur (1 / set.exponent) + (if slow then set.delta_slow else set.delta)) hroot
      (by linarith)
    have hge : cur ≤ double_to_int
        (pow (calc_brightness_norm pow set cur true slow) set.exponent + 1 / 2) := by
      rw [hnorm]
      exact double_to_int_ge _ cur hcur (by linarith) hfit
    have htmp : cur + 1 ≤ calc_brightness_tmp pow set cur true slow := by
      unfold calc_brightness_tmp
      simp only [if_true]
      split_ifs with heq
      · rw [int_wrap_in_range (cur + 1) (by unfold INT_MIN; omega) (by omega)]
      · omega
    unfold calc_brightness
    have h1 : cur + 1 ≤ Max.max 0 (calc_brightness_tmp pow set cur true slow) :=
      le_trans htmp (le_max_right _ _)
    have h2 : cur + 1 ≤ min max (Max.max 0 (calc_brightness_tmp pow set cur true slow)) :=
      le_min (by omega) h1
    omega
  · intro hcur hle
    have hnorm : calc_brightness_norm pow set cur false slow
        = if pow cur (1 / set.exponent) + -(if slow then set.delta_slow else set.delta) < 0
          then 0
          else pow cur (1 / set.exponent) + -(if slow then set.delta_slow else set.delta) := rfl
    have hn0 : 0 ≤ calc_brightness_norm pow set cur false slow := by
      rw [hnorm]
      generalize (if slow then set.delta_slow else set.delta) = step at hstep ⊢
      split_ifs with h
      · exact le_refl _
      · exact not_lt.mp h
    have hnle : calc_brightness_norm pow set cur false slow ≤ pow cur (1 / set.exponent) := by
      rw [hnorm]
      generalize (if slow then set.delta_slow else set.delta) = step at hstep ⊢
      split_ifs with h
      · exact hroot
      · linarith
    have hraised := hmono _ _ hn0 hnle
    have hle2 : double_to_int
        (pow (calc_brightness_norm pow set cur false slow) set.exponent + 1 / 2) ≤ cur :=
      double_to_int_le _ cur (le_of_lt hcur) (by linarith)
    have htmp : calc_brightness_tmp pow set cur false slow ≤ cur - 1 := by
      unfold calc_brightness_tmp
      simp only [Bool.false_eq_true, if_false]
      split_ifs with heq
      · rw [int_wrap_in_range (cur - 1) (by unfold INT_MIN; omega) (by omega)]
      · omega
    unfold calc_brightness
    have h1 : Max.max 0 (calc_brightness_tmp pow set cur false slow) ≤ cur - 1 :=
      max_le (by omega) htmp
    have h2 : min max (Max.max 0 (calc_brightness_tmp pow set cur false slow)) ≤ cur - 1 :=
      le_trans (min_le_right _ _) h1
    omega

theorem pow_accurate_integral_one (cur : Int) (hcur : 0 ≤ cur) :
    pow_accurate pow_integral 1 cur := by
  refine ⟨fun x y _ hxy => ?_, ?_, ?_⟩
  · rw [pow_integral_one, pow_integral_one]; exact hxy
  · norm_num [pow_integral_one]; exact_mod_cast hcur
  · norm_num [pow_integral_one]

/-- C17, witness: steps of one unit from 3 of 5 with the exponent 1. -/
theorem C17_step_in_direction_witness :
    ((0 : Int) ≤ 3 → (3 : Int) < 5 →
      pow_integral (pow_integral ((3 : Int) : ℚ) (1 / linear_steps.exponent)
        + (if false then linear_steps.delta_slow else linear_steps.delta))
        linear_steps.exponent + 1 / 2 < 2 ^ 31 →
      3 < calc_brightness pow_integral linear_steps 3 5 true false) ∧
    ((0 : Int) < 3 → (3 : Int) ≤ 5 → calc_brightness pow_integral linear_steps 3 5 false false < 3) :=
  C17_step_in_direction pow_integral linear_steps 3 5 false (by decide)
    (pow_accurate_integral_one 3 (by decide)) (by norm_num [linear_steps])

/-- C17, counterexample, a step that takes the raised value out of the range of
`int`: with the exponent 1 and a step of 3000000000, the conversion of
`3000000000.5` to `int` gives `INT_MIN`, and `calc_brightness(cur = 0,
max = 100, up)` returns 0, which is not above `cur`. -/
theorem C17_step_beyond_int :
    0 < giant_steps.exponent ∧ 0 < giant_steps.delta ∧ 0 < giant_steps.delta_slow ∧
      pow_accurate pow_integral giant_steps.exponent 0 ∧
      calc_brightness pow_integral giant_steps 0 100 true false = 0 := by
  refine ⟨by norm_num [giant_steps], by norm_num [giant_steps], by norm_num [giant_steps],
    pow_accurate_integral_one 0 (le_refl _), ?_⟩
  have hfloor : ⌊(6000000001 : ℚ) / 2⌋ = 3000000000 := by
    rw [Int.floor_eq_iff]
    constructor <;> norm_num
  have h : double_to_int ((6000000001 : ℚ) / 2) = INT_MIN := by
    unfold double_to_int
    have h0 : (0 : ℚ) ≤ 6000000001 / 2 := by norm_num
    simp only [h0, if_true, hfloor]
    rw [if_neg]
    unfold INT_MAX
    norm_num
  unfold calc_brightness calc_brightness_tmp calc_brightness_norm giant_steps
  norm_num [pow_integral_one]
  rw [h]
  unfold INT_MIN
  norm_num

/-! ## Power estimator -/

theorem energy_eq_reading (m : monitor_impl) (temps energies : List ℚ)
    (hring : ring_holds m temps energies) (j : Nat) (hj : j < m.m_history_count)
    (hjN : j < m.m_history_size) :
    m.m_energy_history.getD (history_index m j) 0 = energies.reverse.getD j 0 := by
  obtain ⟨hN, -, hle, -, hel, hslots⟩ := hring
  have hpos : 0 < m.m_history_size := Nat.pos_of_ne_zero hN
  have hslot := (hslots j hj hjN).2
  have hidx : history_index m j = (m.m_history_count - j) % m.m_history_size := by
    unfold history_index
    rw [if_pos (le_of_lt hj)]
  rw [hidx, List.getD_eq_getElem?_getD, List.getD_eq_getElem?_getD, hslot,
    List.getElem?_reverse (by omega), hel]

theorem take_drop_sum_succ (r : List ℚ) (s n : Nat) (hs : s < r.length) :
    ((r.drop s).take (n + 1)).sum = r.getD s 0 + ((r.drop (s + 1)).take n).sum := by
  rw [List.drop_eq_getElem_cons hs, List.take_succ_cons, List.sum_cons,
    List.getD_eq_getElem?_getD, List.getElem?_eq_getElem hs]
  rfl

theorem current_power_loop_sums (m : monitor_impl) (delta : Nat) (r : List ℚ) (bound : Nat)
    (hbound : bound ≤ r.length)
    (hr : ∀ j, j < bound → m.m_energy_history.getD (history_index m j) 0 = r.getD j 0) :
    ∀ (n i : Nat) (sums : ℚ × ℚ), delta + i + n ≤ bound →
      current_power_loop m delta n i sums =
        (sums.1 + ((r.drop i).take n).sum, sums.2 + ((r.drop (delta + i)).take n).sum) := by
  intro n
  induction n with
  | zero =>
    intro i sums _
    simp [current_power_loop]
  | succ n ih =>
    intro i sums hle
    unfold current_power_loop
    rw [ih (i + 1) _ (by omega), take_drop_sum_succ r i n (by omega),
      take_drop_sum_succ r (delta + i) n (by omega), hr i (by omega), hr (delta + i) (by omega)]
    simp only [add_assoc]

theorem current_power_of_ring (m : monitor_impl) (temps energies : List ℚ)
    (hring : ring_holds m temps energies)
    (hci : 0 < m.m_set.check_interval)
    (hcount : m.m_set.power_interval / m.m_set.check_interval + m.m_set.power_measurements
      < m.m_history_count)
    (hfits : m.m_set.power_interval / m.m_set.check_interval + m.m_set.power_measurements
      ≤ m.m_history_size)
    (hpos : 0 < m.m_set.power_measurements * m.m_set.power_interval)
    (hprod : m.m_set.power_measurements * m.m_set.power_interval < UNSIGNED_RANGE) :
    current_power m = some (3600 *
      (sample_sum energies (m.m_set.power_interval / m.m_set.check_interval)
          m.m_set.power_measurements
        - sample_sum energies 0 m.m_set.power_measurements)
      / ((m.m_set.power_measurements * m.m_set.power_interval : Nat) : ℚ)) := by
  have hN : m.m_history_size ≠ 0 := hring.1
  have hlen : energies.reverse.length = m.m_history_count := by
    rw [List.length_reverse]; exact hring.2.2.2.2.1
  have hloop := current_power_loop_sums m (m.m_set.power_interval / m.m_set.check_interval)
    energies.reverse
    (m.m_set.power_interval / m.m_set.check_interval + m.m_set.power_measurements)
    (by omega)
    (fun j hj => energy_eq_reading m temps energies hring j (by omega) (by omega))
    m.m_set.power_measurements 0 (0, 0) (by omega)
  unfold current_power
  rw [if_neg (by omega)]
  simp only
  rw [if_neg (by omega), if_neg hN, Nat.mod_eq_of_lt hprod, if_neg (by omega), hloop]
  simp only [zero_add, add_zero, List.drop_zero, sample_sum]

/-- C18 (amended): with `delta = power_interval / check_interval`,
`current_power` returns 0 when at most `delta + power_measurements` samples
have been recorded; when more have been recorded, the `delta +
power_measurements` samples fit in the history buffer and the `unsigned` product
`power_measurements*power_interval` is neither zero nor wrapped, it returns
`3600 * (old_sum - now_sum) / (power_measurements * power_interval)`, `now_sum`
being the sum of the `power_measurements` most recent energy samples and
`old_sum` the sum of those taken `delta` samples earlier. -/
theorem C18_power_estimate (m : monitor_impl) (temps energies : List ℚ)
    (hring : ring_holds m temps energies) (hci : 0 < m.m_set.check_interval) :
    (m.m_history_count ≤ m.m_set.power_interval / m.m_set.check_interval
        + m.m_set.power_measurements → current_power m = some 0) ∧
    (m.m_set.power_interval / m.m_set.check_interval + m.m_set.power_measurements
        < m.m_history_count →
      m.m_set.power_interval / m.m_set.check_interval + m.m_set.power_measurements
        ≤ m.m_history_size →
      0 < m.m_set.power_measurements * m.m_set.power_interval →
      m.m_set.power_measurements * m.m_set.power_interval < UNSIGNED_RANGE →
      current_power m = some (3600 *
        (sample_sum energies (m.m_set.power_interval / m.m_set.check_interval)
            m.m_set.power_measurements
          - sample_sum energies 0 m.m_set.power_measurements)
        / ((m.m_set.power_measurements * m.m_set.power_interval : Nat) : ℚ))) := by
  constructor
  · intro h
    unfold current_power
    rw [if_neg (by omega)]
    simp only
    rw [if_pos h]
  · exact current_power_of_ring m temps energies hring hci

theorem estimator_ring_two :
    ring_holds (estimator_monitor 2 [0, 10, 9]) [50, 50] [10, 9] := by
  refine ⟨by decide, rfl, rfl, rfl, rfl, ?_⟩
  intro j hj hjN
  have hj2 : j < 2 := hj
  interval_cases j <;> simp [estimator_monitor]

theorem estimator_ring_three :
    ring_holds (estimator_monitor 3 [8, 10, 9]) [50, 50, 50] [10, 9, 8] := by
  refine ⟨by decide, rfl, rfl, rfl, rfl, ?_⟩
  intro j hj hjN
  have hj3 : j < 3 := hj
  interval_cases j <;> simp [estimator_monitor]

/-- C18, witness: three samples (10, 9, 8) with `delta = 1` and one
measurement. -/
theorem C18_power_estimate_witness :
    (estimator_monitor 3 [8, 10, 9]).m_history_count
      = (estimator_monitor 3 [8, 10, 9]).m_set.power_interval
          / (estimator_monitor 3 [8, 10, 9]).m_set.check_interval
        + (estimator_monitor 3 [8, 10, 9]).m_set.power_measurements + 1 ∧
    current_power (estimator_monitor 3 [8, 10, 9]) = some (3600 *
      (sample_sum [10, 9, 8] ((estimator_monitor 3 [8, 10, 9]).m_set.power_interval
          / (estimator_monitor 3 [8, 10, 9]).m_set.check_interval)
          (estimator_monitor 3 [8, 10, 9]).m_set.power_measurements
        - sample_sum [10, 9, 8] 0 (estimator_monitor 3 [8, 10, 9]).m_set.power_measurements)
      / (((estimator_monitor 3 [8, 10, 9]).m_set.power_measurements
          * (estimator_monitor 3 [8, 10, 9]).m_set.power_interval : Nat) : ℚ)) :=
  ⟨by decide,
   (C18_power_estimate (estimator_monitor 3 [8, 10, 9]) [50, 50, 50] [10, 9, 8]
      estimator_ring_three (by decide)).2 (by decide) (by decide) (by decide) (by decide)⟩

/-- C18, counterexample, exactly `delta + power_measurements` samples
recorded: with `delta = 1`, one measurement and the two samples 10
and 9, the claim gives `3600 * (10 - 9) / (1 * 100) = 36`; `current_power`
returns 0, its guard being `m_history_count <= delta + power_measurements`. -/
theorem C18_zero_at_exact_span :
    ring_holds (estimator_monitor 2 [0, 10, 9]) [50, 50] [10, 9] ∧
    (estimator_monitor 2 [0, 10, 9]).m_set.power_interval
        / (estimator_monitor 2 [0, 10, 9]).m_set.check_interval
      + (estimator_monitor 2 [0, 10, 9]).m_set.power_measurements = 2 ∧
    (estimator_monitor 2 [0, 10, 9]).m_history_count = 2 ∧
    current_power (estimator_monitor 2 [0, 10, 9]) = some 0 ∧
    3600 * (sample_sum [10, 9] 1 1 - sample_sum [10, 9] 0 1) / (((1 * 100 : Nat) : ℚ)) = 36 := by
  refine ⟨estimator_ring_two, by decide, rfl, by decide, ?_⟩
  norm_num [sample_sum]

theorem reverse_drain_step (energies : List ℚ) (r : ℚ) (ci : Nat)
    (h : constant_drain energies r ci) (j : Nat) (hj : j + 1 < energies.length) :
    energies.reverse.getD (j + 1) 0 = energies.reverse.getD j 0 + r * ci := by
  have h1 : energies.reverse[j + 1]? = energies[energies.length - 1 - (j + 1)]? :=
    List.getElem?_reverse (by omega)
  have h0 : energies.reverse[j]? = energies[energies.length - 1 - j]? :=
    List.getElem?_reverse (by omega)
  have hidx : energies.length - 1 - j = energies.length - 1 - (j + 1) + 1 := by omega
  obtain ⟨a, ha⟩ : ∃ a, energies[energies.length - 1 - (j + 1)]? = some a :=
    ⟨_, List.getElem?_eq_getElem (by omega)⟩
  obtain ⟨b, hb⟩ : ∃ b, energies[energies.length - 1 - (j + 1) + 1]? = some b :=
    ⟨_, List.getElem?_eq_getElem (by omega)⟩
  have hstep := h _ a b ha hb
  rw [List.getD_eq_getElem?_getD, List.getD_eq_getElem?_getD, h1, h0, hidx, ha, hb]
  simp only [Option.getD_some]
  rw [hstep]
  ring

theorem reverse_drain (energies : List ℚ) (r : ℚ) (ci : Nat)
    (h : constant_drain energies r ci) (j d : Nat) (hj : j + d < energies.length) :
    energies.reverse.getD (j + d) 0 = energies.reverse.getD j 0 + d * (r * ci) := by
  induction d with
  | zero => simp
  | succ d ih =>
    have e : j + (d + 1) = (j + d) + 1 := by ring
    rw [e, reverse_drain_step energies r ci h (j + d) (by omega), ih (by omega)]
    push_cast
    ring

theorem sample_sum_drain (energies : List ℚ) (r : ℚ) (ci delta : Nat)
    (h : constant_drain energies r ci) :
    ∀ n s : Nat, delta + s + n ≤ energies.length →
      ((energies.reverse.drop (delta + s)).take n).sum
        - ((energies.reverse.drop s).take n).sum = n * (delta * (r * ci)) := by
  intro n
  induction n with
  | zero => intro s _; simp
  | succ n ih =>
    intro s hle
    have hlen : energies.reverse.length = energies.length := List.length_reverse _
    rw [take_drop_sum_succ _ _ _ (by omega), take_drop_sum_succ _ _ _ (by omega)]
    have hstep := ih (s + 1) (by omega)
    have e : delta + s + 1 = delta + (s + 1) := by ring
    rw [e]
    have hd := reverse_drain energies r ci h s delta (by omega)
    rw [add_comm s delta] at hd
    rw [hd]
    push_cast
    linarith

/-- The estimate for a constant drain of `r` per second: `3600 * r` scaled by
`delta * check_interval / power_interval`, the time that lies between the old
and the new samples over the time the code divides by. -/
theorem current_power_constant_drain (m : monitor_impl) (temps energies : List ℚ) (r : ℚ)
    (hring : ring_holds m temps energies)
    (hdrain : constant_drain energies r m.m_set.check_interval)
    (hci : 0 < m.m_set.check_interval)
    (hcount : m.m_set.power_interval / m.m_set.check_interval + m.m_set.power_measurements
      < m.m_history_count)
    (hfits : m.m_set.power_interval / m.m_set.check_interval + m.m_set.power_measurements
      ≤ m.m_history_size)
    (hpos : 0 < m.m_set.power_measurements * m.m_set.power_interval)
    (hprod : m.m_set.power_measurements * m.m_set.power_interval < UNSIGNED_RANGE) :
    current_power m = some (3600 * r *
      ((m.m_set.power_interval / m.m_set.check_interval * m.m_set.check_interval : Nat) : ℚ)
      / (m.m_set.power_interval : ℚ)) := by
  rw [current_power_of_ring m temps energies hring hci hcount hfits hpos hprod]
  have hlen : energies.length = m.m_history_count := hring.2.2.2.2.1
  have hsum := sample_sum_drain energies r m.m_set.check_interval
    (m.m_set.power_interval / m.m_set.check_interval) hdrain m.m_set.power_measurements 0
    (by omega)
  simp only [add_zero] at hsum
  unfold sample_sum
  rw [hsum]
  have hpm : (m.m_set.power_measurements : ℚ) ≠ 0 := by
    have : m.m_set.power_measurements ≠ 0 := by
      intro h0; rw [h0] at hpos; omega
    exact_mod_cast this
  have hpi : (m.m_set.power_interval : ℚ) ≠ 0 := by
    have : m.m_set.power_interval ≠ 0 := by
      intro h0; rw [h0] at hpos; omega
    exact_mod_cast this
  congr 1
  push_cast
  field_simp
  ring

/-- When `check_interval` divides `power_interval`, a constant drain of `r` per
second is estimated as exactly `3600 * r`. -/
theorem current_power_exact_when_divides (m : monitor_impl) (temps energies : List ℚ) (r : ℚ)
    (hring : ring_holds m temps energies)
    (hdrain : constant_drain energies r m.m_set.check_interval)
    (hci : 0 < m.m_set.check_interval)
    (hdvd : m.m_set.check_interval ∣ m.m_set.power_interval)
    (hcount : m.m_set.power_interval / m.m_set.check_interval + m.m_set.power_measurements
      < m.m_history_count)
    (hfits : m.m_set.power_interval / m.m_set.check_interval + m.m_set.power_measurements
      ≤ m.m_history_size)
    (hpos : 0 < m.m_set.power_measurements * m.m_set.power_interval)
    (hprod : m.m_set.power_measurements * m.m_set.power_interval < UNSIGNED_RANGE) :
    current_power m = some (3600 * r) := by
  rw [current_power_constant_drain m temps energies r hring hdrain hci hcount hfits hpos hprod,
    Nat.div_mul_cancel hdvd]
  have hpi : (m.m_set.power_interval : ℚ) ≠ 0 := by
    have : m.m_set.power_interval ≠ 0 := by
      intro h0; rw [h0] at hpos; omega
    exact_mod_cast this
  congr 1
  field_simp

theorem drain_monitor_ring : ring_holds drain_monitor [50, 50, 50] [50, 49, 48] := by
  refine ⟨by decide, rfl, rfl, rfl, rfl, ?_⟩
  intro j hj hjN
  have hj3 : j < 3 := hj
  interval_cases j <;> simp [drain_monitor]

theorem drain_monitor_drain : constant_drain [50, 49, 48] (1 / 100) 100 := by
  intro i a b ha hb
  have hi : i < 2 := by
    by_contra hcon
    have : ([50, 49, 48] : List ℚ)[i + 1]? = none := by
      apply List.getElem?_eq_none
      simp only [List.length_cons, List.length_nil]
      omega
    rw [this] at hb
    exact Option.noConfusion hb
  interval_cases i <;> simp at ha hb <;> subst ha <;> subst hb <;> norm_num

/-- C19, the code at a failing input: checks every 100 seconds, a power interval of 150
seconds, one measurement, and the energy falling by 0.01 Wh per second (50, 49,
48 Wh at three successive ticks, all within the history of three samples).
`3600 * r` is 36 W; `current_power` returns 24 W, the difference between two
samples 100 seconds apart divided by 150 seconds. -/
theorem C19_drain_underestimated :
    ring_holds drain_monitor [50, 50, 50] [50, 49, 48] ∧
    constant_drain [50, 49, 48] (1 / 100) drain_monitor.m_set.check_interval ∧
    drain_monitor.m_set.power_interval / drain_monitor.m_set.check_interval
        + drain_monitor.m_set.power_measurements < drain_monitor.m_history_count ∧
    drain_monitor.m_set.power_interval / drain_monitor.m_set.check_interval
        + drain_monitor.m_set.power_measurements ≤ drain_monitor.m_history_size ∧
    current_power drain_monitor = some 24 ∧ 3600 * (1 / 100 : ℚ) = 36 := by
  refine ⟨drain_monitor_ring, drain_monitor_drain, by decide, by decide, ?_, by norm_num⟩
  rw [current_power_constant_drain drain_monitor [50, 50, 50] [50, 49, 48] (1 / 100)
    drain_monitor_ring drain_monitor_drain (by decide) (by decide) (by decide) (by decide)
    (by decide)]
  norm_num [drain_monitor]

/-! ## A periodic check in which a read or a write fails -/

theorem update_stats_unreadable (m : monitor_impl) (h : m.m_ac.online = none) :
    update_stats m = .thrown m := by
  unfold update_stats
  rw [h]

theorem update_stats_count (m m1 : monitor_impl) (online : Bool)
    (hac : m.m_ac.online = some online)
    (h : update_stats m = .done m1 ∨ update_stats m = .thrown m1) :
    m1.m_history_count = m.m_history_count + 1 := by
  unfold update_stats at h
  rw [hac] at h
  simp only at h
  split at h
  · rcases h with h | h <;> exact outcome.noConfusion h
  · split at h
    · rcases h with h | h
      · exact outcome.noConfusion h
      · injection h with h; subst h; rfl
    · split at h
      · rcases h with h | h
        · exact outcome.noConfusion h
        · injection h with h; subst h; rfl
      · rcases h with h | h
        · injection h with h; subst h; rfl
        · exact outcome.noConfusion h

theorem update_stats_thrown_frame (m m1 : monitor_impl) (h : update_stats m = .thrown m1) :
    m1 = { m with m_on_ac := m1.m_on_ac, m_history_count := m1.m_history_count,
                  m_temp_history := m1.m_temp_history } := by
  unfold update_stats at h
  split at h
  · injection h with h; subst h; rfl
  · simp only at h
    split at h
    · exact outcome.noConfusion h
    · split at h
      · injection h with h; subst h; rfl
      · split at h
        · injection h with h; subst h; rfl
        · exact outcome.noConfusion h

theorem run_checks_history (fuel : Nat) (m m1 : monitor_impl)
    (h : run_checks fuel m = .done m1 ∨ run_checks fuel m = .thrown m1) :
    m1.m_history_count = m.m_history_count := by
  unfold run_checks at h
  simp only at h
  split at h
  · rcases h with h | h <;> exact outcome.noConfusion h
  · split at h
    · split at h
      · rcases h with h | h <;> exact outcome.noConfusion h
      · split at h
        · rcases h with h | h <;> exact outcome.noConfusion h
        · rename_i b _
          have hstore : (store_bounds m b).m_history_count = m.m_history_count := by
            unfold store_bounds
            simp only
            split_ifs <;> rfl
          split at h
          · rename_i m5 hfan
            have h5 := check_fan_frame _ m5 (Or.inl hfan)
            have h5c : m5.m_history_count = m.m_history_count := by
              rw [h5]; exact hstore
            split at h
            · have h6 := check_cpu_frame m5 m1 h
              rw [h6]; exact h5c
            · rcases h with h | h
              · injection h with h; subst h; exact h5c
              · exact outcome.noConfusion h
          · rename_i o hne
            cases hfan : check_fan (store_bounds m b) with
            | done m5 => exact absurd hfan (hne m5)
            | thrown m5 =>
              rw [hfan] at h
              rcases h with h | h
              · exact outcome.noConfusion h
              · injection h with h
                subst h
                have h5 := check_fan_frame _ m5 (Or.inr hfan)
                rw [h5]; exact hstore
            | undefined =>
              rw [hfan] at h
              rcases h with h | h <;> exact outcome.noConfusion h
    · rcases h with h | h
      · injection h with h; subst h; rfl
      · exact outcome.noConfusion h

/-- C20 (amended): when a read or a write fails during a periodic check, the
failure is caught and the check ends, in the state reached at the failure. That
state is the state before the check exactly when the failing operation is the
first one, the read of the AC `online` file; in every other case the history
counter has advanced by one. A failure inside `update_stats` leaves the energy
buffer, both estimates, the four bounds and both cooldowns as they were. -/
theorem C20_failure_is_caught (fuel : Nat) (m : monitor_impl) (hfail : tick_fails fuel m) :
    ∃ m1, on_periodic_check fuel m = some m1 ∧
      (m1 = m ↔ m.m_ac.online = none) ∧
      (m.m_ac.online ≠ none → m1.m_history_count = m.m_history_count + 1) ∧
      ((∃ m0, update_stats m = .thrown m0) →
        m1.m_energy_history = m.m_energy_history ∧
        m1.m_fan_temp = m.m_fan_temp ∧ m1.m_fan_hot = m.m_fan_hot ∧
        m1.m_fan_cold = m.m_fan_cold ∧
        m1.m_cpu_temp = m.m_cpu_temp ∧ m1.m_cpu_hot = m.m_cpu_hot ∧
        m1.m_cpu_cold = m.m_cpu_cold ∧
        m1.m_cpu_throttle_time = m.m_cpu_throttle_time ∧
        m1.m_cpu_unthrottle_time = m.m_cpu_unthrottle_time) := by
  have hcount : ∀ m1 : monitor_impl, m1.m_history_count = m.m_history_count + 1 → m1 ≠ m := by
    intro m1 h heq
    rw [heq] at h
    omega
  rcases hfail with ⟨m1, h1⟩ | ⟨m1, m2, h1, h2⟩
  · have hend : on_periodic_check fuel m = some m1 := by
      unfold on_periodic_check
      rw [h1]
    have hframe := update_stats_thrown_frame m m1 h1
    refine ⟨m1, hend, ?_, ?_, ?_⟩
    · constructor
      · intro heq
        by_contra hne
        obtain ⟨online, hon⟩ := Option.ne_none_iff_exists'.mp hne
        exact hcount m1 (update_stats_count m m1 online hon (Or.inr h1)) heq
      · intro hnone
        have := update_stats_unreadable m hnone
        rw [this] at h1
        injection h1 with h1
        exact h1.symm
    · intro hne
      obtain ⟨online, hon⟩ := Option.ne_none_iff_exists'.mp hne
      exact update_stats_count m m1 online hon (Or.inr h1)
    · intro _
      rw [hframe]
      exact ⟨rfl, rfl, rfl, rfl, rfl, rfl, rfl, rfl, rfl⟩
  · have hend : on_periodic_check fuel m = some m2 := by
      unfold on_periodic_check
      simp only [h1, h2]
    have hon : m.m_ac.online ≠ none := by
      intro hnone
      rw [update_stats_unreadable m hnone] at h1
      exact outcome.noConfusion h1
    obtain ⟨online, hon1⟩ := Option.ne_none_iff_exists'.mp hon
    have hc : m2.m_history_count = m.m_history_count + 1 := by
      rw [run_checks_history fuel m1 m2 (Or.inr h2)]
      exact update_stats_count m m1 online hon1 (Or.inl h1)
    refine ⟨m2, hend, ?_, fun _ => hc, ?_⟩
    · constructor
      · intro heq
        exact absurd heq (hcount m2 hc)
      · intro hnone
        exact absurd hnone hon
    · rintro ⟨m0, h0⟩
      rw [h0] at h1
      exact outcome.noConfusion h1

theorem no_battery_tick :
    update_stats no_battery_start
      = .thrown { no_battery_start with m_history_count := 1, m_temp_history := [0, 50, 0] } := by
  norm_num [update_stats, no_battery_start, current_max_temp, current_max_temp_from,
    power.energy_now, coarse_settings]

/-- C20, witness: the battery's `charge_now` cannot be read. -/
theorem C20_failure_is_caught_witness :
    ∃ m1, on_periodic_check 2 no_battery_start = some m1 ∧
      (m1 = no_battery_start ↔ no_battery_start.m_ac.online = none) ∧
      (no_battery_start.m_ac.online ≠ none →
        m1.m_history_count = no_battery_start.m_history_count + 1) ∧
      ((∃ m0, update_stats no_battery_start = .thrown m0) →
        m1.m_energy_history = no_battery_start.m_energy_history ∧
        m1.m_fan_temp = no_battery_start.m_fan_temp ∧ m1.m_fan_hot = no_battery_start.m_fan_hot ∧
        m1.m_fan_cold = no_battery_start.m_fan_cold ∧
        m1.m_cpu_temp = no_battery_start.m_cpu_temp ∧ m1.m_cpu_hot = no_battery_start.m_cpu_hot ∧
        m1.m_cpu_cold = no_battery_start.m_cpu_cold ∧
        m1.m_cpu_throttle_time = no_battery_start.m_cpu_throttle_time ∧
        m1.m_cpu_unthrottle_time = no_battery_start.m_cpu_unthrottle_time) :=
  C20_failure_is_caught 2 no_battery_start (Or.inl ⟨_, no_battery_tick⟩)

/-- C20, counterexample, a battery whose `charge_now` cannot be read: the
failure is caught, but the periodic check ends with the history counter at 1
(it was 0) and with the temperature of 50 degrees stored in slot 1 of the
temperature buffer. -/
theorem C20_counter_advances_on_failure :
    tick_fails 2 no_battery_start ∧
    on_periodic_check 2 no_battery_start
      = some { no_battery_start with m_history_count := 1, m_temp_history := [0, 50, 0] } ∧
    no_battery_start.m_history_count = 0 ∧
    no_battery_start.m_temp_history = [0, 0, 0] := by
  refine ⟨Or.inl ⟨_, no_battery_tick⟩, ?_, rfl, rfl⟩
  unfold on_periodic_check
  rw [no_battery_tick]

/-! ## Safe defaults -/

/-- The two original backlight levels of the constructor state are the levels
that the two `brightness` files showed at startup. -/
theorem init_originals (set : settings) (coretemp : List (Option ℚ)) (fans : List fan)
    (cpus : List cpu) (ac battery : power) (backlight keyboard_backlight : led)
    (m0 : monitor_impl)
    (hinit : monitor_impl.init set coretemp fans cpus ac battery backlight keyboard_backlight
      = some m0) :
    backlight.brightness = some m0.m_original_display_backlight ∧
    keyboard_backlight.brightness = some m0.m_original_keyboard_backlight ∧
    m0.m_backlight = backlight ∧ m0.m_kbd_backlight = keyboard_backlight := by
  unfold monitor_impl.init at hinit
  split at hinit
  · rename_i original_display original_keyboard online hd hk _
    split at hinit
    · simp at hinit
    · simp only [Option.some.injEq] at hinit
      subst hinit
      exact ⟨hd, hk, rfl, rfl⟩
  · simp at hinit

theorem raise_brightness_readable (l : led) (value current : Nat)
    (h : l.brightness = some current) :
    ∃ l1, raise_brightness l value = some l1 ∧ l1.brightness = some (max current value) ∧
      l1.max_brightness = l.max_brightness := by
  unfold raise_brightness
  rw [h]
  simp only
  by_cases hlt : current < value
  · rw [if_pos hlt, set_brightness_readable l value current h]
    exact ⟨_, rfl, by rw [max_eq_right (le_of_lt hlt)], rfl⟩
  · rw [if_neg hlt]
    exact ⟨l, rfl, by rw [h, max_eq_left (not_lt.mp hlt)], rfl⟩

/-- C21 (amended): for every state whose two `brightness` files can be read,
`ensure_safe_defaults` returns with the display at `max(previous,
max(m_original_display_backlight, min_safe_display_backlight))` and the keyboard
backlight at `max(previous, m_original_keyboard_backlight)`; neither is lowered,
and everything but the two backlights is as before. -/
theorem C21_safe_defaults (m : monitor_impl) (d k : Nat)
    (hd : m.m_backlight.brightness = some d)
    (hk : m.m_kbd_backlight.brightness = some k) :
    ∃ m1, ensure_safe_defaults m = .done m1 ∧
      m1.m_backlight.brightness
        = some (max d (max m.m_original_display_backlight m.m_set.min_safe_display_backlight)) ∧
      m1.m_kbd_backlight.brightness = some (max k m.m_original_keyboard_backlight) ∧
      (∀ d1 k1, m1.m_backlight.brightness = some d1 → m1.m_kbd_backlight.brightness = some k1 →
        d ≤ d1 ∧ k ≤ k1) ∧
      m1 = { m with m_backlight := m1.m_backlight, m_kbd_backlight := m1.m_kbd_backlight } := by
  obtain ⟨l1, hl1, hb1, _⟩ := raise_brightness_readable m.m_backlight
    (max m.m_original_display_backlight m.m_set.min_safe_display_backlight) d hd
  obtain ⟨l2, hl2, hb2, _⟩ := raise_brightness_readable m.m_kbd_backlight
    m.m_original_keyboard_backlight k hk
  unfold ensure_safe_defaults
  simp only [hl1, hl2]
  refine ⟨_, rfl, hb1, hb2, ?_, rfl⟩
  intro d1 k1 h1 h2
  simp only [hb1, hb2, Option.some.injEq] at h1 h2
  subst h1; subst h2
  exact ⟨le_max_left _ _, le_max_left _ _⟩

/-- C21, witness: a display at 30, below the safe minimum 50, with the keyboard
backlight off as at startup. -/
theorem C21_safe_defaults_witness :
    ∃ m1, ensure_safe_defaults (idle_monitor 0 30 0) = .done m1 ∧
      m1.m_backlight.brightness
        = some (max 30 (max (idle_monitor 0 30 0).m_original_display_backlight
            (idle_monitor 0 30 0).m_set.min_safe_display_backlight)) ∧
      m1.m_kbd_backlight.brightness
        = some (max 0 (idle_monitor 0 30 0).m_original_keyboard_backlight) ∧
      (∀ d1 k1, m1.m_backlight.brightness = some d1 → m1.m_kbd_backlight.brightness = some k1 →
        30 ≤ d1 ∧ 0 ≤ k1) ∧
      m1 = { idle_monitor 0 30 0 with
             m_backlight := m1.m_backlight, m_kbd_backlight := m1.m_kbd_backlight } :=
  C21_safe_defaults (idle_monitor 0 30 0) 30 0 rfl rfl

/-- C21, counterexample: shut down while dimmed, with the display at 100 (at
startup it was at 800) and a safe minimum of 50, `ensure_safe_defaults` writes
800 to the display, not `max(100, 50) = 100`. -/
theorem C21_display_restored_to_original :
    dimmed_at_exit.m_backlight.brightness = some 100 ∧
    dimmed_at_exit.m_set.min_safe_display_backlight = 50 ∧
    ensure_safe_defaults dimmed_at_exit
      = .done { dimmed_at_exit with
                m_backlight := { actual_brightness := some 800, brightness := some 800,
                                 max_brightness := some 1000 }
                m_kbd_backlight := { brightness := some 200, max_brightness := some 255 } } := by
  exact ⟨rfl, rfl, rfl⟩

/-! ## Ratchet rule, seeding and the history gate -/

theorem store_bounds_estimates (m : monitor_impl) (b : window_bounds) :
    (store_bounds m b).m_fan_temp = seeded b.fan_hot b.fan_cold m.m_fan_temp ∧
    (store_bounds m b).m_cpu_temp = seeded b.cpu_hot b.cpu_cold m.m_cpu_temp ∧
    (store_bounds m b).m_cpuinfo = m.m_cpuinfo := by
  unfold store_bounds seeded
  simp only
  split_ifs <;> exact ⟨rfl, rfl, rfl⟩

/-- The loop of `run_checks`, with enough fuel and an age counter that does
not wrap, ends, and the sample of age zero lies between each pair of bounds. -/
theorem run_checks_loop_brackets (fuel : Nat) (m : monitor_impl)
    (hci : 0 < m.m_set.check_interval)
    (hguard : max_delay (power_settings m) / m.m_set.check_interval < m.m_history_count)
    (hwrap : (max_delay (power_settings m) / m.m_set.check_interval + 1)
      * m.m_set.check_interval < UNSIGNED_RANGE)
    (hfuel : max_delay (power_settings m) / m.m_set.check_interval + 1 < fuel) :
    ∃ b, run_checks_loop m (power_settings m) (max_delay (power_settings m)) fuel 0 0 {}
        = some b ∧
      b.fan_hot ≤ sample m 0 ∧ sample m 0 ≤ b.fan_cold ∧
      b.cpu_hot ≤ sample m 0 ∧ sample m 0 ≤ b.cpu_cold := by
  obtain ⟨b, hloop, hb⟩ := run_checks_loop_spec m (power_settings m)
    (max_delay (power_settings m)) hci hwrap hguard fuel 0 {} (Nat.zero_le _)
    (by rw [Nat.sub_zero]; exact hfuel) (bounds_upto_zero m _)
  rw [Nat.zero_mul] at hloop
  obtain ⟨⟨_, h1, _⟩, ⟨_, h2, _⟩, ⟨_, h3, _⟩, ⟨_, h4, _⟩⟩ := hb
  have hz : ∀ w : Nat, 0 * m.m_set.check_interval ≤ w := fun w => by
    rw [Nat.zero_mul]; exact Nat.zero_le _
  exact ⟨b, hloop, h1 0 (Nat.succ_pos _) (hz _), h2 0 (Nat.succ_pos _) (hz _),
    h3 0 (Nat.succ_pos _) (hz _), h4 0 (Nat.succ_pos _) (hz _)⟩

/-- What an evaluating `run_checks` that returns or throws leaves: the bounds
are those of the loop, the fan estimate is the ratcheted seeded estimate, and
the CPU estimate is the ratcheted one when `check_cpu` ran and the seeded one
otherwise. -/
theorem run_checks_estimates (fuel : Nat) (m m1 : monitor_impl)
    (hguard : max_delay (power_settings m) / m.m_set.check_interval < m.m_history_count)
    (h : run_checks fuel m = .done m1 ∨ run_checks fuel m = .thrown m1) :
    ∃ b, run_checks_loop m (power_settings m) (max_delay (power_settings m)) fuel 0 0 {}
        = some b ∧
      m1.m_fan_hot = b.fan_hot ∧ m1.m_fan_cold = b.fan_cold ∧
      m1.m_cpu_hot = b.cpu_hot ∧ m1.m_cpu_cold = b.cpu_cold ∧
      m1.m_fan_temp = ratchet b.fan_hot b.fan_cold (seeded b.fan_hot b.fan_cold m.m_fan_temp) ∧
      (run_checks fuel m = .done m1 → configurable m.m_cpuinfo = true →
        m1.m_cpu_temp
          = ratchet b.cpu_hot b.cpu_cold (seeded b.cpu_hot b.cpu_cold m.m_cpu_temp)) ∧
      (configurable m.m_cpuinfo = false →
        m1.m_cpu_temp = seeded b.cpu_hot b.cpu_cold m.m_cpu_temp) ∧
      (m1.m_cpu_temp = ratchet b.cpu_hot b.cpu_cold (seeded b.cpu_hot b.cpu_cold m.m_cpu_temp) ∨
        m1.m_cpu_temp = seeded b.cpu_hot b.cpu_cold m.m_cpu_temp) := by
  have hci : m.m_set.check_interval ≠ 0 := by
    intro h0
    unfold run_checks at h
    simp only [h0, if_true] at h
    rcases h with h | h <;> exact outcome.noConfusion h
  have hN : m.m_history_size ≠ 0 := by
    intro h0
    unfold run_checks at h
    simp only [hci, if_false, hguard, if_true, h0] at h
    rcases h with h | h <;> exact outcome.noConfusion h
  cases hloop : run_checks_loop m (power_settings m) (max_delay (power_settings m)) fuel 0 0 {} with
  | none =>
    unfold run_checks at h
    simp only [hci, if_false, hguard, if_true, hN, hloop] at h
    rcases h with h | h <;> exact outcome.noConfusion h
  | some b =>
    refine ⟨b, rfl, ?_⟩
    obtain ⟨hs1, hs2, hs3⟩ := store_bounds_estimates m b
    obtain ⟨hb1, hb2, hb3, hb4⟩ := store_bounds_fields m b
    have hfan_ratchet : (fan_ratchet (store_bounds m b)).m_fan_temp
        = ratchet b.fan_hot b.fan_cold (seeded b.fan_hot b.fan_cold m.m_fan_temp) := by
      rw [fan_ratchet_temp, hb1, hb2, hs1]
      rfl
    have hcpu_ratchet : ∀ m5 : monitor_impl, m5.m_cpu_hot = b.cpu_hot →
        m5.m_cpu_cold = b.cpu_cold →
        m5.m_cpu_temp = seeded b.cpu_hot b.cpu_cold m.m_cpu_temp →
        (cpu_ratchet m5).m_cpu_temp
          = ratchet b.cpu_hot b.cpu_cold (seeded b.cpu_hot b.cpu_cold m.m_cpu_temp) := by
      intro m5 e1 e2 e3
      rw [cpu_ratchet_temp, e1, e2, e3]
      rfl
    rw [run_checks_of_loop fuel m b hci hguard hN hloop] at h
    cases hfan : check_fan (store_bounds m b) with
    | undefined =>
      rw [hfan] at h
      rcases h with h | h <;> exact outcome.noConfusion h
    | thrown m5 =>
      rw [hfan] at h
      have hm : m1 = m5 := by
        rcases h with h | h
        · exact outcome.noConfusion h
        · injection h with h; exact h.symm
      subst hm
      have hframe := check_fan_frame _ m1 (Or.inr hfan)
      have hcfg : configurable m1.m_cpuinfo = configurable m.m_cpuinfo := by
        rw [hframe]; exact congrArg configurable hs3
      refine ⟨?_, ?_, ?_, ?_, ?_, ?_, ?_, ?_⟩
      · rw [hframe]; exact hb1
      · rw [hframe]; exact hb2
      · rw [hframe]; exact hb3
      · rw [hframe]; exact hb4
      · rw [hframe]; exact hfan_ratchet
      · intro hd
        rw [run_checks_of_loop fuel m b hci hguard hN hloop, hfan] at hd
        exact outcome.noConfusion hd
      · intro _; rw [hframe]; exact hs2
      · right; rw [hframe]; exact hs2
    | done m5 =>
      rw [hfan] at h
      simp only at h
      have hframe := check_fan_frame _ m5 (Or.inl hfan)
      have h5 : m5.m_fan_hot = b.fan_hot ∧ m5.m_fan_cold = b.fan_cold ∧
          m5.m_cpu_hot = b.cpu_hot ∧ m5.m_cpu_cold = b.cpu_cold ∧
          m5.m_fan_temp = ratchet b.fan_hot b.fan_cold (seeded b.fan_hot b.fan_cold m.m_fan_temp) ∧
          m5.m_cpu_temp = seeded b.cpu_hot b.cpu_cold m.m_cpu_temp ∧
          m5.m_cpuinfo = m.m_cpuinfo := by
        rw [hframe]
        exact ⟨hb1, hb2, hb3, hb4, hfan_ratchet, hs2, hs3⟩
      obtain ⟨e1, e2, e3, e4, e5, e6, e7⟩ := h5
      by_cases hcfg : configurable m5.m_cpuinfo = true
      · rw [if_pos hcfg] at h
        have hframe1 := check_cpu_frame m5 m1 h
        have hr := hcpu_ratchet m5 e3 e4 e6
        refine ⟨?_, ?_, ?_, ?_, ?_, ?_, ?_, ?_⟩
        · rw [hframe1]; exact e1
        · rw [hframe1]; exact e2
        · rw [hframe1]; exact e3
        · rw [hframe1]; exact e4
        · rw [hframe1]; exact e5
        · intro _ _; rw [hframe1]; exact hr
        · intro hno
          rw [e7, hno] at hcfg
          exact absurd hcfg (by decide)
        · left; rw [hframe1]; exact hr
      · rw [if_neg hcfg] at h
        have hm : m1 = m5 := by
          rcases h with h | h
          · injection h with h; exact h.symm
          · exact outcome.noConfusion h
        subst hm
        refine ⟨e1, e2, e3, e4, e5, ?_, fun _ => e6, Or.inr e6⟩
        intro _ hyes
        rw [e7, hyes] at hcfg
        exact absurd rfl hcfg

theorem seeded_unseeded (hot cold est : ℚ) (h : est < -280) :
    seeded hot cold est = (hot + cold) / 2 := by
  unfold seeded
  rw [if_pos h]

theorem ratchet_clamp (hot cold est : ℚ) (h : hot ≤ cold) :
    ratchet hot cold est = max hot (min cold est) ∧
    hot ≤ ratchet hot cold est ∧ ratchet hot cold est ≤ cold := by
  unfold ratchet
  by_cases h1 : hot > est
  · rw [if_pos h1, min_eq_right (le_trans (le_of_lt h1) h), max_eq_left (le_of_lt h1)]
    exact ⟨rfl, le_refl _, h⟩
  · rw [if_neg h1]
    by_cases h2 : cold < est
    · rw [if_pos h2, min_eq_left (le_of_lt h2), max_eq_right h]
      exact ⟨rfl, h, le_refl _⟩
    · rw [if_neg h2, min_eq_right (not_lt.mp h2), max_eq_right (not_lt.mp h1)]
      exact ⟨rfl, not_lt.mp h1, not_lt.mp h2⟩

theorem ratchet_mean (hot cold : ℚ) (h : hot ≤ cold) :
    ratchet hot cold ((hot + cold) / 2) = (hot + cold) / 2 := by
  unfold ratchet
  rw [if_neg (by linarith), if_neg (by linarith)]

/-- C22 (amended): in a tick in which `run_checks` evaluates (with enough fuel
for its loop and an age counter that does not wrap, the loop ends), however the
call ends, the fan estimate is `hot_bound` if `hot_bound > estimate`, otherwise
`cold_bound` if `cold_bound < estimate`, otherwise the estimate, the estimate
being the one before the ratchet step (seeded when there was none) and the
bounds those stored in this tick. The same holds for the CPU estimate when the
call returns on a platform with configurable frequency scaling; without
configurable frequency scaling the CPU estimate is only seeded. -/
theorem C22_ratchet_rule (fuel : Nat) (m : monitor_impl)
    (hci : 1 ≤ m.m_set.check_interval)
    (hguard : max_delay (power_settings m) / m.m_set.check_interval < m.m_history_count)
    (hwrap : (max_delay (power_settings m) / m.m_set.check_interval + 1)
      * m.m_set.check_interval < UNSIGNED_RANGE)
    (hfuel : max_delay (power_settings m) / m.m_set.check_interval + 1 < fuel) :
    (run_checks_loop m (power_settings m) (max_delay (power_settings m)) fuel 0 0 {}).isSome ∧
    ∀ m1 : monitor_impl, run_checks fuel m = .done m1 ∨ run_checks fuel m = .thrown m1 →
      m1.m_fan_temp = ratchet m1.m_fan_hot m1.m_fan_cold
        (seeded m1.m_fan_hot m1.m_fan_cold m.m_fan_temp) ∧
      (run_checks fuel m = .done m1 → configurable m.m_cpuinfo = true →
        m1.m_cpu_temp = ratchet m1.m_cpu_hot m1.m_cpu_cold
          (seeded m1.m_cpu_hot m1.m_cpu_cold m.m_cpu_temp)) ∧
      (configurable m.m_cpuinfo = false →
        m1.m_cpu_temp = seeded m1.m_cpu_hot m1.m_cpu_cold m.m_cpu_temp) := by
  obtain ⟨b0, hloop0, -⟩ := run_checks_loop_brackets fuel m hci hguard hwrap hfuel
  refine ⟨by rw [hloop0]; rfl, ?_⟩
  intro m1 h
  obtain ⟨b, -, e1, e2, e3, e4, hfan, hcpu, hno, -⟩ := run_checks_estimates fuel m m1 hguard h
  rw [e1, e2, e3, e4]
  exact ⟨hfan, hcpu, hno⟩

/-- C23: in a tick in which `run_checks` evaluates with no prior estimate (both
estimates below `-280`, as the constructor leaves them), the loop ends (with
enough fuel and an age counter that does not wrap) and, however the call ends,
the fan estimate is `(fan_hot + fan_cold) / 2` and the CPU estimate is
`(cpu_hot + cpu_cold) / 2`: the ratchet step of the same tick does not move the
fresh seed. -/
theorem C23_seeding (fuel : Nat) (m : monitor_impl)
    (hci : 1 ≤ m.m_set.check_interval)
    (hguard : max_delay (power_settings m) / m.m_set.check_interval < m.m_history_count)
    (hwrap : (max_delay (power_settings m) / m.m_set.check_interval + 1)
      * m.m_set.check_interval < UNSIGNED_RANGE)
    (hfuel : max_delay (power_settings m) / m.m_set.check_interval + 1 < fuel)
    (hfan : m.m_fan_temp < -280) (hcpu : m.m_cpu_temp < -280) :
    (run_checks_loop m (power_settings m) (max_delay (power_settings m)) fuel 0 0 {}).isSome ∧
    ∀ m1 : monitor_impl, run_checks fuel m = .done m1 ∨ run_checks fuel m = .thrown m1 →
      m1.m_fan_temp = (m1.m_fan_hot + m1.m_fan_cold) / 2 ∧
      m1.m_cpu_temp = (m1.m_cpu_hot + m1.m_cpu_cold) / 2 := by
  obtain ⟨b0, hloop0, h1, h2, h3, h4⟩ := run_checks_loop_brackets fuel m hci hguard hwrap hfuel
  refine ⟨by rw [hloop0]; rfl, ?_⟩
  intro m1 h
  obtain ⟨b, hloop, e1, e2, e3, e4, hf, -, -, hc⟩ := run_checks_estimates fuel m m1 hguard h
  have hb : b = b0 := by
    rw [hloop0] at hloop
    injection hloop with hloop
    exact hloop.symm
  subst hb
  rw [e1, e2, e3, e4]
  rw [seeded_unseeded _ _ _ hfan, ratchet_mean _ _ (le_trans h1 h2)] at hf
  rw [seeded_unseeded _ _ _ hcpu, ratchet_mean _ _ (le_trans h3 h4)] at hc
  exact ⟨hf, by rcases hc with hc | hc <;> exact hc⟩

/-- C24: with `check_interval >= 1`, if the history counter is at most
`max(fan_hot_delay, fan_cold_delay, cpu_hot_delay, cpu_cold_delay) /
check_interval` for the active power mode, `run_checks` returns the state it was
given: no estimate, bound or cooldown changes and no fan or cpu file is
written. -/
theorem C24_history_gate (fuel : Nat) (m : monitor_impl)
    (hci : 1 ≤ m.m_set.check_interval)
    (hcount : m.m_history_count ≤ max_delay (power_settings m) / m.m_set.check_interval) :
    run_checks fuel m = .done m := by
  unfold run_checks
  simp only
  rw [if_neg (by omega), if_neg (not_lt.mpr hcount)]

/-- C24, witness: the end-to-end scenario before its first tick. -/
theorem C24_history_gate_witness :
    scenario_start.m_history_count
      ≤ max_delay (power_settings scenario_start) / scenario_start.m_set.check_interval ∧
    run_checks 42 scenario_start = .done scenario_start :=
  ⟨by rw [scenario_start_settings]; decide,
   C24_history_gate 42 scenario_start (by decide)
     (by rw [scenario_start_settings]; decide)⟩

/-- C28 (amended): in a tick in which `run_checks` evaluates on a history that
holds the readings `temps` (with enough fuel and an age counter that does not
wrap, the loop ends), however the call ends, the newest reading lies between
the hot and the cold bound of the fan and of the CPU, and the fan estimate lies
between its bounds: it is the estimate before the ratchet step clamped into
`[fan_hot, fan_cold]`. The same holds for the CPU estimate when the call returns
on a platform with configurable frequency scaling. -/
theorem C28_bounds_bracket (fuel : Nat) (m : monitor_impl) (temps energies : List ℚ)
    (hring : ring_holds m temps energies)
    (hci : 1 ≤ m.m_set.check_interval)
    (hguard : max_delay (power_settings m) / m.m_set.check_interval < m.m_history_count)
    (hwrap : (max_delay (power_settings m) / m.m_set.check_interval + 1)
      * m.m_set.check_interval < UNSIGNED_RANGE)
    (hfuel : max_delay (power_settings m) / m.m_set.check_interval + 1 < fuel) :
    (run_checks_loop m (power_settings m) (max_delay (power_settings m)) fuel 0 0 {}).isSome ∧
    ∀ m1 : monitor_impl, run_checks fuel m = .done m1 ∨ run_checks fuel m = .thrown m1 →
      (∃ t, temps[temps.length - 1]? = some t ∧
        m1.m_fan_hot ≤ t ∧ t ≤ m1.m_fan_cold ∧ m1.m_cpu_hot ≤ t ∧ t ≤ m1.m_cpu_cold) ∧
      m1.m_fan_hot ≤ m1.m_fan_temp ∧ m1.m_fan_temp ≤ m1.m_fan_cold ∧
      m1.m_fan_temp = max m1.m_fan_hot
        (min m1.m_fan_cold (seeded m1.m_fan_hot m1.m_fan_cold m.m_fan_temp)) ∧
      (run_checks fuel m = .done m1 → configurable m.m_cpuinfo = true →
        m1.m_cpu_hot ≤ m1.m_cpu_temp ∧ m1.m_cpu_temp ≤ m1.m_cpu_cold ∧
        m1.m_cpu_temp = max m1.m_cpu_hot
          (min m1.m_cpu_cold (seeded m1.m_cpu_hot m1.m_cpu_cold m.m_cpu_temp))) := by
  obtain ⟨b0, hloop0, h1, h2, h3, h4⟩ := run_checks_loop_brackets fuel m hci hguard hwrap hfuel
  refine ⟨by rw [hloop0]; rfl, ?_⟩
  intro m1 h
  obtain ⟨b, hloop, e1, e2, e3, e4, hf, hc, -, -⟩ := run_checks_estimates fuel m m1 hguard h
  have hb : b = b0 := by
    rw [hloop0] at hloop
    injection hloop with hloop
    exact hloop.symm
  subst hb
  have hnewest := sample_eq_reading m temps energies hring 0
    (Nat.lt_of_le_of_lt (Nat.zero_le _) hguard)
  rw [Nat.zero_mod, Nat.sub_zero] at hnewest
  obtain ⟨k1, k2, k3⟩ := ratchet_clamp b.fan_hot b.fan_cold
    (seeded b.fan_hot b.fan_cold m.m_fan_temp) (le_trans h1 h2)
  rw [e1, e2, e3, e4, hf]
  refine ⟨⟨_, hnewest, h1, h2, h3, h4⟩, k2, k3, k1, ?_⟩
  intro hd hcfg
  obtain ⟨c1, c2, c3⟩ := ratchet_clamp b.cpu_hot b.cpu_cold
    (seeded b.cpu_hot b.cpu_cold m.m_cpu_temp) (le_trans h3 h4)
  rw [hc hd hcfg]
  exact ⟨c2, c3, c1⟩

theorem second_tick_bare_settings (t u : ℚ) : power_settings (second_tick_bare t u) = {} := by
  simp [power_settings, second_tick_bare, sensor_start, coarse_settings]

theorem first_tick_read_settings : power_settings first_tick_read = {} := by
  simp [power_settings, first_tick_read, sensor_start, coarse_settings]

theorem second_tick_bare_warmer :
    run_checks 2 (second_tick_bare 50 60) = .done (second_tick_end 50 60 60 50 60) := by
  norm_num [run_checks, second_tick_bare, second_tick_end, sensor_start, power_settings,
    coarse_settings, max_delay, run_checks_loop, run_checks_body, history_index, UNSIGNED_RANGE,
    store_bounds, check_fan, fan_ratchet, applesmc_set_fan_speed, set_fan_speed_nil, configurable]

theorem second_tick_bare_cooler :
    run_checks 2 (second_tick_bare 50 40) = .done (second_tick_end 50 40 40 50 40) := by
  norm_num [run_checks, second_tick_bare, second_tick_end, sensor_start, power_settings,
    coarse_settings, max_delay, run_checks_loop, run_checks_body, history_index, UNSIGNED_RANGE,
    store_bounds, check_fan, fan_ratchet, applesmc_set_fan_speed, set_fan_speed_nil, configurable]

/-- C22, witness: the second tick of a monitor with one cpu, readings 50 then 60. -/
theorem C22_ratchet_rule_witness :
    (run_checks_loop second_tick_read (power_settings second_tick_read)
      (max_delay (power_settings second_tick_read)) 2 0 0 {}).isSome ∧
    ∀ m1 : monitor_impl,
      run_checks 2 second_tick_read = .done m1 ∨ run_checks 2 second_tick_read = .thrown m1 →
      m1.m_fan_temp = ratchet m1.m_fan_hot m1.m_fan_cold
        (seeded m1.m_fan_hot m1.m_fan_cold second_tick_read.m_fan_temp) ∧
      (run_checks 2 second_tick_read = .done m1 →
        configurable second_tick_read.m_cpuinfo = true →
        m1.m_cpu_temp = ratchet m1.m_cpu_hot m1.m_cpu_cold
          (seeded m1.m_cpu_hot m1.m_cpu_cold second_tick_read.m_cpu_temp)) ∧
      (configurable second_tick_read.m_cpuinfo = false →
        m1.m_cpu_temp = seeded m1.m_cpu_hot m1.m_cpu_cold second_tick_read.m_cpu_temp) :=
  C22_ratchet_rule 2 second_tick_read (by decide)
    (by rw [second_tick_read_settings, max_delay_default]; decide)
    (by rw [second_tick_read_settings, max_delay_default]; decide)
    (by rw [second_tick_read_settings, max_delay_default]; decide)

/-- C22, counterexample, on a monitor without cpus (`cpuinfo::configurable` is
false): both estimates are 50 and the second tick reads 60, the only reading in
the windows. `run_checks` evaluates and returns with both CPU bounds at 60 and
the CPU estimate still at 50, where the ratchet rule gives 60; the fan estimate
has moved to 60. -/
theorem C22_cpu_ratchet_needs_governor :
    max_delay (power_settings (second_tick_bare 50 60))
        / (second_tick_bare 50 60).m_set.check_interval
      < (second_tick_bare 50 60).m_history_count ∧
    run_checks 2 (second_tick_bare 50 60) = .done (second_tick_end 50 60 60 50 60) ∧
    (second_tick_end 50 60 60 50 60).m_cpu_hot = 60 ∧
    (second_tick_end 50 60 60 50 60).m_cpu_cold = 60 ∧
    (second_tick_end 50 60 60 50 60).m_cpu_temp = 50 ∧
    (second_tick_end 50 60 60 50 60).m_fan_temp = 60 ∧
    ratchet 60 60 (seeded 60 60 (second_tick_bare 50 60).m_cpu_temp) = 60 := by
  refine ⟨by rw [second_tick_bare_settings, max_delay_default]; decide,
    second_tick_bare_warmer, rfl, rfl, rfl, rfl, ?_⟩
  norm_num [ratchet, seeded, second_tick_bare]

/-- C23, witness: the first tick of a monitor with one cpu, one reading of 50
degrees. -/
theorem C23_seeding_witness :
    (run_checks_loop first_tick_read (power_settings first_tick_read)
      (max_delay (power_settings first_tick_read)) 2 0 0 {}).isSome ∧
    ∀ m1 : monitor_impl,
      run_checks 2 first_tick_read = .done m1 ∨ run_checks 2 first_tick_read = .thrown m1 →
      m1.m_fan_temp = (m1.m_fan_hot + m1.m_fan_cold) / 2 ∧
      m1.m_cpu_temp = (m1.m_cpu_hot + m1.m_cpu_cold) / 2 :=
  C23_seeding 2 first_tick_read (by decide)
    (by rw [first_tick_read_settings, max_delay_default]; decide)
    (by rw [first_tick_read_settings, max_delay_default]; decide)
    (by rw [first_tick_read_settings, max_delay_default]; decide)
    (by norm_num [first_tick_read, sensor_start]) (by norm_num [first_tick_read, sensor_start])

/-- C28, witness: the second tick of a monitor with one cpu, readings 50 then 60. -/
theorem C28_bounds_bracket_witness :
    (run_checks_loop second_tick_read (power_settings second_tick_read)
      (max_delay (power_settings second_tick_read)) 2 0 0 {}).isSome ∧
    ∀ m1 : monitor_impl,
      run_checks 2 second_tick_read = .done m1 ∨ run_checks 2 second_tick_read = .thrown m1 →
      (∃ t, ([50, 60] : List ℚ)[([50, 60] : List ℚ).length - 1]? = some t ∧
        m1.m_fan_hot ≤ t ∧ t ≤ m1.m_fan_cold ∧ m1.m_cpu_hot ≤ t ∧ t ≤ m1.m_cpu_cold) ∧
      m1.m_fan_hot ≤ m1.m_fan_temp ∧ m1.m_fan_temp ≤ m1.m_fan_cold ∧
      m1.m_fan_temp = max m1.m_fan_hot
        (min m1.m_fan_cold (seeded m1.m_fan_hot m1.m_fan_cold second_tick_read.m_fan_temp)) ∧
      (run_checks 2 second_tick_read = .done m1 →
        configurable second_tick_read.m_cpuinfo = true →
        m1.m_cpu_hot ≤ m1.m_cpu_temp ∧ m1.m_cpu_temp ≤ m1.m_cpu_cold ∧
        m1.m_cpu_temp = max m1.m_cpu_hot
          (min m1.m_cpu_cold (seeded m1.m_cpu_hot m1.m_cpu_cold second_tick_read.m_cpu_temp))) :=
  C28_bounds_bracket 2 second_tick_read [50, 60] [5, 5] second_tick_read_ring (by decide)
    (by rw [second_tick_read_settings, max_delay_default]; decide)
    (by rw [second_tick_read_settings, max_delay_default]; decide)
    (by rw [second_tick_read_settings, max_delay_default]; decide)

/-- C28, counterexample, on a monitor without cpus: both estimates are 50 and
the second tick reads 40, the only reading in the windows. `run_checks`
evaluates and returns with both CPU bounds at 40 and the CPU estimate still at
50, above its cold bound; the fan estimate has moved to 40. -/
theorem C28_cpu_estimate_outside_bounds :
    max_delay (power_settings (second_tick_bare 50 40))
        / (second_tick_bare 50 40).m_set.check_interval
      < (second_tick_bare 50 40).m_history_count ∧
    run_checks 2 (second_tick_bare 50 40) = .done (second_tick_end 50 40 40 50 40) ∧
    (second_tick_end 50 40 40 50 40).m_cpu_cold = 40 ∧
    (second_tick_end 50 40 40 50 40).m_cpu_temp = 50 ∧
    (second_tick_end 50 40 40 50 40).m_fan_temp = 40 := by
  exact ⟨by rw [second_tick_bare_settings, max_delay_default]; decide,
    second_tick_bare_cooler, rfl, rfl, rfl⟩

/-! ## Governor decision and effective cap -/

/-- The index that `check_cpu` selects is the one the spec's decision gives,
except when both flags are set at index 0 below the cap: there `check_cpu`
stays at 0. -/
theorem select_index_eq_decision (throttle unthrottle : Bool) (ix max_ix : Nat) :
    (select_index throttle unthrottle ix max_ix = governor_decision throttle unthrottle ix max_ix
      ↔ ¬ (throttle = true ∧ unthrottle = true ∧ ix = 0 ∧ 0 < max_ix)) ∧
    (throttle = true → unthrottle = true → ix = 0 → select_index throttle unthrottle ix max_ix = 0) := by
  unfold select_index governor_decision
  rcases Nat.lt_or_ge max_ix ix with h | h
  · rw [min_eq_right (Nat.le_of_lt h)]
    cases throttle <;> cases unthrottle
    all_goals simp only [Bool.false_eq_true, if_false, if_true, false_and, true_and,
      not_false_eq_true, iff_true, false_implies, true_implies, implies_true, and_true]
    all_goals try split_ifs
    all_goals try constructor
    all_goals omega
  · rw [min_eq_left h]
    cases throttle <;> cases unthrottle
    all_goals simp only [Bool.false_eq_true, if_false, if_true, false_and, true_and,
      not_false_eq_true, iff_true, false_implies, true_implies, implies_true, and_true]
    all_goals try split_ifs
    all_goals try constructor
    all_goals omega

/-- C25 (amended): when the three reads of `check_cpu` succeed, the index
`new_ix` that it hands to the write step equals the result of the decision in
the spec's words for every combination of the flags, `cur_ix` and `cap_ix`
except one: with both flags set and `cur_ix = 0 < cap_ix` the decision gives 1,
and `check_cpu`, whose unthrottle branch is the `else` of `if (throttle)`, stays
at 0. -/
theorem C25_governor_decision (m : monitor_impl) (front : cpu) (rest : List cpu)
    (frequencies : List Nat) (current cap : Nat)
    (hcpus : m.m_cpuinfo = front :: rest)
    (hfreq : front.scaling_available_frequencies = some frequencies)
    (hcur : scaling_max_freq m.m_cpuinfo = some current)
    (hcap : cpu_max_speed m = some cap) :
    ∃ new_ix : Nat,
      check_cpu m = write_ceiling (power_settings m) (throttle_flag (cpu_ratchet m))
        (unthrottle_flag (cpu_ratchet m)) (frequencies.insertionSort (· ≤ ·))
        (lower_bound (frequencies.insertionSort (· ≤ ·)) current) new_ix
        (cpu_cooldowns (cpu_ratchet m)) ∧
      (new_ix = governor_decision (throttle_flag (cpu_ratchet m)) (unthrottle_flag (cpu_ratchet m))
          (lower_bound (frequencies.insertionSort (· ≤ ·)) current)
          (cap_index (frequencies.insertionSort (· ≤ ·)) cap)
        ↔ ¬ (throttle_flag (cpu_ratchet m) = true ∧ unthrottle_flag (cpu_ratchet m) = true ∧
              lower_bound (frequencies.insertionSort (· ≤ ·)) current = 0 ∧
              0 < cap_index (frequencies.insertionSort (· ≤ ·)) cap)) ∧
      (throttle_flag (cpu_ratchet m) = true → unthrottle_flag (cpu_ratchet m) = true →
        lower_bound (frequencies.insertionSort (· ≤ ·)) current = 0 → new_ix = 0) ∧
      ∀ (throttle unthrottle : Bool) (cur_ix cap_ix : Nat),
        ¬ (throttle = true ∧ unthrottle = true ∧ cur_ix = 0 ∧ 0 < cap_ix) →
        select_index throttle unthrottle cur_ix cap_ix
          = governor_decision throttle unthrottle cur_ix cap_ix :=
  ⟨_, check_cpu_of_reads m front rest frequencies current cap hcpus hfreq hcur hcap,
    (select_index_eq_decision _ _ _ _).1, (select_index_eq_decision _ _ _ _).2,
    fun t u i c h => (select_index_eq_decision t u i c).1.mpr h⟩

theorem cpu_max_speed_contrary : cpu_max_speed contrary_monitor = some 2000 := by
  simp [cpu_max_speed, power_settings, contrary_monitor]

theorem contrary_flags :
    throttle_flag (cpu_ratchet contrary_monitor) = true ∧
    unthrottle_flag (cpu_ratchet contrary_monitor) = true := by
  have hr : cpu_ratchet contrary_monitor = contrary_monitor := by
    simp [cpu_ratchet, contrary_monitor]
  rw [hr]
  constructor <;>
  norm_num [throttle_flag, unthrottle_flag, power_settings, contrary_monitor]

/-- C25, witness: ceiling 5000 under a cap of 2000, the estimate above the hot
threshold. -/
theorem C25_governor_decision_witness :
    ∃ new_ix : Nat,
      check_cpu (governor_monitor 5000 2000 95 0)
        = write_ceiling (power_settings (governor_monitor 5000 2000 95 0))
          (throttle_flag (cpu_ratchet (governor_monitor 5000 2000 95 0)))
          (unthrottle_flag (cpu_ratchet (governor_monitor 5000 2000 95 0)))
          ([1000, 2000, 3000, 4000, 5000].insertionSort (· ≤ ·))
          (lower_bound ([1000, 2000, 3000, 4000, 5000].insertionSort (· ≤ ·)) 5000) new_ix
          (cpu_cooldowns (cpu_ratchet (governor_monitor 5000 2000 95 0))) ∧
      (new_ix = governor_decision (throttle_flag (cpu_ratchet (governor_monitor 5000 2000 95 0)))
          (unthrottle_flag (cpu_ratchet (governor_monitor 5000 2000 95 0)))
          (lower_bound ([1000, 2000, 3000, 4000, 5000].insertionSort (· ≤ ·)) 5000)
          (cap_index ([1000, 2000, 3000, 4000, 5000].insertionSort (· ≤ ·)) 2000)
        ↔ ¬ (throttle_flag (cpu_ratchet (governor_monitor 5000 2000 95 0)) = true ∧
              unthrottle_flag (cpu_ratchet (governor_monitor 5000 2000 95 0)) = true ∧
              lower_bound ([1000, 2000, 3000, 4000, 5000].insertionSort (· ≤ ·)) 5000 = 0 ∧
              0 < cap_index ([1000, 2000, 3000, 4000, 5000].insertionSort (· ≤ ·)) 2000)) ∧
      (throttle_flag (cpu_ratchet (governor_monitor 5000 2000 95 0)) = true →
        unthrottle_flag (cpu_ratchet (governor_monitor 5000 2000 95 0)) = true →
        lower_bound ([1000, 2000, 3000, 4000, 5000].insertionSort (· ≤ ·)) 5000 = 0 →
        new_ix = 0) ∧
      ∀ (throttle unthrottle : Bool) (cur_ix cap_ix : Nat),
        ¬ (throttle = true ∧ unthrottle = true ∧ cur_ix = 0 ∧ 0 < cap_ix) →
        select_index throttle unthrottle cur_ix cap_ix
          = governor_decision throttle unthrottle cur_ix cap_ix :=
  C25_governor_decision (governor_monitor 5000 2000 95 0) (ladder_cpu 5000) []
    [1000, 2000, 3000, 4000, 5000] 5000 2000 rfl rfl (by decide)
    (cpu_max_speed_governor 5000 2000 95 0)

/-- C25, counterexample: hot threshold 60, cold threshold 80, estimate 70 (both
flags are set), ceiling 1000 at index 0, cap 2000 at index 1. The decision in
the spec's words gives index 1; `check_cpu` selects index 0 and returns without
a write. -/
theorem C25_both_flags_at_lowest :
    throttle_flag (cpu_ratchet contrary_monitor) = true ∧
    unthrottle_flag (cpu_ratchet contrary_monitor) = true ∧
    lower_bound ([1000, 2000, 3000, 4000, 5000].insertionSort (· ≤ ·)) 1000 = 0 ∧
    cap_index ([1000, 2000, 3000, 4000, 5000].insertionSort (· ≤ ·)) 2000 = 1 ∧
    governor_decision true true 0 1 = 1 ∧
    select_index true true 0 1 = 0 ∧
    check_cpu contrary_monitor = .done contrary_monitor := by
  refine ⟨contrary_flags.1, contrary_flags.2, by decide, by decide, by decide, by decide, ?_⟩
  rw [check_cpu_of_reads contrary_monitor (ladder_cpu 1000) [] [1000, 2000, 3000, 4000, 5000]
    1000 2000 rfl rfl (by decide) cpu_max_speed_contrary, contrary_flags.1, contrary_flags.2]
  have h0 : lower_bound ([1000, 2000, 3000, 4000, 5000].insertionSort (· ≤ ·)) 1000 = 0 := by
    decide
  have h1 : cap_index ([1000, 2000, 3000, 4000, 5000].insertionSort (· ≤ ·)) 2000 = 1 := by
    decide
  have h2 : select_index true true 0 1 = 0 := by decide
  rw [h0, h1, h2]
  simp [write_ceiling, cpu_cooldowns, cooldown_step, cpu_ratchet, contrary_monitor]

theorem battery_percent_half : battery_percent 5 10 = 50 := by
  have h500 : round_double 500 = 500 := by
    have h := round_double_natCast 500 (by norm_num)
    simpa using h
  have h50 : round_double 50 = 50 := by
    have h := round_double_natCast 50 (by norm_num)
    simpa using h
  unfold battery_percent
  norm_num [h500, h50]

theorem battery_percent_twentieth : battery_percent (1 / 2) 10 = 5 := by
  have h50 : round_double 50 = 50 := by
    have h := round_double_natCast 50 (by norm_num)
    simpa using h
  have h5 : round_double 5 = 5 := by
    have h := round_double_natCast 5 (by norm_num)
    simpa using h
  unfold battery_percent
  norm_num [h50, h5]

/-- The two energies of `tenth_battery_monitor` as `power::energy_now` and
`power::energy_full` return them: the doubles nearest to 0.641 and 6.41. -/
theorem tenth_battery_energies :
    tenth_battery_monitor.m_battery.energy_now = some (360850920143061 / 562949953421312) ∧
    tenth_battery_monitor.m_battery.energy_full
      = some (1804254600715305 / 281474976710656) := by
  have hnow : scale_micro 641000 = 360850920143061 / 562949953421312 := by
    unfold scale_micro
    rw [round_double_pos_eq (DOUBLE_1E_6 * 641000) (-1) 5773614722288976
      (by norm_num [DOUBLE_1E_6]) (by norm_num [DOUBLE_1E_6]) (by norm_num)
      (by norm_num [DOUBLE_1E_6]) (by norm_num [DOUBLE_1E_6])]
    norm_num
  have hfull : scale_micro 6410000 = 1804254600715305 / 281474976710656 := by
    unfold scale_micro
    rw [round_double_pos_eq (DOUBLE_1E_6 * 6410000) 2 7217018402861220
      (by norm_num [DOUBLE_1E_6]) (by norm_num [DOUBLE_1E_6]) (by norm_num)
      (by norm_num [DOUBLE_1E_6]) (by norm_num [DOUBLE_1E_6])]
    norm_num
  constructor
  · simp only [power.energy_now, tenth_battery_monitor, Option.map_some', hnow]
  · simp only [power.energy_full, tenth_battery_monitor, Option.map_some', hfull]

/-- The percentage that `cpu_max_speed` computes from the two energies of
`tenth_battery_monitor`: the product lies halfway between two doubles and
rounds to the even one, the double nearest to 64.1, and the quotient rounds to
the double next below 10. -/
theorem battery_percent_tenth :
    battery_percent (360850920143061 / 562949953421312) (1804254600715305 / 281474976710656)
      = 5629499534213119 / 562949953421312 := by
  have hp : round_double (100 * (360850920143061 / 562949953421312))
      = 2255318250894131 / 35184372088832 := by
    rw [round_double_pos_tie _ 6 4510636501788262 (by norm_num) (by norm_num) (by norm_num)
      (by norm_num) (by decide)]
    norm_num
  have hq : round_double ((2255318250894131 : ℚ) / 35184372088832
      / (1804254600715305 / 281474976710656)) = 5629499534213119 / 562949953421312 := by
    rw [round_double_pos_eq _ 3 5629499534213119 (by norm_num) (by norm_num) (by norm_num)
      (by norm_num) (by norm_num)]
    norm_num
  unfold battery_percent
  rw [hp, hq]

/-- C26 (amended): `cpu_max_speed()` returns the active power mode's
`cpu_max_speed` on AC and, with a readable battery of nonzero `energy_full`, on
battery when the double that the code computes for
`100.0*energy_now/energy_full` (the product rounded, then the quotient) is not
below `powersave_min_energy_percent`; when that double is below the percentage
it returns `powersave_cpu_max_speed`. What it returns is one of these two
settings, so it is never more than the mode's `cpu_max_speed` when
`powersave_cpu_max_speed` is not. -/
theorem C26_effective_cap (m : monitor_impl) :
    (m.m_on_ac = true → cpu_max_speed m = some (power_settings m).cpu_max_speed) ∧
    (∀ now full : ℚ, m.m_on_ac = false → m.m_battery.energy_now = some now →
      m.m_battery.energy_full = some full → full ≠ 0 →
      (m.m_set.powersave_min_energy_percent ≤ battery_percent now full →
        cpu_max_speed m = some (power_settings m).cpu_max_speed) ∧
      (battery_percent now full < m.m_set.powersave_min_energy_percent →
        cpu_max_speed m = some m.m_set.powersave_cpu_max_speed)) ∧
    (∀ cap, cpu_max_speed m = some cap →
      cap = (power_settings m).cpu_max_speed ∨ cap = m.m_set.powersave_cpu_max_speed) ∧
    (m.m_set.powersave_cpu_max_speed ≤ (power_settings m).cpu_max_speed →
      ∀ cap, cpu_max_speed m = some cap → cap ≤ (power_settings m).cpu_max_speed) := by
  have hone : ∀ cap, cpu_max_speed m = some cap →
      cap = (power_settings m).cpu_max_speed ∨ cap = m.m_set.powersave_cpu_max_speed := by
    intro cap h
    unfold cpu_max_speed at h
    split at h
    · split at h
      · split at h
        · injection h with h; exact Or.inr h.symm
        · injection h with h; exact Or.inl h.symm
      · exact Option.noConfusion h
    · injection h with h; exact Or.inl h.symm
  refine ⟨?_, ?_, hone, ?_⟩
  · intro hac
    unfold cpu_max_speed
    simp [hac]
  · intro now full hbat hnow hfull hne
    unfold cpu_max_speed
    simp only [hbat, Bool.not_false, if_true, hnow, hfull, below_percent, hne, if_false]
    constructor
    · intro hge
      simp [not_lt.mpr hge]
    · intro hlt
      simp [hlt]
  · intro hle cap h
    rcases hone cap h with h1 | h1
    · rw [h1]
    · rw [h1]; exact hle

/-- C26, counterexample. First, on battery at 5 percent of the charge, with
`powersave_cpu_max_speed` 3000000 and a battery mode ceiling of 1600000,
`cpu_max_speed()` returns 3000000, more than the mode's `cpu_max_speed`.
Second, with the default settings and the charge 641000 of 6410000, the two
energies are the doubles nearest to 0.641 and 6.41 and `100 * energy_now /
energy_full` is exactly 10, not below `powersave_min_energy_percent` = 10, and
`cpu_max_speed()` returns `powersave_cpu_max_speed` = 1000000, not the mode's
1600000: the double that the code computes is the one next below 10. -/
theorem C26_cap_above_mode_and_rounded_percentage :
    (low_battery_monitor.m_on_ac = false ∧
      (power_settings low_battery_monitor).cpu_max_speed = 1600000 ∧
      cpu_max_speed low_battery_monitor = some 3000000) ∧
    (tenth_battery_monitor.m_on_ac = false ∧
      tenth_battery_monitor.m_battery.energy_now
        = some (360850920143061 / 562949953421312) ∧
      tenth_battery_monitor.m_battery.energy_full
        = some (1804254600715305 / 281474976710656) ∧
      tenth_battery_monitor.m_set.powersave_min_energy_percent
        ≤ 100 * (360850920143061 / 562949953421312) / (1804254600715305 / 281474976710656) ∧
      (power_settings tenth_battery_monitor).cpu_max_speed = 1600000 ∧
      cpu_max_speed tenth_battery_monitor = some 1000000) := by
  refine ⟨⟨rfl, rfl, ?_⟩, rfl, tenth_battery_energies.1, tenth_battery_energies.2, ?_, rfl, ?_⟩
  · norm_num [cpu_max_speed, below_percent, low_battery_monitor, power.energy_now,
      power.energy_full, battery_percent_twentieth]
  · norm_num [tenth_battery_monitor]
  · have hm : tenth_battery_monitor.m_on_ac = false := rfl
    have hp : tenth_battery_monitor.m_set.powersave_min_energy_percent = 10 := rfl
    have hs : tenth_battery_monitor.m_set.powersave_cpu_max_speed = 1000000 := rfl
    unfold cpu_max_speed
    simp only [hm, Bool.not_false, if_true, tenth_battery_energies.1, tenth_battery_energies.2,
      below_percent, battery_percent_tenth, hp, hs]
    norm_num

/-- C26, witness: on battery at half of the charge, `cpu_max_speed()` returns
the ceiling 1600000 of the battery mode. -/
theorem C26_effective_cap_witness :
    cpu_max_speed half_battery_monitor
      = some (power_settings half_battery_monitor).cpu_max_speed :=
  ((C26_effective_cap half_battery_monitor).2.1 5 10 rfl
    (by norm_num [power.energy_now, half_battery_monitor])
    (by norm_num [power.energy_full, half_battery_monitor])
    (by norm_num)).1 (by rw [battery_percent_half]; norm_num [half_battery_monitor])

/-! ## Events while the lid is closed -/

theorem set_display_brightness_frame (pow : ℚ → ℚ → ℚ) (up slow : Bool) (m m1 : monitor_impl)
    (h : set_display_brightness pow up slow m = .done m1 ∨
      set_display_brightness pow up slow m = .thrown m1) :
    m1 = { m with m_backlight := m1.m_backlight } := by
  unfold set_display_brightness at h
  split at h
  · rcases h with h | h
    · exact outcome.noConfusion h
    · injection h with h; subst h; rfl
  · split at h
    · rcases h with h | h
      · exact outcome.noConfusion h
      · injection h with h; subst h; rfl
    · split at h
      · rcases h with h | h
        · exact outcome.noConfusion h
        · injection h with h; subst h; rfl
      · rcases h with h | h
        · injection h with h; subst h; rfl
        · exact outcome.noConfusion h

theorem set_keyboard_brightness_frame (pow : ℚ → ℚ → ℚ) (up slow : Bool) (m m1 : monitor_impl)
    (h : set_keyboard_brightness pow up slow m = .done m1 ∨
      set_keyboard_brightness pow up slow m = .thrown m1) :
    m1 = { m with m_kbd_backlight := m1.m_kbd_backlight } := by
  unfold set_keyboard_brightness at h
  split at h
  · rcases h with h | h
    · exact outcome.noConfusion h
    · injection h with h; subst h; rfl
  · split at h
    · rcases h with h | h
      · exact outcome.noConfusion h
      · injection h with h; subst h; rfl
    · split at h
      · rcases h with h | h
        · exact outcome.noConfusion h
        · injection h with h; subst h; rfl
      · rcases h with h | h
        · injection h with h; subst h; rfl
        · exact outcome.noConfusion h

theorem handle_event_idle_lid_closed (code : event_code) (m : monitor_impl)
    (hlid : m.m_idle_level = 2) (hcode : code ≠ .LID_OPENED) :
    handle_event_idle code m = .done m := by
  unfold handle_event_idle
  by_cases h1 : code = .LID_CLOSED
  · rw [if_pos h1]
    unfold enter_idle
    rw [if_neg (by omega)]
  · rw [if_neg h1, if_neg hcode, if_neg (by omega)]

/-- What the `switch` of `handle_event` leaves alone: everything but the
backlight that the event steps. -/
theorem handle_event_switch_frame (pow : ℚ → ℚ → ℚ) (code : event_code) (m m1 : monitor_impl)
    (h : handle_event_switch pow code m = .done m1 ∨
      handle_event_switch pow code m = .thrown m1) :
    m1 = { m with m_backlight := m1.m_backlight, m_kbd_backlight := m1.m_kbd_backlight } ∧
    (display_event code = false → m1.m_backlight = m.m_backlight) ∧
    (keyboard_event code = false → m1.m_kbd_backlight = m.m_kbd_backlight) := by
  have hd : ∀ up slow, (set_display_brightness pow up slow m = .done m1 ∨
      set_display_brightness pow up slow m = .thrown m1) →
      m1 = { m with m_backlight := m1.m_backlight, m_kbd_backlight := m1.m_kbd_backlight } ∧
      m1.m_kbd_backlight = m.m_kbd_backlight := by
    intro up slow h
    have hf := set_display_brightness_frame pow up slow m m1 h
    constructor
    · rw [hf]
    · rw [hf]
  have hk : ∀ up slow, (set_keyboard_brightness pow up slow m = .done m1 ∨
      set_keyboard_brightness pow up slow m = .thrown m1) →
      m1 = { m with m_backlight := m1.m_backlight, m_kbd_backlight := m1.m_kbd_backlight } ∧
      m1.m_backlight = m.m_backlight := by
    intro up slow h
    have hf := set_keyboard_brightness_frame pow up slow m m1 h
    constructor
    · rw [hf]
    · rw [hf]
  have hn : (handle_event_switch pow code m = .done m) →
      m1 = m := by
    intro h0
    rw [h0] at h
    rcases h with h | h
    · injection h with h; exact h.symm
    · exact outcome.noConfusion h
  cases code
  case DISPLAY_BRIGHTNESS_UP =>
    exact ⟨(hd _ _ h).1, fun hc => absurd hc (by decide), fun _ => (hd _ _ h).2⟩
  case DISPLAY_BRIGHTNESS_DOWN =>
    exact ⟨(hd _ _ h).1, fun hc => absurd hc (by decide), fun _ => (hd _ _ h).2⟩
  case DISPLAY_BRIGHTNESS_UP_SLOW =>
    exact ⟨(hd _ _ h).1, fun hc => absurd hc (by decide), fun _ => (hd _ _ h).2⟩
  case DISPLAY_BRIGHTNESS_DOWN_SLOW =>
    exact ⟨(hd _ _ h).1, fun hc => absurd hc (by decide), fun _ => (hd _ _ h).2⟩
  case KEYBOARD_BRIGHTNESS_UP =>
    exact ⟨(hk _ _ h).1, fun _ => (hk _ _ h).2, fun hc => absurd hc (by decide)⟩
  case KEYBOARD_BRIGHTNESS_DOWN =>
    exact ⟨(hk _ _ h).1, fun _ => (hk _ _ h).2, fun hc => absurd hc (by decide)⟩
  case KEYBOARD_BRIGHTNESS_UP_SLOW =>
    exact ⟨(hk _ _ h).1, fun _ => (hk _ _ h).2, fun hc => absurd hc (by decide)⟩
  case KEYBOARD_BRIGHTNESS_DOWN_SLOW =>
    exact ⟨(hk _ _ h).1, fun _ => (hk _ _ h).2, fun hc => absurd hc (by decide)⟩
  all_goals
    have hm := hn rfl
    subst hm
    exact ⟨rfl, fun _ => rfl, fun _ => rfl⟩

/-- C27 (amended): with the lid closed (idle level 2), `handle_event` with a
code other than `LID_OPENED` makes no idle transition and goes on to its
`switch`: however the call ends, the idle level and both saved values are
unchanged, and so is every backlight that the event does not step. An event
that is no brightness event returns the state unchanged; a brightness event
applies the brightness calculator to its backlight at this level too. -/
theorem C27_lid_closed_events (pow : ℚ → ℚ → ℚ) (code : event_code) (m : monitor_impl)
    (hlid : m.m_idle_level = 2) (hcode : code ≠ .LID_OPENED) :
    handle_event pow code m = handle_event_switch pow code m ∧
    (display_event code = false → keyboard_event code = false →
      handle_event pow code m = .done m) ∧
    ∀ m1, handle_event pow code m = .done m1 ∨ handle_event pow code m = .thrown m1 →
      m1.m_idle_level = 2 ∧
      m1.m_saved_display_backlight = m.m_saved_display_backlight ∧
      m1.m_saved_keyboard_backlight = m.m_saved_keyboard_backlight ∧
      (display_event code = false → m1.m_backlight = m.m_backlight) ∧
      (keyboard_event code = false → m1.m_kbd_backlight = m.m_kbd_backlight) := by
  have hsw : handle_event pow code m = handle_event_switch pow code m := by
    unfold handle_event
    rw [handle_event_idle_lid_closed code m hlid hcode]
    rfl
  refine ⟨hsw, ?_, ?_⟩
  · intro h1 h2
    rw [hsw]
    cases code <;> first | rfl | exact absurd h1 (by decide) | exact absurd h2 (by decide)
  · intro m1 h
    rw [hsw] at h
    obtain ⟨hf, hd, hk⟩ := handle_event_switch_frame pow code m m1 h
    refine ⟨?_, ?_, ?_, hd, hk⟩
    · rw [hf]; exact hlid
    · rw [hf]
    · rw [hf]

/-- C27, witness: keyboard activity while the lid is closed. -/
theorem C27_lid_closed_events_witness :
    handle_event pow_integral .KEYBOARD_ACTIVITY lid_closed_monitor
      = handle_event_switch pow_integral .KEYBOARD_ACTIVITY lid_closed_monitor ∧
    (display_event .KEYBOARD_ACTIVITY = false → keyboard_event .KEYBOARD_ACTIVITY = false →
      handle_event pow_integral .KEYBOARD_ACTIVITY lid_closed_monitor = .done lid_closed_monitor) ∧
    ∀ m1, handle_event pow_integral .KEYBOARD_ACTIVITY lid_closed_monitor = .done m1 ∨
        handle_event pow_integral .KEYBOARD_ACTIVITY lid_closed_monitor = .thrown m1 →
      m1.m_idle_level = 2 ∧
      m1.m_saved_display_backlight = lid_closed_monitor.m_saved_display_backlight ∧
      m1.m_saved_keyboard_backlight = lid_closed_monitor.m_saved_keyboard_backlight ∧
      (display_event .KEYBOARD_ACTIVITY = false →
        m1.m_backlight = lid_closed_monitor.m_backlight) ∧
      (keyboard_event .KEYBOARD_ACTIVITY = false →
        m1.m_kbd_backlight = lid_closed_monitor.m_kbd_backlight) :=
  C27_lid_closed_events pow_integral .KEYBOARD_ACTIVITY lid_closed_monitor rfl (by decide)

/-- C27, counterexample: with the lid closed and the display off,
`handle_event(DISPLAY_BRIGHTNESS_UP)` applies the brightness calculator (steps
of one unit, exponent 1) and writes 1 to the display. -/
theorem C27_brightness_event_under_closed_lid :
    lid_closed_monitor.m_idle_level = 2 ∧
    lid_closed_monitor.m_backlight.actual_brightness = some 0 ∧
    handle_event pow_integral .DISPLAY_BRIGHTNESS_UP lid_closed_monitor
      = .done { lid_closed_monitor with
                m_backlight := { actual_brightness := some 1, brightness := some 1,
                                 max_brightness := some 1000 } } := by
  refine ⟨rfl, rfl, ?_⟩
  have hcalc : calc_brightness pow_integral linear_steps 0 1000 true false = 1 := by
    have h : double_to_int ((1 : ℚ) + 1 / 2) = 1 := by
      have := double_to_int_natCast 1 (by unfold INT_MAX; norm_num)
      norm_num at this ⊢
      exact this
    unfold calc_brightness calc_brightness_tmp calc_brightness_norm linear_steps
    norm_num [pow_integral_one]
    norm_num at h
    rw [h]
    decide
  have h0 : unsigned_to_int 0 = 0 := by decide
  have h1000 : unsigned_to_int 1000 = 1000 := by decide
  have hw : write_brightness pow_integral linear_steps lid_closed_monitor.m_backlight 0 1000
      true false = some { actual_brightness := some 1, brightness := some 1,
                          max_brightness := some 1000 } := by
    unfold write_brightness
    simp only [h0, h1000, hcalc]
    rfl
  have e1 : lid_closed_monitor.m_backlight.max_brightness = some 1000 := rfl
  have e2 : lid_closed_monitor.m_backlight.actual_brightness = some 0 := rfl
  have e3 : lid_closed_monitor.m_set.display_backlight = linear_steps := rfl
  unfold handle_event
  rw [handle_event_idle_lid_closed _ _ rfl (by decide)]
  show set_display_brightness pow_integral true false lid_closed_monitor = _
  unfold set_display_brightness
  simp only [e1, e2, e3, hw]

/-! ## The frequency that `check_cpu` writes -/

/-- On a sorted ladder, an entry at an index up to `cap_ix` is not above the cap
when the cap is itself an entry of the ladder, or when no entry is above the
cap. -/
theorem written_frequency_le_cap (available : List Nat) (hs : available.Sorted (· ≤ ·))
    (hne : available ≠ []) (cap new_ix f : Nat)
    (hix : new_ix ≤ cap_index available cap) (hf : available[new_ix]? = some f)
    (hcap : cap ∈ available ∨ ∀ x ∈ available, x ≤ cap) : f ≤ cap := by
  rcases hcap with hmem | hall
  · obtain ⟨p, hp⟩ := List.mem_iff_getElem?.mp hmem
    have hlb : lower_bound available cap ≤ p := lower_bound_of_entry available p cap hp
    obtain ⟨hplt, -⟩ := List.getElem?_eq_some_iff.mp hp
    have hci : cap_index available cap = lower_bound available cap := by
      rw [cap_index_eq_min available cap hne]
      exact min_eq_left (by omega)
    rw [hci] at hix
    obtain ⟨g, hg⟩ : ∃ g, available[lower_bound available cap]? = some g :=
      ⟨_, List.getElem?_eq_getElem (by omega)⟩
    have h1 : f ≤ g := sorted_entries_le available hs _ _ f g hix hf hg
    have h2 : g ≤ cap := sorted_entries_le available hs _ _ g cap hlb hg hp
    omega
  · exact hall f (List.getElem?_mem hf)

theorem cpu_flags_cold (ceiling cap : Nat) :
    throttle_flag (governor_monitor ceiling cap 50 0) = false ∧
    unthrottle_flag (governor_monitor ceiling cap 50 0) = true := by
  constructor
  · simp [throttle_flag, power_settings, governor_monitor]; norm_num
  · simp [unthrottle_flag, power_settings, governor_monitor]; norm_num

/-- C29, the code at a failing input: ladder 1000..5000 (lowest entry below the
cap), effective cap 2500, ceiling 2000, estimate 50 below the cold threshold:
`cap_ix` is the index 2 of the first entry not below the cap, and `check_cpu`
writes 3000, above the cap. -/
theorem C29_ceiling_raised_above_cap :
    cpu_max_speed (governor_monitor 2000 2500 50 0) = some 2500 ∧
    cap_index ([1000, 2000, 3000, 4000, 5000].insertionSort (· ≤ ·)) 2500 = 2 ∧
    check_cpu (governor_monitor 2000 2500 50 0)
      = .done { governor_monitor 2000 2500 50 0 with
                m_cpuinfo := [ladder_cpu 3000], m_cpu_unthrottle_time := 10 } ∧
    (2500 : Nat) < 3000 := by
  have hcap := cpu_max_speed_governor 2000 2500 50 0
  have hcool : cpu_cooldowns (governor_monitor 2000 2500 50 0)
      = governor_monitor 2000 2500 50 0 := by
    simp [cpu_cooldowns, cooldown_step, governor_monitor]
  refine ⟨hcap, by rw [sorted_ladder]; decide, ?_, by decide⟩
  rw [check_cpu_of_reads (governor_monitor 2000 2500 50 0) (ladder_cpu 2000) []
    [1000, 2000, 3000, 4000, 5000] 2000 2500 rfl rfl (by decide) hcap]
  rw [cpu_ratchet_governor, (cpu_flags_cold 2000 2500).1, (cpu_flags_cold 2000 2500).2, hcool,
    sorted_ladder]
  have h1 : lower_bound [1000, 2000, 3000, 4000, 5000] 2000 = 1 := by decide
  have h2 : cap_index [1000, 2000, 3000, 4000, 5000] 2500 = 2 := by decide
  have h3 : select_index false true 1 2 = 2 := by decide
  rw [h1, h2, h3]
  simp [write_ceiling, set_scaling_max_freq, governor_monitor, ladder_cpu, power_settings]

/-- The two indices that `check_cpu` uses for the write are in range: when the
three reads succeed on a non-empty ladder, for every current ceiling and every
cap, the index `new_ix` handed to the write step and `cap_ix` are both below
`available.size()`. -/
theorem write_index_in_bounds (m : monitor_impl) (front : cpu) (rest : List cpu)
    (frequencies : List Nat) (current cap : Nat)
    (hcpus : m.m_cpuinfo = front :: rest)
    (hfreq : front.scaling_available_frequencies = some frequencies)
    (hne : frequencies ≠ [])
    (hcur : scaling_max_freq m.m_cpuinfo = some current)
    (hcap : cpu_max_speed m = some cap) :
    ∃ new_ix : Nat,
      check_cpu m = write_ceiling (power_settings m) (throttle_flag (cpu_ratchet m))
        (unthrottle_flag (cpu_ratchet m)) (frequencies.insertionSort (· ≤ ·))
        (lower_bound (frequencies.insertionSort (· ≤ ·)) current) new_ix
        (cpu_cooldowns (cpu_ratchet m)) ∧
      new_ix < (frequencies.insertionSort (· ≤ ·)).length ∧
      cap_index (frequencies.insertionSort (· ≤ ·)) cap
        < (frequencies.insertionSort (· ≤ ·)).length ∧
      ((frequencies.insertionSort (· ≤ ·))[new_ix]?).isSome := by
  have hsorted_ne : frequencies.insertionSort (· ≤ ·) ≠ [] := by
    intro hnil
    have hlen := List.length_insertionSort (· ≤ ·) frequencies
    rw [hnil] at hlen
    exact hne (List.length_eq_zero.mp hlen.symm)
  have hcapix := cap_index_lt_length (frequencies.insertionSort (· ≤ ·)) cap hsorted_ne
  have hsel := select_index_le_cap (throttle_flag (cpu_ratchet m)) (unthrottle_flag (cpu_ratchet m))
    (lower_bound (frequencies.insertionSort (· ≤ ·)) current)
    (cap_index (frequencies.insertionSort (· ≤ ·)) cap)
  have hrun := check_cpu_of_reads m front rest frequencies current cap hcpus hfreq hcur hcap
  have hlt := Nat.lt_of_le_of_lt hsel hcapix
  refine ⟨_, hrun, hlt, hcapix, ?_⟩
  rw [List.getElem?_eq_getElem hlt]; rfl

end aird
